import Mathlib

/-!
# streamout: the buffer looper and its counters

A shallow embedding of `BufferLooper::loop` (libs/core/include/BufferLooper.h) and of
`SDHCAL_buffer_LoopCounter::printAllCounters` / `printCounter`
(libs/core/src/SDHCAL_buffer_LoopCounter.cc), and the properties proved about them.

Conventions of the embedding.

* The two collaborators of the looper (the template parameters `SOURCE` and `DESTINATION`) are
  observed through the sequence of member calls that `loop` issues to them: a run yields a
  `List Call`, in the order of issue.
* What the Source answers is a script: the events it yields, each with the DIF buffers it yields
  for that event. `nextEvent()` and `nextDIFbuffer()` answer `true` while the script has a next
  element and consume it.
* `RawBufferNavigator` is declared in a header that is not part of the sources at hand. It is a
  parameter of the embedding: a record giving, for the buffer bound by `setBuffer`, the answer of
  each query that `loop` makes.
* Messages sent to the logger and the timer are not collaborator calls and are left out.
* `assert` is taken as active. A failed assertion (only possible when `m_Debug` is set) ends the
  process: the run is then marked `aborted` and nothing more is issued.
-/

namespace Streamout

/-! ## Data model -/

/-- One byte of a buffer (`bit8_t` in the sources). -/
abbrev bit8_t := Fin 256

/-- Modelled from the spec: `Buffer` (Buffer.h is not among the sources), a non-owning view
`{ptr, length}` over contiguous bytes. `m_Buffer` is the address of the first byte and `bytes`
are the bytes the view ranges over. -/
structure Buffer where
  m_Buffer : Nat
  bytes : List bit8_t
deriving DecidableEq, Repr

/-- Number of bytes of the view: `Buffer::size()`. -/
def Buffer.size (b : Buffer) : Nat := b.bytes.length

/-- Address of the first byte: `Buffer::begin()`. -/
def Buffer.begin (b : Buffer) : Nat := b.m_Buffer

/-- Address one past the last byte: `Buffer::end()`. -/
def Buffer.end_ (b : Buffer) : Nat := b.m_Buffer + b.size

/-- Modelled from the spec: `DetectorID` (DetectorId.h is not among the sources), the enumeration
naming the hardware module that produced a buffer; embedded by its numeric value. -/
abbrev DetectorID := Nat

/-- Modelled from the spec: `DIFPtr` (its header is not among the sources), the pointer-table
view of a DIF buffer, reduced to the two members that `loop` reads. -/
structure DIFPtr where
  getGetFramePtrReturn : Nat
  getNumberOfFrames : Nat
deriving DecidableEq, Repr

/-- Modelled from the spec: `RawBufferNavigator` (RawBufferNavigator.h is not among the sources).
Each field is the answer of the query of the same name once `setBuffer` has bound the buffer given
as argument. `getDIFBufferStart()` returns a byte pointer which `loop` only indexes: it is the map
from an index to the byte read there. Integer answers used as histogram keys are given as
converted to the key type `int`. -/
structure RawBufferNavigator where
  getDIFBuffer : Buffer → Buffer
  getDetectorID : Buffer → DetectorID
  getStartOfDIF : Buffer → Int
  validBuffer : Buffer → Bool
  getDIFPtr : Buffer → DIFPtr
  getDIFBufferStart : Buffer → Nat → bit8_t
  getSizeAfterDIFPtr : Buffer → Int
  hasSlowControlData : Buffer → Bool
  badSCData : Buffer → Bool
  getSCBuffer : Buffer → Buffer
  getEndOfAllData : Buffer → Buffer

/-! ## std::map<int, int> -/

/-- The entries of a `std::map<int, int>` after `m[k]++`: `operator[]` finds the entry of key `k`,
inserting it with count `0` at its place in key order when absent, and `++` adds one to it. -/
def incrEntries (k : Int) : List (Int × Int) → List (Int × Int)
  | [] => [(k, 0 + 1)]
  | (k', v) :: t =>
    if k < k' then (k, 0 + 1) :: (k', v) :: t
    else if k = k' then (k', v + 1) :: t
    else (k', v) :: incrEntries k t

/-- Every key of `incrEntries k l` is `k` or a key of `l`. -/
theorem mem_keys_incrEntries (k : Int) (l : List (Int × Int)) (x : Int)
    (hx : x ∈ (incrEntries k l).map Prod.fst) : x = k ∨ x ∈ l.map Prod.fst := by
  induction l with
  | nil => simpa [incrEntries] using hx
  | cons e t ih =>
    obtain ⟨k', v⟩ := e
    unfold incrEntries at hx
    split_ifs at hx with h1 h2
    · simp only [List.map_cons, List.mem_cons] at hx ⊢
      tauto
    · exact Or.inr (by simpa using hx)
    · simp only [List.map_cons, List.mem_cons] at hx ⊢
      rcases hx with hx | hx
      · exact Or.inr (Or.inl hx)
      · rcases ih hx with h | h
        · exact Or.inl h
        · exact Or.inr (Or.inr h)

/-- The update `m[k]++` keeps the keys strictly ascending. -/
theorem pairwise_incrEntries (k : Int) (l : List (Int × Int))
    (h : (l.map Prod.fst).Pairwise (· < ·)) :
    ((incrEntries k l).map Prod.fst).Pairwise (· < ·) := by
  induction l with
  | nil => simp [incrEntries]
  | cons e t ih =>
    obtain ⟨k', v⟩ := e
    simp only [List.map_cons, List.pairwise_cons] at h
    unfold incrEntries
    split_ifs with h1 h2
    · simp only [List.map_cons, List.pairwise_cons, List.mem_cons]
      refine ⟨?_, h.1, h.2⟩
      rintro a (rfl | ha)
      · exact h1
      · exact lt_trans h1 (h.1 a ha)
    · simpa using h
    · simp only [List.map_cons, List.pairwise_cons]
      refine ⟨?_, ih h.2⟩
      intro a ha
      rcases mem_keys_incrEntries k t a ha with rfl | ha
      · omega
      · exact h.1 a ha

/-- A `std::map<int, int>`: its entries in iteration order, which is strictly ascending key
order. -/
structure StdMap where
  entries : List (Int × Int)
  sorted : (entries.map Prod.fst).Pairwise (· < ·)

/-- Two maps with the same entries are the same map. -/
theorem StdMap.ext_entries {a b : StdMap} (h : a.entries = b.entries) : a = b := by
  cases a; cases b; cases h; rfl

instance : DecidableEq StdMap := fun a b =>
  if h : a.entries = b.entries then isTrue (StdMap.ext_entries h)
  else isFalse (fun e => h (by rw [e]))

/-- The empty map, as default-constructed. -/
def StdMap.empty : StdMap := ⟨[], List.Pairwise.nil⟩

/-- The count stored under key `k`, if the map has an entry for it (`std::map::find`). -/
def StdMap.find? (m : StdMap) (k : Int) : Option Int :=
  (m.entries.find? (fun e => e.1 == k)).map Prod.snd

/-- The statement `m[k]++`. -/
def StdMap.incr (m : StdMap) (k : Int) : StdMap :=
  ⟨incrEntries k m.entries, pairwise_incrEntries k m.entries m.sorted⟩

/-- The counters of the looper (`BufferLooperCounter`, whose members are those printed by
`SDHCAL_buffer_LoopCounter::printAllCounters`): five histograms and two tallies. -/
structure BufferLooperCounter where
  DIFStarter : StdMap
  DIFPtrValueAtReturnedPos : StdMap
  SizeAfterDIFPtr : StdMap
  SizeAfterAllData : StdMap
  NonZeroValusAtEndOfData : StdMap
  hasSlowControl : Int
  hasBadSlowControl : Int
deriving DecidableEq

/-- The counters as default-constructed: empty histograms, tallies at zero. -/
def BufferLooperCounter.init : BufferLooperCounter :=
  ⟨StdMap.empty, StdMap.empty, StdMap.empty, StdMap.empty, StdMap.empty, 0, 0⟩

/-! ## Calls issued to the collaborators -/

/-- The two collaborators of the looper. -/
inductive Collaborator where
  | Source
  | Destination
deriving DecidableEq, Repr

/-- A member call issued by `loop` to one of its collaborators. The lifecycle hooks exist on both
collaborators and carry the receiver; `nextEvent`, `nextDIFbuffer` and `getSDHCALBuffer` are calls
to the Source, the `process...` calls are calls to the Destination. -/
inductive Call where
  | start (w : Collaborator)
  | nextEvent
  | startEvent (w : Collaborator)
  | nextDIFbuffer
  | getSDHCALBuffer
  | startDIF (w : Collaborator)
  | processDIF (d : DIFPtr)
  | startFrame (w : Collaborator)
  | processFrame (d : DIFPtr) (i : Nat)
  | startPad (w : Collaborator)
  | processPadInFrame (d : DIFPtr) (i j : Nat)
  | endPad (w : Collaborator)
  | endFrame (w : Collaborator)
  | processSlowControl (b : Buffer)
  | endDIF (w : Collaborator)
  | endEvent (w : Collaborator)
  | end_ (w : Collaborator)
deriving DecidableEq, Repr

open Collaborator

/-! ## BufferLooper -/

/-- The data members of `BufferLooper` that `loop` reads or writes. `m_NbrEvents` is a
`std::uint32_t`. -/
structure BufferLooper where
  m_DetectorIDs : List DetectorID
  c : BufferLooperCounter
  m_Debug : Bool
  m_NbrEvents : Nat
deriving DecidableEq

/-- The looper as left by its constructor: `m_NbrEvents{1}`, no detector id, fresh counters. -/
def BufferLooper.new (debug : Bool) : BufferLooper :=
  { m_DetectorIDs := [], c := BufferLooperCounter.init, m_Debug := debug, m_NbrEvents := 1 }

/-- The member `setDetectorIDs`. -/
def BufferLooper.setDetectorIDs (lp : BufferLooper) (detectorIDs : List DetectorID) :
    BufferLooper :=
  { lp with m_DetectorIDs := detectorIDs }

/-- What a stretch of `loop` leaves behind: the counters, the calls it issued in order, and
whether a failed assertion ended the process in it. -/
structure Outcome where
  c : BufferLooperCounter
  calls : List Call
  aborted : Bool
deriving DecidableEq

/-- The pad loop of lines 99-106, for frame `i`: `n` iterations starting at pad index `j`. -/
def padLoop (d : DIFPtr) (i : Nat) : Nat → Nat → List Call
  | 0, _ => []
  | n + 1, j =>
    [Call.startPad Source, Call.startPad Destination, Call.processPadInFrame d i j,
      Call.endPad Source, Call.endPad Destination] ++ padLoop d i n (j + 1)

/-- The frame loop of lines 92-111: `n` iterations starting at frame index `i`. -/
def frameLoop (NUMBER_PAD : Nat) (d : DIFPtr) : Nat → Nat → List Call
  | 0, _ => []
  | n + 1, i =>
    [Call.startFrame Source, Call.startFrame Destination, Call.processFrame d i]
      ++ padLoop d i NUMBER_PAD 0
      ++ [Call.endFrame Source, Call.endFrame Destination]
      ++ frameLoop NUMBER_PAD d n (i + 1)

/-- The count of lines 133-135: the bytes of `eod` that are different from zero. -/
def nonzeroCount : List bit8_t → Int
  | [] => 0
  | b :: t => if (b.val : Int) ≠ 0 then nonzeroCount t + 1 else nonzeroCount t

/-- The body of the DIF while loop, lines 60-140, for one buffer handed out by the Source.
`NUMBER_PAD` stands for `DU::NUMBER_PAD` (Words.h is not among the sources). -/
def difBody (nav : RawBufferNavigator) (NUMBER_PAD : Nat) (m_DetectorIDs : List DetectorID)
    (m_Debug : Bool) (c : BufferLooperCounter) (buffer : Buffer) : Outcome :=
  let debug_variable_1 := buffer.end_
  let debug_variable_2 := (nav.getDIFBuffer buffer).end_
  if m_Debug && debug_variable_1 != debug_variable_2 then
    ⟨c, [Call.getSDHCALBuffer], true⟩
  else if !(m_DetectorIDs.contains (nav.getDetectorID buffer)) then
    ⟨c, [Call.getSDHCALBuffer], false⟩
  else
    let idstart := nav.getStartOfDIF buffer
    let c := { c with DIFStarter := c.DIFStarter.incr idstart }
    let calls := [Call.getSDHCALBuffer, Call.startDIF Source, Call.startDIF Destination]
    if !(nav.validBuffer buffer) then
      ⟨c, calls, false⟩
    else
      let d := nav.getDIFPtr buffer
      let atReturnedPos := nav.getDIFBufferStart buffer d.getGetFramePtrReturn
      let c := { c with DIFPtrValueAtReturnedPos :=
                          c.DIFPtrValueAtReturnedPos.incr (atReturnedPos.val : Int) }
      if m_Debug && atReturnedPos != 0xa0 then
        ⟨c, calls, true⟩
      else
        let c := { c with SizeAfterDIFPtr := c.SizeAfterDIFPtr.incr (nav.getSizeAfterDIFPtr buffer) }
        let calls := calls ++ [Call.processDIF d]
          ++ frameLoop NUMBER_PAD d d.getNumberOfFrames 0
        let processSC := false
        let hasSC := nav.hasSlowControlData buffer
        let c := if hasSC then { c with hasSlowControl := c.hasSlowControl + 1 } else c
        let processSC := if hasSC then true else processSC
        let badSC := nav.badSCData buffer
        let c := if badSC then { c with hasBadSlowControl := c.hasBadSlowControl + 1 } else c
        let processSC := if badSC then false else processSC
        let calls :=
          if processSC then calls ++ [Call.processSlowControl (nav.getSCBuffer buffer)] else calls
        let eod := nav.getEndOfAllData buffer
        let c := { c with SizeAfterAllData := c.SizeAfterAllData.incr (eod.size : Int) }
        let debug_variable_3 := eod.end_
        if m_Debug && debug_variable_1 != debug_variable_3 then
          ⟨c, calls, true⟩
        else
          let c := { c with NonZeroValusAtEndOfData :=
                              c.NonZeroValusAtEndOfData.incr (nonzeroCount eod.bytes) }
          ⟨c, calls ++ [Call.endDIF Source, Call.endDIF Destination], false⟩

/-- The DIF while loop of lines 58-141 over the buffers the Source yields for the current event.
Each turn starts with the call `nextDIFbuffer()`; the loop ends when it answers `false`. -/
def difLoop (nav : RawBufferNavigator) (NUMBER_PAD : Nat) (m_DetectorIDs : List DetectorID)
    (m_Debug : Bool) (c : BufferLooperCounter) : List Buffer → Outcome
  | [] => ⟨c, [Call.nextDIFbuffer], false⟩
  | buffer :: rest =>
    let o := difBody nav NUMBER_PAD m_DetectorIDs m_Debug c buffer
    if o.aborted then ⟨o.c, Call.nextDIFbuffer :: o.calls, true⟩
    else
      let r := difLoop nav NUMBER_PAD m_DetectorIDs m_Debug o.c rest
      ⟨r.c, Call.nextDIFbuffer :: o.calls ++ r.calls, r.aborted⟩

/-- The script of a Source: the events it still has to yield, each one the list of the DIF
buffers it yields for that event. -/
abbrev SourceScript := List (List Buffer)

/-- A run of `loop`, or of its event loop: the looper and the Source script afterwards, the calls
issued in order, and whether a failed assertion ended the process. -/
structure Run where
  looper : BufferLooper
  source : SourceScript
  calls : List Call
  aborted : Bool
deriving DecidableEq

/-- The event while loop of lines 50-148. The test calls `nextEvent()` first, which consumes the
next event of the script, and compares the budget with `m_NbrEvents` only when it answered
`true`. -/
def eventLoop (nav : RawBufferNavigator) (NUMBER_PAD : Nat) (m_NbrEventsToProcess : Nat)
    (lp : BufferLooper) : SourceScript → Run
  | [] => ⟨lp, [], [Call.nextEvent], false⟩
  | event :: rest =>
    if m_NbrEventsToProcess ≥ lp.m_NbrEvents then
      let o := difLoop nav NUMBER_PAD lp.m_DetectorIDs lp.m_Debug lp.c event
      let calls := [Call.nextEvent, Call.startEvent Source, Call.startEvent Destination] ++ o.calls
      if o.aborted then ⟨{ lp with c := o.c }, rest, calls, true⟩
      else
        let lp := { lp with c := o.c, m_NbrEvents := (lp.m_NbrEvents + 1) % 2 ^ 32 }
        let r := eventLoop nav NUMBER_PAD m_NbrEventsToProcess lp rest
        ⟨r.looper, r.source,
          calls ++ [Call.endEvent Source, Call.endEvent Destination] ++ r.calls, r.aborted⟩
    else ⟨lp, rest, [Call.nextEvent], false⟩

/-- The member `loop`, lines 43-153, called with budget `m_NbrEventsToProcess` (a
`std::uint32_t`; the default argument is `0`). -/
def loop (nav : RawBufferNavigator) (NUMBER_PAD : Nat) (lp : BufferLooper)
    (source : SourceScript) (m_NbrEventsToProcess : Nat) : Run :=
  let r := eventLoop nav NUMBER_PAD m_NbrEventsToProcess lp source
  let calls := [Call.start Source, Call.start Destination] ++ r.calls
  if r.aborted then ⟨r.looper, r.source, calls, true⟩
  else ⟨r.looper, r.source, calls ++ [Call.end_ Destination, Call.end_ Source], false⟩

/-! ## The report of the counters -/

/-- `std::to_string(int)`: the decimal digits of the value, after a `-` when it is negative. -/
def to_string (i : Int) : String := toString i

/-- The text that `fmt::print` makes of a format string when it is called without further
argument: a character other than a brace stands for itself, `{{` stands for `{` and `}}` for `}`;
any other use of a brace is a replacement field without argument or an unmatched brace, for which
fmt throws `format_error` (`none`). -/
def fmtText : List Char → Option (List Char)
  | [] => some []
  | [c] => if c = '\x7b' ∨ c = '\x7d' then none else some [c]
  | c :: c2 :: t =>
    if c = '\x7b' ∨ c = '\x7d' then
      if c2 = c then (fmtText t).map (c :: ·) else none
    else (fmtText (c2 :: t)).map (c :: ·)

/-- The call `fmt::print(s)`: the text written to the standard output, `none` when fmt throws. -/
def fmt_print (s : String) : Option String := (fmtText s.data).map String.mk

/-- The for loop of lines 23-27 of `printCounter` over the entries of the map in iteration order.
`atBegin` tells whether the iterator is `m.begin()`. -/
def printCounterLoop (out : String) (atBegin : Bool) : List (Int × Int) → String
  | [] => out
  | it :: rest =>
    let out := if !atBegin then out ++ "," else out
    let out := out ++ (" [" ++ to_string it.1 ++ "]=" ++ to_string it.2)
    printCounterLoop out false rest

/-- The member `printCounter`: the text it writes, `none` when `fmt::print` throws. -/
def printCounter (description : String) (m : StdMap) : Option String :=
  let out := "statistics for " ++ description ++ " : \n"
  let out := printCounterLoop out true m.entries
  let out := out ++ "\n"
  fmt_print out

/-- The member `printAllCounters`: the counters after the call, and the text written by its six
statements (`none` when a `fmt::print` throws). -/
def printAllCounters (c : BufferLooperCounter) : BufferLooperCounter × Option String :=
  (c, do
    let t0 ← fmt_print "BUFFER LOOP FINAL STATISTICS : \n"
    let t1 ← printCounter "Start of DIF header" c.DIFStarter
    let t2 ← printCounter "Value after DIF data are processed" c.DIFPtrValueAtReturnedPos
    let t3 ← printCounter "Size remaining in buffer after end of DIF data" c.SizeAfterDIFPtr
    let t4 := "Number of Slow Control found " ++ to_string c.hasSlowControl
      ++ "  out of which " ++ to_string c.hasBadSlowControl ++ " are bad\n"
    let t5 ← printCounter "Size remaining after all of data have been processed"
      c.SizeAfterAllData
    let t6 ← printCounter "Number on non zero values in end of data buffer"
      c.NonZeroValusAtEndOfData
    pure (t0 ++ t1 ++ t2 ++ t3 ++ t4 ++ t5 ++ t6))

/-- The text of one entry: ` [key]=count`. -/
def entryText (e : Int × Int) : String := " [" ++ to_string e.1 ++ "]=" ++ to_string e.2

/-- The text of a histogram in the report. -/
def counterText (description : String) (m : StdMap) : String :=
  "statistics for " ++ description ++ " : \n"
    ++ String.intercalate "," (m.entries.map entryText) ++ "\n"

/-! ## Tally statements -/

/-- One tally statement of `loop`: `c.H[v]++` for one of the five histograms `H` and an observed
value `v`, or `c.hasSlowControl++`, or `c.hasBadSlowControl++`. -/
inductive Observation where
  | DIFStarter (v : Int)
  | DIFPtrValueAtReturnedPos (v : Int)
  | SizeAfterDIFPtr (v : Int)
  | SizeAfterAllData (v : Int)
  | NonZeroValusAtEndOfData (v : Int)
  | hasSlowControl
  | hasBadSlowControl
deriving DecidableEq, Repr

/-- The effect of one tally statement on the counters. -/
def BufferLooperCounter.record (c : BufferLooperCounter) : Observation → BufferLooperCounter
  | Observation.DIFStarter v => { c with DIFStarter := c.DIFStarter.incr v }
  | Observation.DIFPtrValueAtReturnedPos v =>
    { c with DIFPtrValueAtReturnedPos := c.DIFPtrValueAtReturnedPos.incr v }
  | Observation.SizeAfterDIFPtr v => { c with SizeAfterDIFPtr := c.SizeAfterDIFPtr.incr v }
  | Observation.SizeAfterAllData v => { c with SizeAfterAllData := c.SizeAfterAllData.incr v }
  | Observation.NonZeroValusAtEndOfData v =>
    { c with NonZeroValusAtEndOfData := c.NonZeroValusAtEndOfData.incr v }
  | Observation.hasSlowControl => { c with hasSlowControl := c.hasSlowControl + 1 }
  | Observation.hasBadSlowControl => { c with hasBadSlowControl := c.hasBadSlowControl + 1 }

/-- The counters after a sequence of tally statements, executed in order. -/
def BufferLooperCounter.recordAll (c : BufferLooperCounter) (obs : List Observation) :
    BufferLooperCounter :=
  obs.foldl BufferLooperCounter.record c

/-! ## A navigator and buffers for worked examples -/

/-- A navigator for worked examples. It reads the detector id in byte 0 and the number of frames
in byte 1, reports slow control when byte 2 is `0xb1` and bad slow control when byte 3 is not
`0`, places the frame table at the first byte `0xa0` (start `-1` and an invalid buffer when there
is none) and takes what follows that byte as the remainder after all data. -/
def exampleNavigator : RawBufferNavigator where
  getDIFBuffer := fun b => b
  getDetectorID := fun b => (b.bytes.getD 0 0).val
  getStartOfDIF := fun b =>
    match b.bytes.indexOf? 0xa0 with
    | some i => (i : Int)
    | none => -1
  validBuffer := fun b => b.bytes.contains 0xa0
  getDIFPtr := fun b => ⟨b.bytes.indexOf 0xa0, (b.bytes.getD 1 0).val⟩
  getDIFBufferStart := fun b i => b.bytes.getD i 0
  getSizeAfterDIFPtr := fun b => (b.size : Int) - (b.bytes.indexOf 0xa0 : Nat) - 1
  hasSlowControlData := fun b => b.bytes.getD 2 0 == 0xb1
  badSCData := fun b => b.bytes.getD 3 0 != 0
  getSCBuffer := fun b => b
  getEndOfAllData := fun b =>
    ⟨b.m_Buffer + (b.bytes.indexOf 0xa0 + 1), b.bytes.drop (b.bytes.indexOf 0xa0 + 1)⟩

/-- A valid buffer of detector 7: two frames, good slow control, frame table at offset 4 and
two trailing bytes, one of them not zero. -/
def goodBuffer : Buffer := ⟨100, [7, 2, 0xb1, 0, 0xa0, 0, 3]⟩

/-- A buffer of detector 7 without the byte `0xa0`: not valid. -/
def noSentinelBuffer : Buffer := ⟨200, [7, 2, 0xb1, 0, 0, 0, 3]⟩

/-- A valid buffer of detector 7 with one frame for which the navigator reports bad slow control
and no slow control data. -/
def badOnlyBuffer : Buffer := ⟨300, [7, 1, 0, 1, 0xa0]⟩

/-- A valid buffer of detector 9 with one frame. -/
def otherDetectorBuffer : Buffer := ⟨400, [9, 1, 0, 0, 0xa0]⟩

/-- A freshly constructed looper, not in debug mode, whose allow-list holds detector 7. -/
def exampleLooper : BufferLooper := (BufferLooper.new false).setDetectorIDs [7]

/-- A freshly constructed looper in debug mode whose allow-list holds detector 7. -/
def exampleDebugLooper : BufferLooper := (BufferLooper.new true).setDetectorIDs [7]

/-! ## Vocabulary of the statements -/

/-- The calls that `loop` issues for a DIF buffer it has let through the filter: from `startDIF`
to `endDIF`, both included. -/
def Call.inDIF : Call → Bool
  | Call.startDIF _ => true
  | Call.processDIF _ => true
  | Call.startFrame _ => true
  | Call.processFrame _ _ => true
  | Call.startPad _ => true
  | Call.processPadInFrame _ _ _ => true
  | Call.endPad _ => true
  | Call.endFrame _ => true
  | Call.processSlowControl _ => true
  | Call.endDIF _ => true
  | _ => false

/-- The calls of the Destination that take the `DIFPtr`: `processDIF`, `processFrame` and
`processPadInFrame`. -/
def Call.takesDIFPtr : Call → Bool
  | Call.processDIF _ => true
  | Call.processFrame _ _ => true
  | Call.processPadInFrame _ _ _ => true
  | _ => false

/-- Recognises a call `processDIF`. -/
def Call.isProcessDIF : Call → Bool
  | Call.processDIF _ => true
  | _ => false

/-- Recognises a call `processFrame`. -/
def Call.isProcessFrame : Call → Bool
  | Call.processFrame _ _ => true
  | _ => false

/-- Recognises a call `processPadInFrame`. -/
def Call.isProcessPadInFrame : Call → Bool
  | Call.processPadInFrame _ _ _ => true
  | _ => false

/-- Recognises a call `processSlowControl`. -/
def Call.isProcessSlowControl : Call → Bool
  | Call.processSlowControl _ => true
  | _ => false

/-- The counters after lines 79-127 for a valid buffer: the first four histograms and the two
tallies have been updated, `NonZeroValusAtEndOfData` not yet. -/
def countersBeforeLastTally (nav : RawBufferNavigator) (c : BufferLooperCounter)
    (buffer : Buffer) : BufferLooperCounter :=
  { DIFStarter := c.DIFStarter.incr (nav.getStartOfDIF buffer),
    DIFPtrValueAtReturnedPos := c.DIFPtrValueAtReturnedPos.incr
      ((nav.getDIFBufferStart buffer (nav.getDIFPtr buffer).getGetFramePtrReturn).val : Int),
    SizeAfterDIFPtr := c.SizeAfterDIFPtr.incr (nav.getSizeAfterDIFPtr buffer),
    SizeAfterAllData := c.SizeAfterAllData.incr ((nav.getEndOfAllData buffer).size : Int),
    NonZeroValusAtEndOfData := c.NonZeroValusAtEndOfData,
    hasSlowControl := c.hasSlowControl + (if nav.hasSlowControlData buffer then 1 else 0),
    hasBadSlowControl := c.hasBadSlowControl + (if nav.badSCData buffer then 1 else 0) }

/-- The calls of lines 60-124 for a valid buffer: fetch, `startDIF`, `processDIF`, the frame
loop, and `processSlowControl` when slow control is there and not bad. -/
def callsBeforeEndDIF (nav : RawBufferNavigator) (NUMBER_PAD : Nat) (buffer : Buffer) :
    List Call :=
  [Call.getSDHCALBuffer, Call.startDIF Source, Call.startDIF Destination,
      Call.processDIF (nav.getDIFPtr buffer)]
    ++ frameLoop NUMBER_PAD (nav.getDIFPtr buffer) (nav.getDIFPtr buffer).getNumberOfFrames 0
    ++ (if nav.hasSlowControlData buffer && !nav.badSCData buffer
        then [Call.processSlowControl (nav.getSCBuffer buffer)] else [])

/-- The histogram `after` is `before` with exactly one entry incremented, by one, at key `k`:
the count of `k` is one more than it was, `1` when `k` had no entry, and every other key has the
entry it had, or none as before. -/
def StdMap.IncrementedAt (after before : StdMap) (k : Int) : Prop :=
  ∀ k', after.find? k' = if k' = k then some ((before.find? k).getD 0 + 1) else before.find? k'

/-- A text without the characters `{` and `}`. -/
def NoBrace (l : List Char) : Prop := ∀ c ∈ l, c ≠ '\x7b' ∧ c ≠ '\x7d'

/-! ## The event loop as a whole -/

/-- The divisor of the per-event figure of the report of line 152, `1000 * m_NbrEvents`: the
product of an `int` and a `std::uint32_t`, computed in 32-bit unsigned arithmetic. -/
def perEventDivisor (lp : BufferLooper) : Nat := (1000 * lp.m_NbrEvents) % 2 ^ 32

/-- The number of turns of the event loop of line 50 for a Source that still yields `K` events,
when the counter `m_NbrEvents` holds `m`: a turn is taken while an event is left and
`m_NbrEventsToProcess >= m_NbrEvents`, and it ends with `m_NbrEvents++` on 32 bits. -/
def eventsProcessed (m_NbrEventsToProcess : Nat) : Nat → Nat → Nat
  | _, 0 => 0
  | m, K + 1 =>
    if m_NbrEventsToProcess ≥ m then
      eventsProcessed m_NbrEventsToProcess ((m + 1) % 2 ^ 32) K + 1
    else 0

/-- The calls of the run level and of the event level: `start`, `nextEvent`, `startEvent`,
`endEvent` and `end`. -/
def Call.isLoopLevel : Call → Bool
  | Call.start _ => true
  | Call.nextEvent => true
  | Call.startEvent _ => true
  | Call.endEvent _ => true
  | Call.end_ _ => true
  | _ => false

/-- The sum over a sequence of calls of a weight given to each call. -/
def weigh (w : Call → Int) (calls : List Call) : Int := (calls.map w).sum

/-- The weight that counts the occurrences of the call `x`. -/
def Call.ind (x : Call) : Call → Int := fun c => if c = x then 1 else 0

/-! ## Successive runs, totals of the histograms and the navigator of the spec -/

/-- Successive calls of `loop` on one looper: each call has its budget and the script of what
the Source yields during it, and starts from the looper as the call before left it. A run
that an assertion ends is the last one. -/
def loopSeq (nav : RawBufferNavigator) (NUMBER_PAD : Nat) :
    BufferLooper → List (Nat × SourceScript) → List Run
  | _, [] => []
  | lp, call :: rest =>
    let r := loop nav NUMBER_PAD lp call.2 call.1
    if r.aborted then [r] else r :: loopSeq nav NUMBER_PAD r.looper rest

/-- The number of events that a sequence of runs has started to process: the calls
`startEvent` issued to the Source. -/
def eventsStarted (runs : List Run) : Nat :=
  (runs.map (fun r => r.calls.count (Call.startEvent Source))).sum

/-- The sum of all counts of a histogram. -/
def StdMap.total (m : StdMap) : Int := (m.entries.map Prod.snd).sum

/-- Whether the looper processes a buffer up to `endDIF`: its detector id is in the allow-list
and `validBuffer()` is true. -/
def unfilteredValid (nav : RawBufferNavigator) (ids : List DetectorID) (b : Buffer) : Bool :=
  ids.contains (nav.getDetectorID b) && nav.validBuffer b

/-- Modelled from the spec: the scan of `RawBufferNavigator::getStartOfDIF()` (the class is not
among the sources), which examines the bytes in order and stops at the first byte equal to the
sentinel `0xa0`: the offset of that byte, counted from `pos` for the first byte given, or `-1`
when no byte is the sentinel. -/
def scanForSentinel : List bit8_t → Nat → Int
  | [], _ => -1
  | b :: rest, pos => if b = 0xa0 then (pos : Int) else scanForSentinel rest (pos + 1)

/-- Modelled from the spec: `RawBufferNavigator::getStartOfDIF()` (the class is not among the
sources): scans forward from the header for the sentinel byte and returns its offset in the
buffer, or `-1` if the sentinel is absent anywhere in the remaining buffer. `headerSize` stands
for the length of the header, which the spec does not give. -/
def specGetStartOfDIF (headerSize : Nat) (buffer : Buffer) : Int :=
  scanForSentinel (buffer.bytes.drop headerSize) headerSize

/-- Modelled from the spec: `RawBufferNavigator::validBuffer()` (the class is not among the
sources): true only if the sentinel was found and the structural invariants needed to build a
`DIFPtr` hold. `framesFit` stands for those invariants, which the spec does not detail. -/
def specValidBuffer (headerSize : Nat) (framesFit : Buffer → Bool) (buffer : Buffer) : Bool :=
  specGetStartOfDIF headerSize buffer != -1 && framesFit buffer

/-! ## Lock-step and nesting of the hooks -/

/-- The hooks of the event, frame and pad levels, which exist on both collaborators. -/
inductive Hook where
  | startEvent
  | startFrame
  | startPad
  | endPad
  | endFrame
  | endEvent
deriving DecidableEq, Repr

/-- The call of a hook on a collaborator. -/
def Hook.call : Hook → Collaborator → Call
  | Hook.startEvent, x => Call.startEvent x
  | Hook.startFrame, x => Call.startFrame x
  | Hook.startPad, x => Call.startPad x
  | Hook.endPad, x => Call.endPad x
  | Hook.endFrame, x => Call.endFrame x
  | Hook.endEvent, x => Call.endEvent x

/-- Recognises the calls of the hooks of the event, frame and pad levels. -/
def Call.isHook : Call → Bool
  | Call.startEvent _ => true
  | Call.startFrame _ => true
  | Call.startPad _ => true
  | Call.endPad _ => true
  | Call.endFrame _ => true
  | Call.endEvent _ => true
  | _ => false

/-- A sequence of calls in which every hook of the event, frame and pad levels is issued to the
Source and immediately afterwards to the Destination, and in no other way: the sequence is made
of such pairs and of calls that are not hooks of these levels. -/
inductive LockStep : List Call → Prop where
  | nil : LockStep []
  | pair (h : Hook) (rest : List Call) :
      LockStep rest → LockStep (h.call Source :: h.call Destination :: rest)
  | other (call : Call) (rest : List Call) :
      call.isHook = false → LockStep rest → LockStep (call :: rest)

/-- One step of the check of nesting for the collaborator `x`, which is outside any event at
depth `0`, in an event at depth `1`, in a frame at depth `2` and in a pad at depth `3`: a hook
issued to `x` must find the depth it opens or closes from, and moves to the next; any other call
leaves the depth as it is. `none` when a hook comes at the wrong depth. -/
def nestStep (x : Collaborator) (depth : Nat) : Call → Option Nat
  | Call.startEvent y => if y = x then (if depth = 0 then some 1 else none) else some depth
  | Call.startFrame y => if y = x then (if depth = 1 then some 2 else none) else some depth
  | Call.startPad y => if y = x then (if depth = 2 then some 3 else none) else some depth
  | Call.endPad y => if y = x then (if depth = 3 then some 2 else none) else some depth
  | Call.endFrame y => if y = x then (if depth = 2 then some 1 else none) else some depth
  | Call.endEvent y => if y = x then (if depth = 1 then some 0 else none) else some depth
  | _ => some depth

/-- The check of nesting along a sequence of calls, from a depth: the depth reached, or `none`
when a hook comes at the wrong depth. -/
def nestRun (x : Collaborator) : Nat → List Call → Option Nat
  | depth, [] => some depth
  | depth, call :: rest =>
    match nestStep x depth call with
    | some d => nestRun x d rest
    | none => none

/-! ## Unfolding the loops -/

/-- The DIF loop when the Source has no further buffer for the event. -/
theorem difLoop_nil (nav : RawBufferNavigator) (NUMBER_PAD : Nat) (ids : List DetectorID)
    (dbg : Bool) (c : BufferLooperCounter) :
    difLoop nav NUMBER_PAD ids dbg c [] = ⟨c, [Call.nextDIFbuffer], false⟩ := rfl

/-- One turn of the DIF loop that ends in a failed assertion. -/
theorem difLoop_cons_aborted (nav : RawBufferNavigator) (NUMBER_PAD : Nat)
    (ids : List DetectorID) (dbg : Bool) (c : BufferLooperCounter) (buffer : Buffer)
    (rest : List Buffer) (h : (difBody nav NUMBER_PAD ids dbg c buffer).aborted = true) :
    difLoop nav NUMBER_PAD ids dbg c (buffer :: rest)
      = ⟨(difBody nav NUMBER_PAD ids dbg c buffer).c,
          Call.nextDIFbuffer :: (difBody nav NUMBER_PAD ids dbg c buffer).calls, true⟩ := by
  simp [difLoop, h]

/-- One turn of the DIF loop that runs to its end: the loop goes on with the next buffer. -/
theorem difLoop_cons (nav : RawBufferNavigator) (NUMBER_PAD : Nat)
    (ids : List DetectorID) (dbg : Bool) (c : BufferLooperCounter) (buffer : Buffer)
    (rest : List Buffer) (h : (difBody nav NUMBER_PAD ids dbg c buffer).aborted = false) :
    difLoop nav NUMBER_PAD ids dbg c (buffer :: rest)
      = ⟨(difLoop nav NUMBER_PAD ids dbg (difBody nav NUMBER_PAD ids dbg c buffer).c rest).c,
          Call.nextDIFbuffer :: (difBody nav NUMBER_PAD ids dbg c buffer).calls
            ++ (difLoop nav NUMBER_PAD ids dbg (difBody nav NUMBER_PAD ids dbg c buffer).c
                  rest).calls,
          (difLoop nav NUMBER_PAD ids dbg (difBody nav NUMBER_PAD ids dbg c buffer).c
              rest).aborted⟩ := by
  simp [difLoop, h]

/-- Every pass through the DIF loop starts with the call `nextDIFbuffer()`. -/
theorem difLoop_calls_head (nav : RawBufferNavigator) (NUMBER_PAD : Nat)
    (ids : List DetectorID) (dbg : Bool) (c : BufferLooperCounter) (buffers : List Buffer) :
    (difLoop nav NUMBER_PAD ids dbg c buffers).calls.head? = some Call.nextDIFbuffer := by
  cases buffers with
  | nil => rfl
  | cons b t =>
    cases hb : (difBody nav NUMBER_PAD ids dbg c b).aborted
    · rw [difLoop_cons nav NUMBER_PAD ids dbg c b t hb]; rfl
    · rw [difLoop_cons_aborted nav NUMBER_PAD ids dbg c b t hb]; rfl

/-- The event loop when the Source has no further event. -/
theorem eventLoop_nil (nav : RawBufferNavigator) (NUMBER_PAD budget : Nat) (lp : BufferLooper) :
    eventLoop nav NUMBER_PAD budget lp [] = ⟨lp, [], [Call.nextEvent], false⟩ := rfl

/-- The event loop when the budget test fails: the event just fetched is dropped. -/
theorem eventLoop_cons_over (nav : RawBufferNavigator) (NUMBER_PAD budget : Nat)
    (lp : BufferLooper) (event : List Buffer) (rest : SourceScript)
    (h : budget < lp.m_NbrEvents) :
    eventLoop nav NUMBER_PAD budget lp (event :: rest) = ⟨lp, rest, [Call.nextEvent], false⟩ := by
  have h2 : ¬ budget ≥ lp.m_NbrEvents := by omega
  simp [eventLoop, h2]

/-- One turn of the event loop whose DIF loop ends in a failed assertion. -/
theorem eventLoop_cons_aborted (nav : RawBufferNavigator) (NUMBER_PAD budget : Nat)
    (lp : BufferLooper) (event : List Buffer) (rest : SourceScript)
    (h : lp.m_NbrEvents ≤ budget)
    (ha : (difLoop nav NUMBER_PAD lp.m_DetectorIDs lp.m_Debug lp.c event).aborted = true) :
    eventLoop nav NUMBER_PAD budget lp (event :: rest)
      = ⟨{ lp with c := (difLoop nav NUMBER_PAD lp.m_DetectorIDs lp.m_Debug lp.c event).c },
          rest,
          [Call.nextEvent, Call.startEvent Source, Call.startEvent Destination]
            ++ (difLoop nav NUMBER_PAD lp.m_DetectorIDs lp.m_Debug lp.c event).calls,
          true⟩ := by
  have h2 : budget ≥ lp.m_NbrEvents := h
  simp [eventLoop, h2, ha]

/-- One turn of the event loop that runs to its end: the event is counted and the loop goes on. -/
theorem eventLoop_cons (nav : RawBufferNavigator) (NUMBER_PAD budget : Nat)
    (lp : BufferLooper) (event : List Buffer) (rest : SourceScript)
    (h : lp.m_NbrEvents ≤ budget)
    (ha : (difLoop nav NUMBER_PAD lp.m_DetectorIDs lp.m_Debug lp.c event).aborted = false) :
    eventLoop nav NUMBER_PAD budget lp (event :: rest)
      = ⟨(eventLoop nav NUMBER_PAD budget
            { lp with c := (difLoop nav NUMBER_PAD lp.m_DetectorIDs lp.m_Debug lp.c event).c,
                      m_NbrEvents := (lp.m_NbrEvents + 1) % 2 ^ 32 } rest).looper,
          (eventLoop nav NUMBER_PAD budget
            { lp with c := (difLoop nav NUMBER_PAD lp.m_DetectorIDs lp.m_Debug lp.c event).c,
                      m_NbrEvents := (lp.m_NbrEvents + 1) % 2 ^ 32 } rest).source,
          [Call.nextEvent, Call.startEvent Source, Call.startEvent Destination]
            ++ (difLoop nav NUMBER_PAD lp.m_DetectorIDs lp.m_Debug lp.c event).calls
            ++ [Call.endEvent Source, Call.endEvent Destination]
            ++ (eventLoop nav NUMBER_PAD budget
                { lp with c := (difLoop nav NUMBER_PAD lp.m_DetectorIDs lp.m_Debug lp.c event).c,
                          m_NbrEvents := (lp.m_NbrEvents + 1) % 2 ^ 32 } rest).calls,
          (eventLoop nav NUMBER_PAD budget
            { lp with c := (difLoop nav NUMBER_PAD lp.m_DetectorIDs lp.m_Debug lp.c event).c,
                      m_NbrEvents := (lp.m_NbrEvents + 1) % 2 ^ 32 } rest).aborted⟩ := by
  have h2 : budget ≥ lp.m_NbrEvents := h
  simp [eventLoop, h2, ha]

/-- A run that a failed assertion ends: no `end` is issued. -/
theorem loop_aborted (nav : RawBufferNavigator) (NUMBER_PAD budget : Nat) (lp : BufferLooper)
    (source : SourceScript) (h : (eventLoop nav NUMBER_PAD budget lp source).aborted = true) :
    loop nav NUMBER_PAD lp source budget
      = ⟨(eventLoop nav NUMBER_PAD budget lp source).looper,
          (eventLoop nav NUMBER_PAD budget lp source).source,
          [Call.start Source, Call.start Destination]
            ++ (eventLoop nav NUMBER_PAD budget lp source).calls, true⟩ := by
  simp [loop, h]

/-- A run that no assertion ends. -/
theorem loop_completed (nav : RawBufferNavigator) (NUMBER_PAD budget : Nat) (lp : BufferLooper)
    (source : SourceScript) (h : (eventLoop nav NUMBER_PAD budget lp source).aborted = false) :
    loop nav NUMBER_PAD lp source budget
      = ⟨(eventLoop nav NUMBER_PAD budget lp source).looper,
          (eventLoop nav NUMBER_PAD budget lp source).source,
          [Call.start Source, Call.start Destination]
            ++ (eventLoop nav NUMBER_PAD budget lp source).calls
            ++ [Call.end_ Destination, Call.end_ Source], false⟩ := by
  simp [loop, h]

/-! ## Filtered buffers -/

/-- A buffer whose detector id is not in the allow-list: only the assertion of line 66 can
matter, and neither calls nor counters are touched. -/
theorem difBody_of_not_mem (nav : RawBufferNavigator) (NUMBER_PAD : Nat) (ids : List DetectorID)
    (dbg : Bool) (c : BufferLooperCounter) (buffer : Buffer)
    (h : nav.getDetectorID buffer ∉ ids) :
    difBody nav NUMBER_PAD ids dbg c buffer
      = ⟨c, [Call.getSDHCALBuffer], dbg && buffer.end_ != (nav.getDIFBuffer buffer).end_⟩ := by
  have hc : ids.contains (nav.getDetectorID buffer) = false := by
    simpa using h
  unfold difBody
  by_cases ha : (dbg && buffer.end_ != (nav.getDIFBuffer buffer).end_) = true
  · simp [ha]
  · simp only [Bool.not_eq_true] at ha
    simp only [ha, hc, Bool.false_eq_true, if_false, Bool.not_false, if_true]

/-- The DIF loop over buffers that are all filtered out leaves the counters alone and issues no
call of the DIF level. -/
theorem difLoop_all_filtered (nav : RawBufferNavigator) (NUMBER_PAD : Nat)
    (ids : List DetectorID) (dbg : Bool) (c : BufferLooperCounter) (buffers : List Buffer)
    (h : ∀ b ∈ buffers, nav.getDetectorID b ∉ ids) :
    (difLoop nav NUMBER_PAD ids dbg c buffers).c = c ∧
      ∀ call ∈ (difLoop nav NUMBER_PAD ids dbg c buffers).calls, call.inDIF = false := by
  induction buffers with
  | nil => simp [difLoop_nil, Call.inDIF]
  | cons b rest ih =>
    have hb := difBody_of_not_mem nav NUMBER_PAD ids dbg c b (h b (List.mem_cons_self _ _))
    have ih := ih (fun x hx => h x (List.mem_cons_of_mem _ hx))
    cases ha : (difBody nav NUMBER_PAD ids dbg c b).aborted with
    | true =>
      rw [difLoop_cons_aborted nav NUMBER_PAD ids dbg c b rest ha, hb]
      simp [Call.inDIF]
    | false =>
      rw [difLoop_cons nav NUMBER_PAD ids dbg c b rest ha, hb]
      refine ⟨ih.1, ?_⟩
      intro call hcall
      simp only [List.cons_append, List.mem_cons, List.nil_append] at hcall
      rcases hcall with rfl | rfl | hcall
      · rfl
      · rfl
      · exact ih.2 call hcall

/-- The event loop over a script whose buffers are all filtered out leaves the counters alone and
issues no call of the DIF level. -/
theorem eventLoop_all_filtered (nav : RawBufferNavigator) (NUMBER_PAD budget : Nat)
    (source : SourceScript) :
    ∀ lp : BufferLooper, (∀ ev ∈ source, ∀ b ∈ ev, nav.getDetectorID b ∉ lp.m_DetectorIDs) →
      (eventLoop nav NUMBER_PAD budget lp source).looper.c = lp.c ∧
      ∀ call ∈ (eventLoop nav NUMBER_PAD budget lp source).calls, call.inDIF = false := by
  induction source with
  | nil => intro lp _; simp [eventLoop_nil, Call.inDIF]
  | cons ev rest ih =>
    intro lp h
    have hd := difLoop_all_filtered nav NUMBER_PAD lp.m_DetectorIDs lp.m_Debug lp.c ev
      (h ev (List.mem_cons_self _ _))
    rcases Nat.lt_or_ge budget lp.m_NbrEvents with hb | hb
    · rw [eventLoop_cons_over nav NUMBER_PAD budget lp ev rest hb]
      simp [Call.inDIF]
    · cases ha : (difLoop nav NUMBER_PAD lp.m_DetectorIDs lp.m_Debug lp.c ev).aborted with
      | true =>
        rw [eventLoop_cons_aborted nav NUMBER_PAD budget lp ev rest hb ha]
        refine ⟨hd.1, ?_⟩
        intro call hcall
        simp only [List.cons_append, List.mem_cons, List.nil_append] at hcall
        rcases hcall with rfl | rfl | rfl | hcall
        · rfl
        · rfl
        · rfl
        · exact hd.2 call hcall
      | false =>
        have ih := ih
          { lp with c := (difLoop nav NUMBER_PAD lp.m_DetectorIDs lp.m_Debug lp.c ev).c,
                    m_NbrEvents := (lp.m_NbrEvents + 1) % 2 ^ 32 }
          (fun e he b hb => h e (List.mem_cons_of_mem _ he) b hb)
        rw [eventLoop_cons nav NUMBER_PAD budget lp ev rest hb ha]
        refine ⟨by rw [ih.1]; exact hd.1, ?_⟩
        intro call hcall
        simp only [List.cons_append, List.mem_cons, List.mem_append, List.nil_append,
          List.mem_nil_iff, or_false] at hcall
        rcases hcall with rfl | rfl | rfl | hcall
        · rfl
        · rfl
        · rfl
        · rcases hcall with (hcall | rfl | rfl) | hcall
          · exact hd.2 call hcall
          · rfl
          · rfl
          · exact ih.2 call hcall

/-- A run over a script whose buffers are all filtered out leaves the counters alone and issues
no call of the DIF level. -/
theorem loop_all_filtered (nav : RawBufferNavigator) (NUMBER_PAD budget : Nat)
    (lp : BufferLooper) (source : SourceScript)
    (h : ∀ ev ∈ source, ∀ b ∈ ev, nav.getDetectorID b ∉ lp.m_DetectorIDs) :
    (loop nav NUMBER_PAD lp source budget).looper.c = lp.c ∧
      ∀ call ∈ (loop nav NUMBER_PAD lp source budget).calls, call.inDIF = false := by
  have he := eventLoop_all_filtered nav NUMBER_PAD budget source lp h
  cases ha : (eventLoop nav NUMBER_PAD budget lp source).aborted with
  | true =>
    rw [loop_aborted nav NUMBER_PAD budget lp source ha]
    refine ⟨he.1, ?_⟩
    intro call hcall
    simp only [List.cons_append, List.mem_cons, List.nil_append] at hcall
    rcases hcall with rfl | rfl | hcall
    · rfl
    · rfl
    · exact he.2 call hcall
  | false =>
    rw [loop_completed nav NUMBER_PAD budget lp source ha]
    refine ⟨he.1, ?_⟩
    intro call hcall
    simp only [List.cons_append, List.mem_cons, List.mem_append, List.nil_append,
      List.mem_nil_iff, or_false] at hcall
    rcases hcall with rfl | rfl | hcall
    · rfl
    · rfl
    · rcases hcall with hcall | rfl | rfl
      · exact he.2 call hcall
      · rfl
      · rfl

/-! ## The frame and pad loops -/

/-- The pad loop sends `processPadInFrame(d, i, j)` for `j` running up from its start index. -/
theorem filter_padLoop (d : DIFPtr) (i n : Nat) :
    ∀ j, (padLoop d i n j).filter Call.takesDIFPtr
      = (List.range' j n).map (fun j => Call.processPadInFrame d i j) := by
  induction n with
  | zero => intro j; rfl
  | succ n ih =>
    intro j
    simp [padLoop, Call.takesDIFPtr, List.range'_succ, ih (j + 1)]

/-- The frame loop sends, for `i` running up from its start index, `processFrame(d, i)` and then
`processPadInFrame(d, i, j)` for `j = 0, ..., NUMBER_PAD - 1`. -/
theorem filter_frameLoop (NUMBER_PAD : Nat) (d : DIFPtr) (n : Nat) :
    ∀ i, (frameLoop NUMBER_PAD d n i).filter Call.takesDIFPtr
      = (List.range' i n).flatMap (fun i => Call.processFrame d i ::
          (List.range NUMBER_PAD).map (fun j => Call.processPadInFrame d i j)) := by
  induction n with
  | zero => intro i; rfl
  | succ n ih =>
    intro i
    simp [frameLoop, Call.takesDIFPtr, List.range'_succ, ih (i + 1), filter_padLoop,
      List.range_eq_range']

/-- The pad loop holds no `processFrame` and as many `processPadInFrame` as it has turns. -/
theorem countP_padLoop (d : DIFPtr) (i n : Nat) :
    ∀ j, (padLoop d i n j).countP Call.isProcessFrame = 0 ∧
      (padLoop d i n j).countP Call.isProcessPadInFrame = n ∧
      (padLoop d i n j).countP Call.isProcessDIF = 0 ∧
      (padLoop d i n j).countP Call.isProcessSlowControl = 0 := by
  induction n with
  | zero => intro j; simp [padLoop]
  | succ n ih =>
    intro j
    obtain ⟨h1, h2, h3, h4⟩ := ih (j + 1)
    simp [padLoop, List.countP_cons, Call.isProcessFrame, Call.isProcessPadInFrame,
      Call.isProcessDIF, Call.isProcessSlowControl, h1, h2, h3, h4]

/-- The frame loop holds one `processFrame` per turn and `NUMBER_PAD` calls `processPadInFrame`
per turn, and neither `processDIF` nor `processSlowControl`. -/
theorem countP_frameLoop (NUMBER_PAD : Nat) (d : DIFPtr) (n : Nat) :
    ∀ i, (frameLoop NUMBER_PAD d n i).countP Call.isProcessFrame = n ∧
      (frameLoop NUMBER_PAD d n i).countP Call.isProcessPadInFrame = n * NUMBER_PAD ∧
      (frameLoop NUMBER_PAD d n i).countP Call.isProcessDIF = 0 ∧
      (frameLoop NUMBER_PAD d n i).countP Call.isProcessSlowControl = 0 := by
  induction n with
  | zero => intro i; simp [frameLoop]
  | succ n ih =>
    intro i
    obtain ⟨h1, h2, h3, h4⟩ := ih (i + 1)
    obtain ⟨p1, p2, p3, p4⟩ := countP_padLoop d i NUMBER_PAD 0
    simp only [frameLoop, List.countP_append, List.countP_cons, List.countP_nil,
      Call.isProcessFrame, Call.isProcessPadInFrame, Call.isProcessDIF,
      Call.isProcessSlowControl, h1, h2, h3, h4, p1, p2, p3, p4]
    refine ⟨by simp; omega, by simp; ring, by simp, by simp⟩

/-! ## One buffer through the body of the DIF loop -/

/-- A buffer that passes the filter and is not valid, the assertion of line 66 holding when it is
checked: `startDIF` on both collaborators, one count in `DIFStarter`, and the turn is over. -/
theorem difBody_of_not_valid (nav : RawBufferNavigator) (NUMBER_PAD : Nat)
    (ids : List DetectorID) (dbg : Bool) (c : BufferLooperCounter) (buffer : Buffer)
    (h66 : dbg = true → buffer.end_ = (nav.getDIFBuffer buffer).end_)
    (hid : nav.getDetectorID buffer ∈ ids) (hv : nav.validBuffer buffer = false) :
    difBody nav NUMBER_PAD ids dbg c buffer
      = ⟨{ c with DIFStarter := c.DIFStarter.incr (nav.getStartOfDIF buffer) },
          [Call.getSDHCALBuffer, Call.startDIF Source, Call.startDIF Destination], false⟩ := by
  have ha : (dbg && buffer.end_ != (nav.getDIFBuffer buffer).end_) = false := by
    cases dbg
    · rfl
    · simp [h66 rfl]
  have hc : ids.contains (nav.getDetectorID buffer) = true := by simpa using hid
  unfold difBody
  simp only [ha, hc, hv, Bool.false_eq_true, if_false, Bool.not_false, if_true, Bool.not_true]

/-- A buffer that passes the filter and is valid, the assertions of lines 66 and 89 holding when
they are checked. The assertion of line 130 decides whether the turn reaches the last tally and
`endDIF`. -/
theorem difBody_of_valid (nav : RawBufferNavigator) (NUMBER_PAD : Nat)
    (ids : List DetectorID) (dbg : Bool) (c : BufferLooperCounter) (buffer : Buffer)
    (h66 : dbg = true → buffer.end_ = (nav.getDIFBuffer buffer).end_)
    (h89 : dbg = true →
      nav.getDIFBufferStart buffer (nav.getDIFPtr buffer).getGetFramePtrReturn = 0xa0)
    (hid : nav.getDetectorID buffer ∈ ids) (hv : nav.validBuffer buffer = true) :
    difBody nav NUMBER_PAD ids dbg c buffer
      = if dbg && buffer.end_ != (nav.getEndOfAllData buffer).end_ then
          ⟨countersBeforeLastTally nav c buffer, callsBeforeEndDIF nav NUMBER_PAD buffer, true⟩
        else
          ⟨{ countersBeforeLastTally nav c buffer with
              NonZeroValusAtEndOfData :=
                c.NonZeroValusAtEndOfData.incr (nonzeroCount (nav.getEndOfAllData buffer).bytes) },
            callsBeforeEndDIF nav NUMBER_PAD buffer
              ++ [Call.endDIF Source, Call.endDIF Destination], false⟩ := by
  have ha : (dbg && buffer.end_ != (nav.getDIFBuffer buffer).end_) = false := by
    cases dbg
    · rfl
    · simp [h66 rfl]
  have hb : (dbg && nav.getDIFBufferStart buffer (nav.getDIFPtr buffer).getGetFramePtrReturn
      != 0xa0) = false := by
    cases dbg
    · rfl
    · simp [h89 rfl]
  have hc : ids.contains (nav.getDetectorID buffer) = true := by simpa using hid
  unfold difBody
  simp only [ha, hb, hc, hv, Bool.false_eq_true, if_false, Bool.not_false, if_true, Bool.not_true]
  cases hs : nav.hasSlowControlData buffer <;> cases hbd : nav.badSCData buffer <;>
    simp [countersBeforeLastTally, callsBeforeEndDIF, hs, hbd]

/-! ## What `m[k]++` does to the entries -/

/-- A key below all keys of a list has no entry in it. -/
theorem find?_eq_none_of_lt (k : Int) (l : List (Int × Int))
    (h : ∀ x ∈ l.map Prod.fst, k < x) : l.find? (fun e => e.1 == k) = none := by
  rw [List.find?_eq_none]
  intro e he
  have := h e.1 (List.mem_map_of_mem _ he)
  simp only [beq_iff_eq, Bool.not_eq_true]
  omega

/-- Looking up a key after `m[k]++`, on entries in strictly ascending key order. -/
theorem find?_incrEntries (k k' : Int) (l : List (Int × Int))
    (h : (l.map Prod.fst).Pairwise (· < ·)) :
    ((incrEntries k l).find? (fun e => e.1 == k')).map Prod.snd
      = if k' = k then some (((l.find? (fun e => e.1 == k)).map Prod.snd).getD 0 + 1)
        else (l.find? (fun e => e.1 == k')).map Prod.snd := by
  induction l with
  | nil =>
    by_cases hk : k' = k
    · simp [incrEntries, hk]
    · have hk2 : ¬ k = k' := fun e => hk e.symm
      simp [incrEntries, hk, hk2]
  | cons e t ih =>
    obtain ⟨k0, v⟩ := e
    simp only [List.map_cons, List.pairwise_cons] at h
    have ih := ih h.2
    rcases lt_trichotomy k k0 with h1 | h1 | h1
    · have e1 : incrEntries k ((k0, v) :: t) = (k, 0 + 1) :: (k0, v) :: t := by
        simp [incrEntries, h1]
      rw [e1]
      by_cases hk : k' = k
      · subst hk
        have hn : ((k0, v) :: t).find? (fun e => e.1 == k') = none := by
          apply find?_eq_none_of_lt
          intro x hx
          simp only [List.map_cons, List.mem_cons] at hx
          rcases hx with rfl | hx
          · exact h1
          · exact lt_trans h1 (h.1 x hx)
        simp [hn]
      · have hk2 : (k == k') = false := by simpa using fun e => hk e.symm
        simp only [List.find?_cons, hk2, if_neg hk]
    · subst h1
      have e1 : incrEntries k ((k, v) :: t) = (k, v + 1) :: t := by
        simp [incrEntries]
      rw [e1]
      by_cases hk : k' = k
      · subst hk
        simp [List.find?_cons]
      · have hk2 : (k == k') = false := by simpa using fun e => hk e.symm
        simp only [List.find?_cons, hk2, if_neg hk]
    · have e1 : incrEntries k ((k0, v) :: t) = (k0, v) :: incrEntries k t := by
        have h2 : ¬ k < k0 := by omega
        have h3 : ¬ k = k0 := by omega
        simp [incrEntries, h2, h3]
      rw [e1]
      by_cases hk0 : k0 = k'
      · subst hk0
        have hk : ¬ k0 = k := by omega
        simp [List.find?_cons, hk]
      · have hk2 : (k0 == k') = false := by simpa using hk0
        have hk3 : (k0 == k) = false := by
          have : ¬ k0 = k := by omega
          simpa using this
        simp only [List.find?_cons, hk2, hk3]
        exact ih

/-- Looking up a key after `m[k]++`: the entry of `k` has gone up by one, counted from `0` when
there was none, and every other key is as before. -/
theorem StdMap.find?_incr (m : StdMap) (k k' : Int) :
    (m.incr k).find? k' = if k' = k then some ((m.find? k).getD 0 + 1) else m.find? k' :=
  find?_incrEntries k k' m.entries m.sorted

/-- The statement `m[k]++` increments exactly the entry of `k`. -/
theorem StdMap.incrementedAt_incr (m : StdMap) (k : Int) : (m.incr k).IncrementedAt m k :=
  fun k' => m.find?_incr k k'

/-- The count of bytes different from zero is between `0` and the number of bytes. -/
theorem nonzeroCount_bounds (l : List bit8_t) :
    0 ≤ nonzeroCount l ∧ nonzeroCount l ≤ (l.length : Int) := by
  induction l with
  | nil => simp [nonzeroCount]
  | cons b t ih =>
    unfold nonzeroCount
    split_ifs with h
    · simp only [List.length_cons, Nat.cast_add, Nat.cast_one]
      omega
    · simp only [List.length_cons, Nat.cast_add, Nat.cast_one]
      omega

/-- The count of bytes different from zero is `0` exactly when every byte is zero. -/
theorem nonzeroCount_eq_zero_iff (l : List bit8_t) :
    nonzeroCount l = 0 ↔ ∀ b ∈ l, b = 0 := by
  induction l with
  | nil => simp [nonzeroCount]
  | cons b t ih =>
    have hb := (nonzeroCount_bounds t).1
    unfold nonzeroCount
    split_ifs with h
    · have hb0 : b ≠ 0 := by
        intro e
        apply h
        rw [e]
        rfl
      constructor
      · intro h0
        omega
      · intro hall
        exact absurd (hall b (List.mem_cons_self _ _)) hb0
    · have hb0 : b = 0 := by
        apply Fin.ext
        simp only [ne_eq, Decidable.not_not] at h
        exact_mod_cast h
      rw [ih]
      constructor
      · intro hall x hx
        simp only [List.mem_cons] at hx
        rcases hx with rfl | hx
        · exact hb0
        · exact hall x hx
      · intro hall x hx
        exact hall x (List.mem_cons_of_mem _ hx)

/-! ## Properties of the counters kept along a run -/

/-- A property of the counters that every turn of the DIF loop keeps is kept by the loop. -/
theorem difLoop_invariant (nav : RawBufferNavigator) (NUMBER_PAD : Nat) (ids : List DetectorID)
    (dbg : Bool) (P : BufferLooperCounter → Prop) (buffers : List Buffer)
    (hstep : ∀ b ∈ buffers, ∀ c, P c → P (difBody nav NUMBER_PAD ids dbg c b).c) :
    ∀ c, P c → P (difLoop nav NUMBER_PAD ids dbg c buffers).c := by
  induction buffers with
  | nil => intro c hc; simpa [difLoop_nil] using hc
  | cons b rest ih =>
    intro c hc
    have hb := hstep b (List.mem_cons_self _ _) c hc
    cases ha : (difBody nav NUMBER_PAD ids dbg c b).aborted with
    | true =>
      rw [difLoop_cons_aborted nav NUMBER_PAD ids dbg c b rest ha]
      exact hb
    | false =>
      rw [difLoop_cons nav NUMBER_PAD ids dbg c b rest ha]
      exact ih (fun x hx => hstep x (List.mem_cons_of_mem _ hx)) _ hb

/-- A property of the counters that every turn of the DIF loop keeps is kept by the event loop. -/
theorem eventLoop_invariant (nav : RawBufferNavigator) (NUMBER_PAD budget : Nat)
    (ids : List DetectorID) (dbg : Bool) (P : BufferLooperCounter → Prop)
    (source : SourceScript)
    (hstep : ∀ ev ∈ source, ∀ b ∈ ev, ∀ c, P c → P (difBody nav NUMBER_PAD ids dbg c b).c) :
    ∀ lp : BufferLooper, lp.m_DetectorIDs = ids → lp.m_Debug = dbg → P lp.c →
      P (eventLoop nav NUMBER_PAD budget lp source).looper.c := by
  induction source with
  | nil => intro lp _ _ hc; simpa [eventLoop_nil] using hc
  | cons ev rest ih =>
    intro lp hids hdbg hc
    have hd : P (difLoop nav NUMBER_PAD lp.m_DetectorIDs lp.m_Debug lp.c ev).c := by
      rw [hids, hdbg]
      exact difLoop_invariant nav NUMBER_PAD ids dbg P ev
        (hstep ev (List.mem_cons_self _ _)) lp.c hc
    rcases Nat.lt_or_ge budget lp.m_NbrEvents with hb | hb
    · rw [eventLoop_cons_over nav NUMBER_PAD budget lp ev rest hb]
      exact hc
    · cases ha : (difLoop nav NUMBER_PAD lp.m_DetectorIDs lp.m_Debug lp.c ev).aborted with
      | true =>
        rw [eventLoop_cons_aborted nav NUMBER_PAD budget lp ev rest hb ha]
        exact hd
      | false =>
        rw [eventLoop_cons nav NUMBER_PAD budget lp ev rest hb ha]
        exact ih (fun e he => hstep e (List.mem_cons_of_mem _ he)) _ hids hdbg hd

/-- A property of the counters that every turn of the DIF loop keeps is kept by a run. -/
theorem loop_invariant (nav : RawBufferNavigator) (NUMBER_PAD budget : Nat)
    (P : BufferLooperCounter → Prop) (lp : BufferLooper) (source : SourceScript)
    (hstep : ∀ ev ∈ source, ∀ b ∈ ev, ∀ c, P c →
      P (difBody nav NUMBER_PAD lp.m_DetectorIDs lp.m_Debug c b).c)
    (hc : P lp.c) : P (loop nav NUMBER_PAD lp source budget).looper.c := by
  have he := eventLoop_invariant nav NUMBER_PAD budget lp.m_DetectorIDs lp.m_Debug P source
    hstep lp rfl rfl hc
  cases ha : (eventLoop nav NUMBER_PAD budget lp source).aborted with
  | true => rw [loop_aborted nav NUMBER_PAD budget lp source ha]; exact he
  | false => rw [loop_completed nav NUMBER_PAD budget lp source ha]; exact he

/-- What one turn of the DIF loop does to the two tallies: nothing when the turn ends before
line 113, and otherwise one count per query that answers `true`. -/
theorem difBody_tallies (nav : RawBufferNavigator) (NUMBER_PAD : Nat) (ids : List DetectorID)
    (dbg : Bool) (c : BufferLooperCounter) (buffer : Buffer) :
    ((difBody nav NUMBER_PAD ids dbg c buffer).c.hasSlowControl = c.hasSlowControl ∧
      (difBody nav NUMBER_PAD ids dbg c buffer).c.hasBadSlowControl = c.hasBadSlowControl) ∨
    ((difBody nav NUMBER_PAD ids dbg c buffer).c.hasSlowControl
        = c.hasSlowControl + (if nav.hasSlowControlData buffer then 1 else 0) ∧
      (difBody nav NUMBER_PAD ids dbg c buffer).c.hasBadSlowControl
        = c.hasBadSlowControl + (if nav.badSCData buffer then 1 else 0)) := by
  unfold difBody
  cases hs : nav.hasSlowControlData buffer <;> cases hbd : nav.badSCData buffer <;>
    simp only [] <;> split_ifs <;> simp

/-! ## Order of the tally statements -/

/-- `m[a]++` when `a` is below the first key: a new first entry with count `1`. -/
theorem incrEntries_cons_lt {a k : Int} (v : Int) (t : List (Int × Int)) (h : a < k) :
    incrEntries a ((k, v) :: t) = (a, 0 + 1) :: (k, v) :: t := by
  simp [incrEntries, h]

/-- `m[k]++` when `k` is the first key: its count goes up by one. -/
theorem incrEntries_cons_self (k v : Int) (t : List (Int × Int)) :
    incrEntries k ((k, v) :: t) = (k, v + 1) :: t := by
  simp [incrEntries]

/-- `m[a]++` when `a` is above the first key: the first entry stays and the rest is updated. -/
theorem incrEntries_cons_gt {a k : Int} (v : Int) (t : List (Int × Int)) (h : k < a) :
    incrEntries a ((k, v) :: t) = (k, v) :: incrEntries a t := by
  have h1 : ¬ a < k := by omega
  have h2 : ¬ a = k := by omega
  simp [incrEntries, h1, h2]

/-- Two updates `m[a]++` and `m[b]++` give the same entries in either order. -/
theorem incrEntries_comm (a b : Int) (l : List (Int × Int)) :
    incrEntries a (incrEntries b l) = incrEntries b (incrEntries a l) := by
  induction l with
  | nil =>
    rcases lt_trichotomy a b with h | h | h
    · show incrEntries a [(b, 0 + 1)] = incrEntries b [(a, 0 + 1)]
      rw [incrEntries_cons_lt _ _ h, incrEntries_cons_gt _ _ h]
      rfl
    · subst h; rfl
    · show incrEntries a [(b, 0 + 1)] = incrEntries b [(a, 0 + 1)]
      rw [incrEntries_cons_lt _ _ h, incrEntries_cons_gt _ _ h]
      rfl
  | cons e t ih =>
    obtain ⟨k, v⟩ := e
    rcases lt_trichotomy a k with hak | hak | hak
    · rcases lt_trichotomy b k with hbk | hbk | hbk
      · rw [incrEntries_cons_lt v t hak, incrEntries_cons_lt v t hbk]
        rcases lt_trichotomy a b with h | h | h
        · rw [incrEntries_cons_lt _ _ h, incrEntries_cons_gt _ _ h, incrEntries_cons_lt v t hbk]
        · subst h; rfl
        · rw [incrEntries_cons_lt _ _ h, incrEntries_cons_gt _ _ h, incrEntries_cons_lt v t hak]
      · subst hbk
        rw [incrEntries_cons_self, incrEntries_cons_lt v t hak, incrEntries_cons_lt _ t hak,
          incrEntries_cons_gt _ _ hak, incrEntries_cons_self]
      · rw [incrEntries_cons_gt v t hbk, incrEntries_cons_lt v t hak, incrEntries_cons_lt v _ hak,
          incrEntries_cons_gt _ _ (lt_trans hak hbk), incrEntries_cons_gt v t hbk]
    · subst hak
      rcases lt_trichotomy b a with hbk | hbk | hbk
      · rw [incrEntries_cons_self, incrEntries_cons_lt v t hbk, incrEntries_cons_lt _ t hbk,
          incrEntries_cons_gt _ _ hbk, incrEntries_cons_self]
      · subst hbk; rfl
      · rw [incrEntries_cons_self, incrEntries_cons_gt v t hbk, incrEntries_cons_gt _ t hbk,
          incrEntries_cons_self]
    · rcases lt_trichotomy b k with hbk | hbk | hbk
      · rw [incrEntries_cons_gt v t hak, incrEntries_cons_lt v t hbk, incrEntries_cons_lt v _ hbk,
          incrEntries_cons_gt _ _ (lt_trans hbk hak), incrEntries_cons_gt v t hak]
      · subst hbk
        rw [incrEntries_cons_self, incrEntries_cons_gt v t hak, incrEntries_cons_gt _ t hak,
          incrEntries_cons_self]
      · rw [incrEntries_cons_gt v t hak, incrEntries_cons_gt v t hbk, incrEntries_cons_gt v _ hak,
          incrEntries_cons_gt v _ hbk, ih]

/-- Two updates `m[a]++` and `m[b]++` give the same map in either order. -/
theorem StdMap.incr_comm (m : StdMap) (a b : Int) : (m.incr b).incr a = (m.incr a).incr b :=
  StdMap.ext_entries (incrEntries_comm a b m.entries)

/-- Two tally statements give the same counters in either order. -/
theorem BufferLooperCounter.record_comm (c : BufferLooperCounter) (x y : Observation) :
    (c.record x).record y = (c.record y).record x := by
  cases x <;> cases y <;> simp [BufferLooperCounter.record, StdMap.incr_comm]

/-- A sequence of tally statements and a permutation of it give the same counters. -/
theorem BufferLooperCounter.recordAll_perm (c : BufferLooperCounter) {obs obs' : List Observation}
    (h : obs.Perm obs') : c.recordAll obs = c.recordAll obs' :=
  List.Perm.foldl_eq' h (fun x _ y _ z => BufferLooperCounter.record_comm z x y) c

/-- The counters after a valid buffer, all assertions holding, are those left by the tally
statements of lines 81, 88, 90, 116, 121, 127 and 136 in that order. -/
theorem difBody_valid_counters_eq_recordAll (nav : RawBufferNavigator) (NUMBER_PAD : Nat)
    (ids : List DetectorID) (dbg : Bool) (c : BufferLooperCounter) (buffer : Buffer)
    (h66 : dbg = true → buffer.end_ = (nav.getDIFBuffer buffer).end_)
    (h89 : dbg = true →
      nav.getDIFBufferStart buffer (nav.getDIFPtr buffer).getGetFramePtrReturn = 0xa0)
    (h130 : dbg = true → buffer.end_ = (nav.getEndOfAllData buffer).end_)
    (hid : nav.getDetectorID buffer ∈ ids) (hv : nav.validBuffer buffer = true) :
    (difBody nav NUMBER_PAD ids dbg c buffer).c
      = c.recordAll
          ([Observation.DIFStarter (nav.getStartOfDIF buffer),
            Observation.DIFPtrValueAtReturnedPos
              ((nav.getDIFBufferStart buffer (nav.getDIFPtr buffer).getGetFramePtrReturn).val
                : Int),
            Observation.SizeAfterDIFPtr (nav.getSizeAfterDIFPtr buffer)]
          ++ (if nav.hasSlowControlData buffer then [Observation.hasSlowControl] else [])
          ++ (if nav.badSCData buffer then [Observation.hasBadSlowControl] else [])
          ++ [Observation.SizeAfterAllData ((nav.getEndOfAllData buffer).size : Int),
              Observation.NonZeroValusAtEndOfData
                (nonzeroCount (nav.getEndOfAllData buffer).bytes)]) := by
  have ha : (dbg && buffer.end_ != (nav.getEndOfAllData buffer).end_) = false := by
    cases hd : dbg
    · rfl
    · simp [h130 hd]
  rw [difBody_of_valid nav NUMBER_PAD ids dbg c buffer h66 h89 hid hv, ha]
  cases hs : nav.hasSlowControlData buffer <;> cases hbd : nav.badSCData buffer <;>
    simp [countersBeforeLastTally, BufferLooperCounter.recordAll, BufferLooperCounter.record,
      hs, hbd]

/-! ## The text of the report -/

/-- Two texts without braces make a text without braces. -/
theorem noBrace_append {a b : List Char} (ha : NoBrace a) (hb : NoBrace b) : NoBrace (a ++ b) := by
  intro c hc
  rcases List.mem_append.1 hc with h | h
  · exact ha c h
  · exact hb c h

/-- A decimal digit is not a brace. -/
theorem digitChar_noBrace (k : Nat) (hk : k < 10) :
    Nat.digitChar k ≠ '\x7b' ∧ Nat.digitChar k ≠ '\x7d' := by
  interval_cases k <;> decide

/-- The decimal digits of a number hold no brace. -/
theorem toDigitsCore_noBrace (fuel : Nat) :
    ∀ (n : Nat) (ds : List Char), NoBrace ds → NoBrace (Nat.toDigitsCore 10 fuel n ds) := by
  induction fuel with
  | zero => intro n ds h; simpa [Nat.toDigitsCore] using h
  | succ f ih =>
    intro n ds h
    have hcons : NoBrace (Nat.digitChar (n % 10) :: ds) := by
      intro c hc
      rcases List.mem_cons.1 hc with rfl | hc
      · exact digitChar_noBrace _ (Nat.mod_lt _ (by decide))
      · exact h c hc
    simp only [Nat.toDigitsCore]
    split_ifs
    · exact hcons
    · exact ih _ _ hcons

/-- The text of `std::to_string(i)` holds no brace. -/
theorem to_string_noBrace (i : Int) : NoBrace (to_string i).data := by
  have hn : ∀ n : Nat, NoBrace (toString n).data := by
    intro n
    show NoBrace (Nat.toDigits 10 n)
    exact toDigitsCore_noBrace _ _ _ (by intro c hc; cases hc)
  cases i with
  | ofNat n => exact hn n
  | negSucc n =>
    show NoBrace ("-" ++ toString (n + 1)).data
    rw [String.data_append]
    exact noBrace_append (by unfold NoBrace; decide) (hn _)

/-- A format string without braces stands for itself. -/
theorem fmtText_of_noBrace (l : List Char) (h : NoBrace l) : fmtText l = some l := by
  induction l with
  | nil => rfl
  | cons c t ih =>
    have hc := h c (List.mem_cons_self _ _)
    have ht : NoBrace t := fun x hx => h x (List.mem_cons_of_mem _ hx)
    have hne : ¬ (c = '\x7b' ∨ c = '\x7d') := by
      rintro (e | e)
      · exact hc.1 e
      · exact hc.2 e
    cases t with
    | nil => simp only [fmtText, if_neg hne]
    | cons c2 t2 =>
      simp only [fmtText, if_neg hne, ih ht]
      rfl

/-- `fmt::print(s)` writes `s` when `s` holds no brace. -/
theorem fmt_print_of_noBrace (s : String) (h : NoBrace s.data) : fmt_print s = some s := by
  unfold fmt_print
  rw [fmtText_of_noBrace _ h]
  rfl

/-- The for loop of `printCounter` from an iterator past `m.begin()`: every entry is written
after a comma. -/
theorem printCounterLoop_false (l : List (Int × Int)) :
    ∀ out acc : String, printCounterLoop (out ++ acc) false l
      = out ++ String.intercalate.go acc "," (l.map entryText) := by
  induction l with
  | nil => intro out acc; rfl
  | cons e t ih =>
    intro out acc
    have := ih out (acc ++ "," ++ entryText e)
    simp only [printCounterLoop, List.map_cons, String.intercalate.go, Bool.not_false, if_true]
    rw [← this]
    simp only [entryText, String.append_assoc]

/-- The for loop of `printCounter` from `m.begin()`: the entries joined by commas. -/
theorem printCounterLoop_true (out : String) (l : List (Int × Int)) :
    printCounterLoop out true l = out ++ String.intercalate "," (l.map entryText) := by
  cases l with
  | nil => simp [printCounterLoop, String.intercalate]
  | cons e t =>
    have := printCounterLoop_false t out (entryText e)
    simp only [printCounterLoop, List.map_cons, String.intercalate, Bool.not_true]
    rw [← this]
    simp [entryText]

/-- The text of an entry holds no brace. -/
theorem entryText_noBrace (e : Int × Int) : NoBrace (entryText e).data := by
  unfold entryText
  simp only [String.data_append]
  exact noBrace_append (noBrace_append (noBrace_append (by unfold NoBrace; decide)
    (to_string_noBrace _)) (by unfold NoBrace; decide)) (to_string_noBrace _)

/-- Joining texts without braces by commas, from a text without braces, gives no brace. -/
theorem intercalate_go_noBrace (l : List String) (hl : ∀ s ∈ l, NoBrace s.data) :
    ∀ acc : String, NoBrace acc.data → NoBrace (String.intercalate.go acc "," l).data := by
  induction l with
  | nil => intro acc h; exact h
  | cons s t ih =>
    intro acc h
    simp only [String.intercalate.go]
    apply ih (fun x hx => hl x (List.mem_cons_of_mem _ hx))
    simp only [String.data_append]
    exact noBrace_append (noBrace_append h (by unfold NoBrace; decide))
      (hl s (List.mem_cons_self _ _))

/-- Texts without braces joined by commas hold no brace. -/
theorem intercalate_noBrace (l : List String) (hl : ∀ s ∈ l, NoBrace s.data) :
    NoBrace (String.intercalate "," l).data := by
  cases l with
  | nil => unfold NoBrace; decide
  | cons s t =>
    exact intercalate_go_noBrace t (fun x hx => hl x (List.mem_cons_of_mem _ hx)) s
      (hl s (List.mem_cons_self _ _))

/-- The text written by `printCounter` for a description without braces. -/
theorem printCounter_of_noBrace (description : String) (m : StdMap)
    (h : NoBrace description.data) :
    printCounter description m
      = some ("statistics for " ++ description ++ " : \n"
          ++ String.intercalate "," (m.entries.map entryText) ++ "\n") := by
  unfold printCounter
  simp only [printCounterLoop_true]
  apply fmt_print_of_noBrace
  simp only [String.data_append]
  refine noBrace_append (noBrace_append (noBrace_append (noBrace_append
    (by unfold NoBrace; decide) h) (by unfold NoBrace; decide)) ?_) (by unfold NoBrace; decide)
  apply intercalate_noBrace
  intro s hs
  obtain ⟨e, -, rfl⟩ := List.mem_map.1 hs
  exact entryText_noBrace e

/-- The text written by `printAllCounters`: the title, three histograms, the line of the two
tallies, two histograms. None of its `fmt::print` throws. -/
theorem printAllCounters_text (c : BufferLooperCounter) :
    (printAllCounters c).2
      = some ("BUFFER LOOP FINAL STATISTICS : \n"
          ++ counterText "Start of DIF header" c.DIFStarter
          ++ counterText "Value after DIF data are processed" c.DIFPtrValueAtReturnedPos
          ++ counterText "Size remaining in buffer after end of DIF data" c.SizeAfterDIFPtr
          ++ ("Number of Slow Control found " ++ to_string c.hasSlowControl
              ++ "  out of which " ++ to_string c.hasBadSlowControl ++ " are bad\n")
          ++ counterText "Size remaining after all of data have been processed"
              c.SizeAfterAllData
          ++ counterText "Number on non zero values in end of data buffer"
              c.NonZeroValusAtEndOfData) := by
  unfold printAllCounters
  rw [fmt_print_of_noBrace _ (by unfold NoBrace; decide),
    printCounter_of_noBrace _ _ (by unfold NoBrace; decide),
    printCounter_of_noBrace _ _ (by unfold NoBrace; decide),
    printCounter_of_noBrace _ _ (by unfold NoBrace; decide),
    printCounter_of_noBrace _ _ (by unfold NoBrace; decide),
    printCounter_of_noBrace _ _ (by unfold NoBrace; decide)]
  rfl

/-! ## Runs that no assertion ends -/

/-- Outside debug mode no turn of the DIF loop ends in a failed assertion. -/
theorem difBody_aborted_of_not_debug (nav : RawBufferNavigator) (NUMBER_PAD : Nat)
    (ids : List DetectorID) (c : BufferLooperCounter) (buffer : Buffer) :
    (difBody nav NUMBER_PAD ids false c buffer).aborted = false := by
  unfold difBody
  simp only [Bool.false_and, Bool.false_eq_true, if_false]
  split_ifs <;> rfl

/-- Outside debug mode the DIF loop is not ended by a failed assertion. -/
theorem difLoop_aborted_of_not_debug (nav : RawBufferNavigator) (NUMBER_PAD : Nat)
    (ids : List DetectorID) (buffers : List Buffer) :
    ∀ c, (difLoop nav NUMBER_PAD ids false c buffers).aborted = false := by
  induction buffers with
  | nil => intro c; rfl
  | cons b rest ih =>
    intro c
    rw [difLoop_cons nav NUMBER_PAD ids false c b rest
      (difBody_aborted_of_not_debug nav NUMBER_PAD ids c b)]
    exact ih _

/-- Outside debug mode the event loop is not ended by a failed assertion. -/
theorem eventLoop_aborted_of_not_debug (nav : RawBufferNavigator) (NUMBER_PAD budget : Nat)
    (source : SourceScript) :
    ∀ lp : BufferLooper, lp.m_Debug = false →
      (eventLoop nav NUMBER_PAD budget lp source).aborted = false := by
  induction source with
  | nil => intro lp _; rfl
  | cons ev rest ih =>
    intro lp hd
    have ha : (difLoop nav NUMBER_PAD lp.m_DetectorIDs lp.m_Debug lp.c ev).aborted = false := by
      rw [hd]; exact difLoop_aborted_of_not_debug nav NUMBER_PAD _ ev lp.c
    rcases Nat.lt_or_ge budget lp.m_NbrEvents with hb | hb
    · rw [eventLoop_cons_over nav NUMBER_PAD budget lp ev rest hb]
    · rw [eventLoop_cons nav NUMBER_PAD budget lp ev rest hb ha]
      exact ih _ hd

/-- Outside debug mode a run is not ended by a failed assertion. -/
theorem loop_aborted_of_not_debug (nav : RawBufferNavigator) (NUMBER_PAD budget : Nat)
    (lp : BufferLooper) (source : SourceScript) (hd : lp.m_Debug = false) :
    (loop nav NUMBER_PAD lp source budget).aborted = false := by
  rw [loop_completed nav NUMBER_PAD budget lp source
    (eventLoop_aborted_of_not_debug nav NUMBER_PAD budget source lp hd)]

/-- A run is ended by a failed assertion exactly when its event loop is. -/
theorem loop_aborted_eq (nav : RawBufferNavigator) (NUMBER_PAD budget : Nat)
    (lp : BufferLooper) (source : SourceScript) :
    (loop nav NUMBER_PAD lp source budget).aborted
      = (eventLoop nav NUMBER_PAD budget lp source).aborted := by
  cases ha : (eventLoop nav NUMBER_PAD budget lp source).aborted
  · rw [loop_completed nav NUMBER_PAD budget lp source ha]
  · rw [loop_aborted nav NUMBER_PAD budget lp source ha]

/-- The three ways in which a turn of the DIF loop runs to its end: the buffer is filtered out,
or it is not valid, or it is valid and processed up to `endDIF`. -/
theorem difBody_of_not_aborted (nav : RawBufferNavigator) (NUMBER_PAD : Nat)
    (ids : List DetectorID) (dbg : Bool) (c : BufferLooperCounter) (buffer : Buffer)
    (h : (difBody nav NUMBER_PAD ids dbg c buffer).aborted = false) :
    (nav.getDetectorID buffer ∉ ids ∧
      difBody nav NUMBER_PAD ids dbg c buffer = ⟨c, [Call.getSDHCALBuffer], false⟩) ∨
    (nav.getDetectorID buffer ∈ ids ∧ nav.validBuffer buffer = false ∧
      difBody nav NUMBER_PAD ids dbg c buffer
        = ⟨{ c with DIFStarter := c.DIFStarter.incr (nav.getStartOfDIF buffer) },
            [Call.getSDHCALBuffer, Call.startDIF Source, Call.startDIF Destination], false⟩) ∨
    (nav.getDetectorID buffer ∈ ids ∧ nav.validBuffer buffer = true ∧
      difBody nav NUMBER_PAD ids dbg c buffer
        = ⟨{ countersBeforeLastTally nav c buffer with
              NonZeroValusAtEndOfData :=
                c.NonZeroValusAtEndOfData.incr (nonzeroCount (nav.getEndOfAllData buffer).bytes) },
            callsBeforeEndDIF nav NUMBER_PAD buffer
              ++ [Call.endDIF Source, Call.endDIF Destination], false⟩) := by
  have h66 : dbg = true → buffer.end_ = (nav.getDIFBuffer buffer).end_ := by
    intro hd
    by_contra hne
    have : (difBody nav NUMBER_PAD ids dbg c buffer).aborted = true := by
      unfold difBody
      simp [hd, hne]
    rw [this] at h
    exact Bool.noConfusion h
  by_cases hid : nav.getDetectorID buffer ∈ ids
  · cases hv : nav.validBuffer buffer
    · exact Or.inr (Or.inl ⟨hid, rfl, difBody_of_not_valid nav NUMBER_PAD ids dbg c buffer h66 hid hv⟩)
    · have hc : ids.contains (nav.getDetectorID buffer) = true := by simpa using hid
      have h89 : dbg = true →
          nav.getDIFBufferStart buffer (nav.getDIFPtr buffer).getGetFramePtrReturn = 0xa0 := by
        intro hd
        by_contra hne
        have : (difBody nav NUMBER_PAD ids dbg c buffer).aborted = true := by
          unfold difBody
          simp [hd, h66 hd, hid, hv, hne]
        rw [this] at h
        exact Bool.noConfusion h
      have hform := difBody_of_valid nav NUMBER_PAD ids dbg c buffer h66 h89 hid hv
      by_cases h3 : (dbg && buffer.end_ != (nav.getEndOfAllData buffer).end_) = true
      · rw [hform, if_pos h3] at h
        exact Bool.noConfusion h
      · rw [if_neg h3] at hform
        exact Or.inr (Or.inr ⟨hid, rfl, hform⟩)
  · have hb := difBody_of_not_mem nav NUMBER_PAD ids dbg c buffer hid
    rw [hb] at h
    simp only at h
    rw [hb, h]
    exact Or.inl ⟨hid, rfl⟩

/-! ## Weights of calls -/

/-- The empty sequence weighs nothing. -/
theorem weigh_nil (w : Call → Int) : weigh w [] = 0 := rfl

/-- The weight of a sequence is the weight of its first call plus the weight of the rest. -/
theorem weigh_cons (w : Call → Int) (x : Call) (l : List Call) :
    weigh w (x :: l) = w x + weigh w l := by
  simp [weigh]

/-- The weight of two sequences in a row is the sum of their weights. -/
theorem weigh_append (w : Call → Int) (a b : List Call) :
    weigh w (a ++ b) = weigh w a + weigh w b := by
  simp [weigh]

/-- A sequence whose calls all weigh nothing weighs nothing. -/
theorem weigh_eq_zero (w : Call → Int) (l : List Call) (h : ∀ call ∈ l, w call = 0) :
    weigh w l = 0 := by
  induction l with
  | nil => rfl
  | cons x t ih =>
    rw [weigh_cons, h x (List.mem_cons_self _ _), ih (fun y hy => h y (List.mem_cons_of_mem _ hy))]
    rfl

/-- Weighing with the opposite weight gives the opposite. -/
theorem weigh_neg (w : Call → Int) (l : List Call) :
    weigh (fun call => - w call) l = - weigh w l := by
  induction l with
  | nil => rfl
  | cons x t ih => rw [weigh_cons, weigh_cons, ih]; ring

/-- The weight `Call.ind x` counts the occurrences of `x`. -/
theorem weigh_ind (x : Call) (l : List Call) : weigh (Call.ind x) l = (l.count x : Int) := by
  induction l with
  | nil => rfl
  | cons y t ih =>
    rw [weigh_cons, ih, List.count_cons]
    unfold Call.ind
    by_cases h : y = x
    · subst h
      simp
      ring
    · have h2 : (y == x) = false := by simpa using h
      simp [h, h2]

/-- The weight of the pad loop, for a weight that ignores the `process...` calls. -/
theorem weigh_padLoop (w : Call → Int) (hp : ∀ call, call.takesDIFPtr = true → w call = 0)
    (d : DIFPtr) (i n : Nat) :
    ∀ j, weigh w (padLoop d i n j)
      = n * (w (Call.startPad Source) + w (Call.startPad Destination)
              + w (Call.endPad Source) + w (Call.endPad Destination)) := by
  induction n with
  | zero => intro j; simp [padLoop, weigh_nil]
  | succ n ih =>
    intro j
    have h0 : w (Call.processPadInFrame d i j) = 0 := hp _ rfl
    simp only [padLoop, List.cons_append, List.nil_append, weigh_cons, ih (j + 1), h0]
    push_cast
    ring

/-- The weight of the frame loop, for a weight that ignores the `process...` calls. -/
theorem weigh_frameLoop (w : Call → Int) (hp : ∀ call, call.takesDIFPtr = true → w call = 0)
    (NUMBER_PAD : Nat) (d : DIFPtr) (n : Nat) :
    ∀ i, weigh w (frameLoop NUMBER_PAD d n i)
      = n * (w (Call.startFrame Source) + w (Call.startFrame Destination)
              + NUMBER_PAD * (w (Call.startPad Source) + w (Call.startPad Destination)
                  + w (Call.endPad Source) + w (Call.endPad Destination))
              + w (Call.endFrame Source) + w (Call.endFrame Destination)) := by
  induction n with
  | zero => intro i; simp [frameLoop, weigh_nil]
  | succ n ih =>
    intro i
    have h0 : w (Call.processFrame d i) = 0 := hp _ rfl
    simp only [frameLoop, List.cons_append, List.nil_append, weigh_cons, weigh_append,
      weigh_nil, ih (i + 1), h0, weigh_padLoop w hp d i NUMBER_PAD 0]
    push_cast
    ring

/-- The calls of the pad loop are calls of the DIF level. -/
theorem padLoop_inDIF (d : DIFPtr) (i n : Nat) :
    ∀ j, ∀ call ∈ padLoop d i n j, call.inDIF = true := by
  induction n with
  | zero => intro j call h; cases h
  | succ n ih =>
    intro j call h
    simp only [padLoop, List.cons_append, List.nil_append, List.mem_cons] at h
    rcases h with rfl | rfl | rfl | rfl | rfl | h
    · rfl
    · rfl
    · rfl
    · rfl
    · rfl
    · exact ih (j + 1) call h

/-- The calls of the frame loop are calls of the DIF level. -/
theorem frameLoop_inDIF (NUMBER_PAD : Nat) (d : DIFPtr) (n : Nat) :
    ∀ i, ∀ call ∈ frameLoop NUMBER_PAD d n i, call.inDIF = true := by
  induction n with
  | zero => intro i call h; cases h
  | succ n ih =>
    intro i call h
    simp only [frameLoop, List.cons_append, List.nil_append, List.mem_cons, List.mem_append,
      List.mem_nil_iff, or_false] at h
    rcases h with rfl | rfl | rfl | h
    · rfl
    · rfl
    · rfl
    · rcases h with (h | rfl | rfl) | h
      · exact padLoop_inDIF d i NUMBER_PAD 0 call h
      · rfl
      · rfl
      · exact ih (i + 1) call h

/-- A call of the DIF level is not a call of the run or event level. -/
theorem isLoopLevel_of_inDIF (call : Call) (h : call.inDIF = true) : call.isLoopLevel = false := by
  cases call <;> simp_all [Call.inDIF, Call.isLoopLevel]

/-- The calls of a turn of the DIF loop, whatever its outcome: the fetch alone (assertion of
line 66, or buffer filtered out), the fetch and `startDIF` (buffer not valid, or assertion of
line 89), the calls up to slow control (assertion of line 130), or those and `endDIF`. -/
theorem difBody_calls_cases (nav : RawBufferNavigator) (NUMBER_PAD : Nat)
    (ids : List DetectorID) (dbg : Bool) (c : BufferLooperCounter) (buffer : Buffer) :
    (difBody nav NUMBER_PAD ids dbg c buffer).calls = [Call.getSDHCALBuffer] ∨
    (difBody nav NUMBER_PAD ids dbg c buffer).calls
      = [Call.getSDHCALBuffer, Call.startDIF Source, Call.startDIF Destination] ∨
    (difBody nav NUMBER_PAD ids dbg c buffer).calls = callsBeforeEndDIF nav NUMBER_PAD buffer ∨
    (difBody nav NUMBER_PAD ids dbg c buffer).calls
      = callsBeforeEndDIF nav NUMBER_PAD buffer
          ++ [Call.endDIF Source, Call.endDIF Destination] := by
  unfold difBody
  cases hs : nav.hasSlowControlData buffer <;> cases hbd : nav.badSCData buffer <;>
    simp only [] <;> split_ifs <;>
    first
      | contradiction
      | simp [callsBeforeEndDIF, hs, hbd]

/-- The calls up to slow control are the fetch and calls of the DIF level. -/
theorem callsBeforeEndDIF_mem (nav : RawBufferNavigator) (NUMBER_PAD : Nat) (buffer : Buffer) :
    ∀ call ∈ callsBeforeEndDIF nav NUMBER_PAD buffer,
      call = Call.getSDHCALBuffer ∨ call.inDIF = true := by
  intro call h
  unfold callsBeforeEndDIF at h
  simp only [List.cons_append, List.nil_append, List.mem_cons, List.mem_append] at h
  rcases h with rfl | rfl | rfl | rfl | h | h
  · exact Or.inl rfl
  · exact Or.inr rfl
  · exact Or.inr rfl
  · exact Or.inr rfl
  · exact Or.inr (frameLoop_inDIF _ _ _ _ call h)
  · split_ifs at h
    · simp only [List.mem_singleton] at h
      subst h
      exact Or.inr rfl
    · cases h

/-- Whatever its outcome, a turn of the DIF loop issues the fetch and calls of the DIF level. -/
theorem difBody_calls (nav : RawBufferNavigator) (NUMBER_PAD : Nat)
    (ids : List DetectorID) (dbg : Bool) (c : BufferLooperCounter) (buffer : Buffer) :
    ∀ call ∈ (difBody nav NUMBER_PAD ids dbg c buffer).calls,
      call = Call.getSDHCALBuffer ∨ call.inDIF = true := by
  intro call hcall
  rcases difBody_calls_cases nav NUMBER_PAD ids dbg c buffer with h | h | h | h
  · rw [h] at hcall
    simp only [List.mem_singleton] at hcall
    exact Or.inl hcall
  · rw [h] at hcall
    simp only [List.mem_cons, List.mem_singleton, List.mem_nil_iff, or_false] at hcall
    rcases hcall with rfl | rfl | rfl
    · exact Or.inl rfl
    · exact Or.inr rfl
    · exact Or.inr rfl
  · rw [h] at hcall
    exact callsBeforeEndDIF_mem nav NUMBER_PAD buffer call hcall
  · rw [h] at hcall
    rcases List.mem_append.1 hcall with h1 | h1
    · exact callsBeforeEndDIF_mem nav NUMBER_PAD buffer call h1
    · simp only [List.mem_cons, List.mem_singleton, List.mem_nil_iff, or_false] at h1
      rcases h1 with rfl | rfl
      · exact Or.inr rfl
      · exact Or.inr rfl

/-- Whatever its outcome, the DIF loop issues no call of the run or event level. -/
theorem difLoop_calls (nav : RawBufferNavigator) (NUMBER_PAD : Nat)
    (ids : List DetectorID) (dbg : Bool) (buffers : List Buffer) :
    ∀ c, ∀ call ∈ (difLoop nav NUMBER_PAD ids dbg c buffers).calls,
      call.isLoopLevel = false := by
  have hbody : ∀ c b, ∀ call ∈ (difBody nav NUMBER_PAD ids dbg c b).calls,
      call.isLoopLevel = false := by
    intro c b call h
    rcases difBody_calls nav NUMBER_PAD ids dbg c b call h with rfl | h
    · rfl
    · exact isLoopLevel_of_inDIF call h
  induction buffers with
  | nil =>
    intro c call h
    rw [difLoop_nil] at h
    simp only [List.mem_singleton] at h
    subst h
    rfl
  | cons b rest ih =>
    intro c call h
    cases ha : (difBody nav NUMBER_PAD ids dbg c b).aborted with
    | true =>
      rw [difLoop_cons_aborted nav NUMBER_PAD ids dbg c b rest ha] at h
      simp only [List.mem_cons] at h
      rcases h with rfl | h
      · rfl
      · exact hbody c b call h
    | false =>
      rw [difLoop_cons nav NUMBER_PAD ids dbg c b rest ha] at h
      simp only [List.cons_append, List.mem_cons, List.mem_append] at h
      rcases h with rfl | h | h
      · rfl
      · exact hbody c b call h
      · exact ih _ call h

/-! ## The event loop, turn by turn -/

/-- The event loop does not touch the allow-list and the debug flag. -/
theorem eventLoop_config (nav : RawBufferNavigator) (NUMBER_PAD budget : Nat)
    (source : SourceScript) :
    ∀ lp : BufferLooper,
      (eventLoop nav NUMBER_PAD budget lp source).looper.m_DetectorIDs = lp.m_DetectorIDs ∧
      (eventLoop nav NUMBER_PAD budget lp source).looper.m_Debug = lp.m_Debug := by
  induction source with
  | nil => intro lp; exact ⟨rfl, rfl⟩
  | cons ev rest ih =>
    intro lp
    rcases Nat.lt_or_ge budget lp.m_NbrEvents with hb | hb
    · rw [eventLoop_cons_over nav NUMBER_PAD budget lp ev rest hb]
      exact ⟨rfl, rfl⟩
    · cases ha : (difLoop nav NUMBER_PAD lp.m_DetectorIDs lp.m_Debug lp.c ev).aborted with
      | true =>
        rw [eventLoop_cons_aborted nav NUMBER_PAD budget lp ev rest hb ha]
        exact ⟨rfl, rfl⟩
      | false =>
        rw [eventLoop_cons nav NUMBER_PAD budget lp ev rest hb ha]
        exact ih _

/-- The looper after a run is the looper after its event loop. -/
theorem loop_looper (nav : RawBufferNavigator) (NUMBER_PAD budget : Nat)
    (lp : BufferLooper) (source : SourceScript) :
    (loop nav NUMBER_PAD lp source budget).looper
      = (eventLoop nav NUMBER_PAD budget lp source).looper := by
  cases ha : (eventLoop nav NUMBER_PAD budget lp source).aborted
  · rw [loop_completed nav NUMBER_PAD budget lp source ha]
  · rw [loop_aborted nav NUMBER_PAD budget lp source ha]

/-- The Source script after a run is the script after its event loop. -/
theorem loop_source (nav : RawBufferNavigator) (NUMBER_PAD budget : Nat)
    (lp : BufferLooper) (source : SourceScript) :
    (loop nav NUMBER_PAD lp source budget).source
      = (eventLoop nav NUMBER_PAD budget lp source).source := by
  cases ha : (eventLoop nav NUMBER_PAD budget lp source).aborted
  · rw [loop_completed nav NUMBER_PAD budget lp source ha]
  · rw [loop_aborted nav NUMBER_PAD budget lp source ha]

/-- An event loop that no assertion ends takes `eventsProcessed` turns: for a weight that only
sees calls of the run and event level, its calls weigh one `nextEvent`, `startEvent` and
`endEvent` on both collaborators per turn, and the last `nextEvent`; `m_NbrEvents` has gone up
by the number of turns, on 32 bits; the Source has been advanced past the events of the turns
and one more. -/
theorem eventLoop_turns (nav : RawBufferNavigator) (NUMBER_PAD budget : Nat) (w : Call → Int)
    (hw : ∀ call, call.isLoopLevel = false → w call = 0) (source : SourceScript) :
    ∀ lp : BufferLooper, lp.m_NbrEvents < 2 ^ 32 →
      (eventLoop nav NUMBER_PAD budget lp source).aborted = false →
      weigh w (eventLoop nav NUMBER_PAD budget lp source).calls
        = (eventsProcessed budget lp.m_NbrEvents source.length : Int)
            * (w Call.nextEvent + w (Call.startEvent Source) + w (Call.startEvent Destination)
                + w (Call.endEvent Source) + w (Call.endEvent Destination))
          + w Call.nextEvent ∧
      (eventLoop nav NUMBER_PAD budget lp source).looper.m_NbrEvents
        = (lp.m_NbrEvents + eventsProcessed budget lp.m_NbrEvents source.length) % 2 ^ 32 ∧
      (eventLoop nav NUMBER_PAD budget lp source).source
        = source.drop (eventsProcessed budget lp.m_NbrEvents source.length + 1) := by
  induction source with
  | nil =>
    intro lp hm _
    rw [eventLoop_nil]
    refine ⟨?_, ?_, rfl⟩
    · simp [eventsProcessed, weigh_cons, weigh_nil]
    · simp only [List.length_nil, eventsProcessed, Nat.add_zero]
      exact (Nat.mod_eq_of_lt hm).symm
  | cons ev rest ih =>
    intro lp hm hab
    rcases Nat.lt_or_ge budget lp.m_NbrEvents with hb | hb
    · have hP : eventsProcessed budget lp.m_NbrEvents (ev :: rest).length = 0 := by
        have : ¬ budget ≥ lp.m_NbrEvents := by omega
        simp [eventsProcessed, this]
      rw [eventLoop_cons_over nav NUMBER_PAD budget lp ev rest hb, hP]
      refine ⟨?_, ?_, rfl⟩
      · simp [weigh_cons, weigh_nil]
      · exact (Nat.mod_eq_of_lt hm).symm
    · have hP : eventsProcessed budget lp.m_NbrEvents (ev :: rest).length
          = eventsProcessed budget ((lp.m_NbrEvents + 1) % 2 ^ 32) rest.length + 1 := by
        have : budget ≥ lp.m_NbrEvents := hb
        simp [eventsProcessed, this]
      cases ha : (difLoop nav NUMBER_PAD lp.m_DetectorIDs lp.m_Debug lp.c ev).aborted with
      | true =>
        rw [eventLoop_cons_aborted nav NUMBER_PAD budget lp ev rest hb ha] at hab
        exact Bool.noConfusion hab
      | false =>
        rw [eventLoop_cons nav NUMBER_PAD budget lp ev rest hb ha] at hab
        have hm2 : (lp.m_NbrEvents + 1) % 2 ^ 32 < 2 ^ 32 := Nat.mod_lt _ (by norm_num)
        obtain ⟨i1, i2, i3⟩ := ih
          { lp with c := (difLoop nav NUMBER_PAD lp.m_DetectorIDs lp.m_Debug lp.c ev).c,
                    m_NbrEvents := (lp.m_NbrEvents + 1) % 2 ^ 32 } hm2 hab
        have hd0 : weigh w (difLoop nav NUMBER_PAD lp.m_DetectorIDs lp.m_Debug lp.c ev).calls
            = 0 :=
          weigh_eq_zero w _ (fun call hc =>
            hw call (difLoop_calls nav NUMBER_PAD lp.m_DetectorIDs lp.m_Debug ev lp.c call hc))
        rw [eventLoop_cons nav NUMBER_PAD budget lp ev rest hb ha, hP]
        refine ⟨?_, ?_, ?_⟩
        · simp only [List.cons_append, List.nil_append, weigh_cons, weigh_append, weigh_nil]
          simp only [] at i1
          rw [i1, hd0]
          push_cast
          ring
        · simp only [] at i2
          rw [i2]
          omega
        · simp only [] at i3
          rw [i3]
          rfl

/-! ## Counters against calls along a run -/

/-- When each turn of the DIF loop that runs to its end raises `f` of the counters by at most the
weight of its calls, so does a DIF loop that runs to its end. -/
theorem difLoop_potential (nav : RawBufferNavigator) (NUMBER_PAD : Nat) (ids : List DetectorID)
    (dbg : Bool) (f : BufferLooperCounter → Int) (w : Call → Int)
    (hnext : w Call.nextDIFbuffer = 0)
    (hbody : ∀ c b, (difBody nav NUMBER_PAD ids dbg c b).aborted = false →
      f (difBody nav NUMBER_PAD ids dbg c b).c
        ≤ f c + weigh w (difBody nav NUMBER_PAD ids dbg c b).calls)
    (buffers : List Buffer) :
    ∀ c, (difLoop nav NUMBER_PAD ids dbg c buffers).aborted = false →
      f (difLoop nav NUMBER_PAD ids dbg c buffers).c
        ≤ f c + weigh w (difLoop nav NUMBER_PAD ids dbg c buffers).calls := by
  induction buffers with
  | nil =>
    intro c _
    rw [difLoop_nil]
    simp [weigh_cons, weigh_nil, hnext]
  | cons b rest ih =>
    intro c hab
    cases ha : (difBody nav NUMBER_PAD ids dbg c b).aborted with
    | true =>
      rw [difLoop_cons_aborted nav NUMBER_PAD ids dbg c b rest ha] at hab
      exact Bool.noConfusion hab
    | false =>
      rw [difLoop_cons nav NUMBER_PAD ids dbg c b rest ha] at hab
      have h1 := hbody c b ha
      have h2 := ih _ hab
      rw [difLoop_cons nav NUMBER_PAD ids dbg c b rest ha]
      simp only [List.cons_append, weigh_cons, weigh_append, hnext]
      omega

/-- The same along an event loop that runs to its end, for a weight that does not see the calls
of the run and event level. -/
theorem eventLoop_potential (nav : RawBufferNavigator) (NUMBER_PAD budget : Nat)
    (ids : List DetectorID) (dbg : Bool) (f : BufferLooperCounter → Int) (w : Call → Int)
    (hloop : ∀ call, call.isLoopLevel = true → w call = 0)
    (hnext : w Call.nextDIFbuffer = 0)
    (hbody : ∀ c b, (difBody nav NUMBER_PAD ids dbg c b).aborted = false →
      f (difBody nav NUMBER_PAD ids dbg c b).c
        ≤ f c + weigh w (difBody nav NUMBER_PAD ids dbg c b).calls)
    (source : SourceScript) :
    ∀ lp : BufferLooper, lp.m_DetectorIDs = ids → lp.m_Debug = dbg →
      (eventLoop nav NUMBER_PAD budget lp source).aborted = false →
      f (eventLoop nav NUMBER_PAD budget lp source).looper.c
        ≤ f lp.c + weigh w (eventLoop nav NUMBER_PAD budget lp source).calls := by
  have e1 : w Call.nextEvent = 0 := hloop _ rfl
  have e2 : ∀ x, w (Call.startEvent x) = 0 := fun x => hloop _ rfl
  have e3 : ∀ x, w (Call.endEvent x) = 0 := fun x => hloop _ rfl
  induction source with
  | nil =>
    intro lp _ _ _
    rw [eventLoop_nil]
    simp [weigh_cons, weigh_nil, e1]
  | cons ev rest ih =>
    intro lp hids hdbg hab
    rcases Nat.lt_or_ge budget lp.m_NbrEvents with hb | hb
    · rw [eventLoop_cons_over nav NUMBER_PAD budget lp ev rest hb]
      simp [weigh_cons, weigh_nil, e1]
    · cases ha : (difLoop nav NUMBER_PAD lp.m_DetectorIDs lp.m_Debug lp.c ev).aborted with
      | true =>
        rw [eventLoop_cons_aborted nav NUMBER_PAD budget lp ev rest hb ha] at hab
        exact Bool.noConfusion hab
      | false =>
        rw [eventLoop_cons nav NUMBER_PAD budget lp ev rest hb ha] at hab
        have h1 : f (difLoop nav NUMBER_PAD lp.m_DetectorIDs lp.m_Debug lp.c ev).c
            ≤ f lp.c
              + weigh w (difLoop nav NUMBER_PAD lp.m_DetectorIDs lp.m_Debug lp.c ev).calls := by
          have ha2 := ha
          rw [hids, hdbg] at ha2 ⊢
          exact difLoop_potential nav NUMBER_PAD ids dbg f w hnext hbody ev lp.c ha2
        have h2 := ih
          { lp with c := (difLoop nav NUMBER_PAD lp.m_DetectorIDs lp.m_Debug lp.c ev).c,
                    m_NbrEvents := (lp.m_NbrEvents + 1) % 2 ^ 32 } hids hdbg hab
        rw [eventLoop_cons nav NUMBER_PAD budget lp ev rest hb ha]
        simp only [List.cons_append, List.nil_append, weigh_cons, weigh_append, weigh_nil, e1, e2,
          e3]
        simp only [] at h2
        omega

/-- The same along a run that no assertion ends. -/
theorem loop_potential (nav : RawBufferNavigator) (NUMBER_PAD budget : Nat)
    (f : BufferLooperCounter → Int) (w : Call → Int) (lp : BufferLooper)
    (hloop : ∀ call, call.isLoopLevel = true → w call = 0)
    (hnext : w Call.nextDIFbuffer = 0)
    (hbody : ∀ c b,
      (difBody nav NUMBER_PAD lp.m_DetectorIDs lp.m_Debug c b).aborted = false →
      f (difBody nav NUMBER_PAD lp.m_DetectorIDs lp.m_Debug c b).c
        ≤ f c + weigh w (difBody nav NUMBER_PAD lp.m_DetectorIDs lp.m_Debug c b).calls)
    (source : SourceScript) (hab : (loop nav NUMBER_PAD lp source budget).aborted = false) :
    f (loop nav NUMBER_PAD lp source budget).looper.c
      ≤ f lp.c + weigh w (loop nav NUMBER_PAD lp source budget).calls := by
  rw [loop_aborted_eq] at hab
  have h := eventLoop_potential nav NUMBER_PAD budget lp.m_DetectorIDs lp.m_Debug f w hloop
    hnext hbody source lp rfl rfl hab
  have e1 : ∀ x, w (Call.start x) = 0 := fun x => hloop _ rfl
  have e2 : ∀ x, w (Call.end_ x) = 0 := fun x => hloop _ rfl
  rw [loop_completed nav NUMBER_PAD budget lp source hab]
  simp only [List.cons_append, List.nil_append, weigh_cons, weigh_append, weigh_nil, e1, e2]
  omega

/-- When each turn of the DIF loop that runs to its end raises `f` of the counters by exactly
the weight of its calls, so does a run that no assertion ends. -/
theorem loop_potential_eq (nav : RawBufferNavigator) (NUMBER_PAD budget : Nat)
    (f : BufferLooperCounter → Int) (w : Call → Int) (lp : BufferLooper)
    (hloop : ∀ call, call.isLoopLevel = true → w call = 0)
    (hnext : w Call.nextDIFbuffer = 0)
    (hbody : ∀ c b,
      (difBody nav NUMBER_PAD lp.m_DetectorIDs lp.m_Debug c b).aborted = false →
      f (difBody nav NUMBER_PAD lp.m_DetectorIDs lp.m_Debug c b).c
        = f c + weigh w (difBody nav NUMBER_PAD lp.m_DetectorIDs lp.m_Debug c b).calls)
    (source : SourceScript) (hab : (loop nav NUMBER_PAD lp source budget).aborted = false) :
    f (loop nav NUMBER_PAD lp source budget).looper.c
      = f lp.c + weigh w (loop nav NUMBER_PAD lp source budget).calls := by
  have h1 := loop_potential nav NUMBER_PAD budget f w lp hloop hnext
    (fun c b ha => le_of_eq (hbody c b ha)) source hab
  have h2 := loop_potential nav NUMBER_PAD budget (fun c => - f c) (fun call => - w call) lp
    (fun call hc => by simp [hloop call hc]) (by simp [hnext])
    (fun c b ha => by
      have := hbody c b ha
      rw [weigh_neg]
      simp only []
      omega) source hab
  rw [weigh_neg] at h2
  simp only [] at h2
  omega

/-! ## The number of turns of the event loop -/

/-- The event loop takes at most one turn per event. -/
theorem eventsProcessed_le (N K : Nat) : ∀ m, eventsProcessed N m K ≤ K := by
  induction K with
  | zero => intro m; simp [eventsProcessed]
  | succ K ih =>
    intro m
    unfold eventsProcessed
    split_ifs
    · have := ih ((m + 1) % 2 ^ 32)
      omega
    · omega

/-- Below the largest 32-bit budget the counter does not wrap: from `m_NbrEvents = m` the loop
takes `N + 1 - m` turns, or one per event when the Source has fewer. -/
theorem eventsProcessed_eq_min (N K : Nat) (hN : N < 2 ^ 32 - 1) :
    ∀ m, m ≤ N + 1 → eventsProcessed N m K = min K (N + 1 - m) := by
  induction K with
  | zero => intro m _; simp [eventsProcessed]
  | succ K ih =>
    intro m hm
    unfold eventsProcessed
    split_ifs with h
    · have hmod : (m + 1) % 2 ^ 32 = m + 1 := Nat.mod_eq_of_lt (by omega)
      rw [hmod, ih (m + 1) (by omega)]
      omega
    · omega

/-- With the largest 32-bit budget the test on the budget never fails: one turn per event. -/
theorem eventsProcessed_max_budget (N K : Nat) (hN : 2 ^ 32 - 1 ≤ N) :
    ∀ m, m < 2 ^ 32 → eventsProcessed N m K = K := by
  induction K with
  | zero => intro m _; simp [eventsProcessed]
  | succ K ih =>
    intro m hm
    have h : N ≥ m := by omega
    unfold eventsProcessed
    rw [if_pos h, ih _ (Nat.mod_lt _ (by norm_num))]

/-- From a counter at `1`, as the constructor leaves it: `min N K` turns, unless the budget is
`2 ^ 32 - 1` and the Source yields `2 ^ 32` events or more. -/
theorem eventsProcessed_fresh (N K : Nat) (hN : N < 2 ^ 32)
    (h : N < 2 ^ 32 - 1 ∨ K < 2 ^ 32) : eventsProcessed N 1 K = min N K := by
  by_cases h1 : N < 2 ^ 32 - 1
  · rw [eventsProcessed_eq_min N K h1 1 (by omega)]
    omega
  · rw [eventsProcessed_max_budget N K (by omega) 1 (by norm_num)]
    omega

/-! ## Calls of the run and event level in a run -/

/-- A run that no assertion ends, for a weight that only sees calls of the run and event level:
`start` on both collaborators, the turns of the event loop, the last `nextEvent`, `end` on both
collaborators. -/
theorem loop_turns (nav : RawBufferNavigator) (NUMBER_PAD budget : Nat) (w : Call → Int)
    (hw : ∀ call, call.isLoopLevel = false → w call = 0) (lp : BufferLooper)
    (source : SourceScript) (hm : lp.m_NbrEvents < 2 ^ 32)
    (hab : (loop nav NUMBER_PAD lp source budget).aborted = false) :
    weigh w (loop nav NUMBER_PAD lp source budget).calls
      = w (Call.start Source) + w (Call.start Destination)
        + (eventsProcessed budget lp.m_NbrEvents source.length : Int)
            * (w Call.nextEvent + w (Call.startEvent Source) + w (Call.startEvent Destination)
                + w (Call.endEvent Source) + w (Call.endEvent Destination))
        + w Call.nextEvent + w (Call.end_ Destination) + w (Call.end_ Source) := by
  rw [loop_aborted_eq] at hab
  obtain ⟨h1, -, -⟩ := eventLoop_turns nav NUMBER_PAD budget w hw source lp hm hab
  rw [loop_completed nav NUMBER_PAD budget lp source hab]
  simp only [List.cons_append, List.nil_append, weigh_cons, weigh_append, weigh_nil, h1]
  ring

/-- The number of occurrences of the calls of the run and event level in a run that no assertion
ends, with `P` the number of turns of the event loop: `start` and `end` once on each collaborator,
`startEvent` and `endEvent` `P` times on each, `nextEvent` `P + 1` times. -/
theorem loop_counts (nav : RawBufferNavigator) (NUMBER_PAD budget : Nat) (lp : BufferLooper)
    (source : SourceScript) (hm : lp.m_NbrEvents < 2 ^ 32)
    (hab : (loop nav NUMBER_PAD lp source budget).aborted = false) :
    (∀ x, (loop nav NUMBER_PAD lp source budget).calls.count (Call.start x) = 1) ∧
    (∀ x, (loop nav NUMBER_PAD lp source budget).calls.count (Call.end_ x) = 1) ∧
    (∀ x, (loop nav NUMBER_PAD lp source budget).calls.count (Call.startEvent x)
      = eventsProcessed budget lp.m_NbrEvents source.length) ∧
    (∀ x, (loop nav NUMBER_PAD lp source budget).calls.count (Call.endEvent x)
      = eventsProcessed budget lp.m_NbrEvents source.length) ∧
    (loop nav NUMBER_PAD lp source budget).calls.count Call.nextEvent
      = eventsProcessed budget lp.m_NbrEvents source.length + 1 := by
  have key : ∀ y : Call, y.isLoopLevel = true →
      ((loop nav NUMBER_PAD lp source budget).calls.count y : Int)
        = Call.ind y (Call.start Source) + Call.ind y (Call.start Destination)
          + (eventsProcessed budget lp.m_NbrEvents source.length : Int)
              * (Call.ind y Call.nextEvent + Call.ind y (Call.startEvent Source)
                  + Call.ind y (Call.startEvent Destination)
                  + Call.ind y (Call.endEvent Source) + Call.ind y (Call.endEvent Destination))
          + Call.ind y Call.nextEvent + Call.ind y (Call.end_ Destination)
          + Call.ind y (Call.end_ Source) := by
    intro y hy
    rw [← weigh_ind]
    apply loop_turns nav NUMBER_PAD budget (Call.ind y) _ lp source hm hab
    intro call hc
    unfold Call.ind
    rw [if_neg]
    intro e
    rw [e, hy] at hc
    exact Bool.noConfusion hc
  refine ⟨?_, ?_, ?_, ?_, ?_⟩
  · intro x
    have := key (Call.start x) rfl
    cases x <;> simp [Call.ind] at this <;> exact_mod_cast this
  · intro x
    have := key (Call.end_ x) rfl
    cases x <;> simp [Call.ind] at this <;> exact_mod_cast this
  · intro x
    have := key (Call.startEvent x) rfl
    cases x <;> simp [Call.ind] at this <;> exact_mod_cast this
  · intro x
    have := key (Call.endEvent x) rfl
    cases x <;> simp [Call.ind] at this <;> exact_mod_cast this
  · have := key Call.nextEvent rfl
    simp [Call.ind] at this
    exact_mod_cast this

/-- The counter `m_NbrEvents` and the Source script after a run that no assertion ends. -/
theorem loop_counter_and_source (nav : RawBufferNavigator) (NUMBER_PAD budget : Nat)
    (lp : BufferLooper) (source : SourceScript) (hm : lp.m_NbrEvents < 2 ^ 32)
    (hab : (loop nav NUMBER_PAD lp source budget).aborted = false) :
    (loop nav NUMBER_PAD lp source budget).looper.m_NbrEvents
      = (lp.m_NbrEvents + eventsProcessed budget lp.m_NbrEvents source.length) % 2 ^ 32 ∧
    (loop nav NUMBER_PAD lp source budget).source
      = source.drop (eventsProcessed budget lp.m_NbrEvents source.length + 1) := by
  rw [loop_aborted_eq] at hab
  obtain ⟨-, h2, h3⟩ := eventLoop_turns nav NUMBER_PAD budget (fun _ => 0) (fun _ _ => rfl)
    source lp hm hab
  rw [loop_looper, loop_source]
  exact ⟨h2, h3⟩

/-! ## Bounds on the event counter -/

/-- While the counter cannot wrap for lack of events, it only goes up, by at most one per event
of the Source. This holds for every run, ended by an assertion or not. -/
theorem eventLoop_counter_le_events (nav : RawBufferNavigator) (NUMBER_PAD budget : Nat)
    (source : SourceScript) :
    ∀ lp : BufferLooper, lp.m_NbrEvents + source.length < 2 ^ 32 →
      lp.m_NbrEvents ≤ (eventLoop nav NUMBER_PAD budget lp source).looper.m_NbrEvents ∧
      (eventLoop nav NUMBER_PAD budget lp source).looper.m_NbrEvents
        ≤ lp.m_NbrEvents + source.length := by
  induction source with
  | nil => intro lp _; rw [eventLoop_nil]; simp
  | cons ev rest ih =>
    intro lp h
    simp only [List.length_cons] at h
    rcases Nat.lt_or_ge budget lp.m_NbrEvents with hb | hb
    · rw [eventLoop_cons_over nav NUMBER_PAD budget lp ev rest hb]
      simp
    · cases ha : (difLoop nav NUMBER_PAD lp.m_DetectorIDs lp.m_Debug lp.c ev).aborted with
      | true =>
        rw [eventLoop_cons_aborted nav NUMBER_PAD budget lp ev rest hb ha]
        simp
      | false =>
        have hmod : (lp.m_NbrEvents + 1) % 2 ^ 32 = lp.m_NbrEvents + 1 :=
          Nat.mod_eq_of_lt (by omega)
        have := ih
          { lp with c := (difLoop nav NUMBER_PAD lp.m_DetectorIDs lp.m_Debug lp.c ev).c,
                    m_NbrEvents := (lp.m_NbrEvents + 1) % 2 ^ 32 }
          (by simp only [hmod]; omega)
        rw [eventLoop_cons nav NUMBER_PAD budget lp ev rest hb ha]
        simp only [hmod, List.length_cons] at this ⊢
        omega

/-- Below the largest 32-bit budget the counter only goes up and stops at the budget plus one.
This holds for every run, ended by an assertion or not. -/
theorem eventLoop_counter_le_budget (nav : RawBufferNavigator) (NUMBER_PAD budget : Nat)
    (hN : budget < 2 ^ 32 - 1) (source : SourceScript) :
    ∀ lp : BufferLooper, lp.m_NbrEvents ≤ budget + 1 →
      lp.m_NbrEvents ≤ (eventLoop nav NUMBER_PAD budget lp source).looper.m_NbrEvents ∧
      (eventLoop nav NUMBER_PAD budget lp source).looper.m_NbrEvents ≤ budget + 1 := by
  induction source with
  | nil => intro lp h; rw [eventLoop_nil]; simpa using h
  | cons ev rest ih =>
    intro lp h
    rcases Nat.lt_or_ge budget lp.m_NbrEvents with hb | hb
    · rw [eventLoop_cons_over nav NUMBER_PAD budget lp ev rest hb]
      simpa using h
    · cases ha : (difLoop nav NUMBER_PAD lp.m_DetectorIDs lp.m_Debug lp.c ev).aborted with
      | true =>
        rw [eventLoop_cons_aborted nav NUMBER_PAD budget lp ev rest hb ha]
        simpa using h
      | false =>
        have hmod : (lp.m_NbrEvents + 1) % 2 ^ 32 = lp.m_NbrEvents + 1 :=
          Nat.mod_eq_of_lt (by omega)
        have := ih
          { lp with c := (difLoop nav NUMBER_PAD lp.m_DetectorIDs lp.m_Debug lp.c ev).c,
                    m_NbrEvents := (lp.m_NbrEvents + 1) % 2 ^ 32 }
          (by simp only [hmod]; omega)
        rw [eventLoop_cons nav NUMBER_PAD budget lp ev rest hb ha]
        simp only [hmod] at this ⊢
        omega

/-- In 32-bit unsigned arithmetic `1000 * m` is zero exactly when `m` is a multiple of
`2 ^ 29`. -/
theorem perEventDivisor_eq_zero_iff (lp : BufferLooper) :
    perEventDivisor lp = 0 ↔ lp.m_NbrEvents % 2 ^ 29 = 0 := by
  unfold perEventDivisor
  omega

/-- Whatever its outcome, the event loop issues neither `start` nor `end`. -/
theorem eventLoop_calls (nav : RawBufferNavigator) (NUMBER_PAD budget : Nat)
    (source : SourceScript) :
    ∀ lp : BufferLooper, ∀ call ∈ (eventLoop nav NUMBER_PAD budget lp source).calls,
      ∀ x, call ≠ Call.start x ∧ call ≠ Call.end_ x := by
  have hdif : ∀ (lp : BufferLooper) (ev : List Buffer),
      ∀ call ∈ (difLoop nav NUMBER_PAD lp.m_DetectorIDs lp.m_Debug lp.c ev).calls,
      ∀ x, call ≠ Call.start x ∧ call ≠ Call.end_ x := by
    intro lp ev call h x
    have := difLoop_calls nav NUMBER_PAD lp.m_DetectorIDs lp.m_Debug ev lp.c call h
    constructor <;> intro e <;> rw [e] at this <;> exact Bool.noConfusion this
  have hne : ∀ x, Call.nextEvent ≠ Call.start x ∧ Call.nextEvent ≠ Call.end_ x :=
    fun x => ⟨(fun e => by cases e), (fun e => by cases e)⟩
  induction source with
  | nil =>
    intro lp call h x
    rw [eventLoop_nil] at h
    simp only [List.mem_singleton] at h
    subst h
    exact hne x
  | cons ev rest ih =>
    intro lp call h x
    rcases Nat.lt_or_ge budget lp.m_NbrEvents with hb | hb
    · rw [eventLoop_cons_over nav NUMBER_PAD budget lp ev rest hb] at h
      simp only [List.mem_singleton] at h
      subst h
      exact hne x
    · cases ha : (difLoop nav NUMBER_PAD lp.m_DetectorIDs lp.m_Debug lp.c ev).aborted with
      | true =>
        rw [eventLoop_cons_aborted nav NUMBER_PAD budget lp ev rest hb ha] at h
        simp only [List.cons_append, List.nil_append, List.mem_cons] at h
        rcases h with rfl | rfl | rfl | h
        · exact hne x
        · exact ⟨(fun e => by cases e), (fun e => by cases e)⟩
        · exact ⟨(fun e => by cases e), (fun e => by cases e)⟩
        · exact hdif lp ev call h x
      | false =>
        rw [eventLoop_cons nav NUMBER_PAD budget lp ev rest hb ha] at h
        simp only [List.cons_append, List.nil_append, List.mem_cons, List.mem_append,
          List.mem_nil_iff, or_false] at h
        rcases h with rfl | rfl | rfl | h
        · exact hne x
        · exact ⟨(fun e => by cases e), (fun e => by cases e)⟩
        · exact ⟨(fun e => by cases e), (fun e => by cases e)⟩
        · rcases h with (h | rfl | rfl) | h
          · exact hdif lp ev call h x
          · exact ⟨(fun e => by cases e), (fun e => by cases e)⟩
          · exact ⟨(fun e => by cases e), (fun e => by cases e)⟩
          · exact ih _ call h x

/-- An event loop that no assertion ends finishes on a call `nextEvent()`. -/
theorem eventLoop_calls_last (nav : RawBufferNavigator) (NUMBER_PAD budget : Nat)
    (source : SourceScript) :
    ∀ lp : BufferLooper, (eventLoop nav NUMBER_PAD budget lp source).aborted = false →
      ∃ pre, (eventLoop nav NUMBER_PAD budget lp source).calls = pre ++ [Call.nextEvent] := by
  induction source with
  | nil => intro lp _; exact ⟨[], rfl⟩
  | cons ev rest ih =>
    intro lp hab
    rcases Nat.lt_or_ge budget lp.m_NbrEvents with hb | hb
    · rw [eventLoop_cons_over nav NUMBER_PAD budget lp ev rest hb]
      exact ⟨[], rfl⟩
    · cases ha : (difLoop nav NUMBER_PAD lp.m_DetectorIDs lp.m_Debug lp.c ev).aborted with
      | true =>
        rw [eventLoop_cons_aborted nav NUMBER_PAD budget lp ev rest hb ha] at hab
        exact Bool.noConfusion hab
      | false =>
        rw [eventLoop_cons nav NUMBER_PAD budget lp ev rest hb ha] at hab ⊢
        obtain ⟨pre, hpre⟩ := ih _ hab
        simp only [] at hpre ⊢
        rw [hpre]
        exact ⟨_, (List.append_assoc _ _ _).symm⟩

/-! ## Sums of counts -/

/-- `m[k]++` adds one to the sum of the counts. -/
theorem sum_incrEntries (k : Int) (l : List (Int × Int)) :
    ((incrEntries k l).map Prod.snd).sum = (l.map Prod.snd).sum + 1 := by
  induction l with
  | nil => simp [incrEntries]
  | cons e t ih =>
    obtain ⟨k0, v⟩ := e
    unfold incrEntries
    split_ifs
    · simp only [List.map_cons, List.sum_cons]; ring
    · simp only [List.map_cons, List.sum_cons]; ring
    · simp only [List.map_cons, List.sum_cons, ih]; ring

/-- `m[k]++` adds one to the sum of the counts of the histogram. -/
theorem StdMap.total_incr (m : StdMap) (k : Int) : (m.incr k).total = m.total + 1 :=
  sum_incrEntries k m.entries

/-- The calls up to slow control hold one `startDIF` on each collaborator and no `endDIF`. -/
theorem weigh_callsBeforeEndDIF (w : Call → Int)
    (hp : ∀ call, call.takesDIFPtr = true → w call = 0)
    (nav : RawBufferNavigator) (NUMBER_PAD : Nat) (buffer : Buffer) :
    weigh w (callsBeforeEndDIF nav NUMBER_PAD buffer)
      = w Call.getSDHCALBuffer + w (Call.startDIF Source) + w (Call.startDIF Destination)
        + (nav.getDIFPtr buffer).getNumberOfFrames
            * (w (Call.startFrame Source) + w (Call.startFrame Destination)
                + NUMBER_PAD * (w (Call.startPad Source) + w (Call.startPad Destination)
                    + w (Call.endPad Source) + w (Call.endPad Destination))
                + w (Call.endFrame Source) + w (Call.endFrame Destination))
        + (if nav.hasSlowControlData buffer && !nav.badSCData buffer
            then w (Call.processSlowControl (nav.getSCBuffer buffer)) else 0) := by
  have h0 : w (Call.processDIF (nav.getDIFPtr buffer)) = 0 := hp _ rfl
  unfold callsBeforeEndDIF
  simp only [List.cons_append, List.nil_append, weigh_cons, weigh_append,
    weigh_frameLoop w hp, h0]
  split_ifs <;> simp [weigh_cons, weigh_nil] <;> ring

/-! ## The buffers that reach `endDIF` -/

/-- A DIF loop that runs to its end issues `endDIF` to the Source once per buffer that passes the
filter and is valid. -/
theorem difLoop_count_endDIF (nav : RawBufferNavigator) (NUMBER_PAD : Nat)
    (ids : List DetectorID) (dbg : Bool) (buffers : List Buffer) :
    ∀ c, (difLoop nav NUMBER_PAD ids dbg c buffers).aborted = false →
      weigh (Call.ind (Call.endDIF Source)) (difLoop nav NUMBER_PAD ids dbg c buffers).calls
        = ((buffers.filter (fun b => unfilteredValid nav ids b)).length : Int) := by
  have p2 : ∀ call, call.takesDIFPtr = true → Call.ind (Call.endDIF Source) call = 0 := by
    intro call h
    cases call <;> simp_all [Call.takesDIFPtr, Call.ind]
  induction buffers with
  | nil =>
    intro c _
    rw [difLoop_nil]
    simp [weigh_cons, weigh_nil, Call.ind]
  | cons b rest ih =>
    intro c hab
    cases ha : (difBody nav NUMBER_PAD ids dbg c b).aborted with
    | true =>
      rw [difLoop_cons_aborted nav NUMBER_PAD ids dbg c b rest ha] at hab
      exact Bool.noConfusion hab
    | false =>
      rw [difLoop_cons nav NUMBER_PAD ids dbg c b rest ha] at hab
      have h2 := ih _ hab
      rw [difLoop_cons nav NUMBER_PAD ids dbg c b rest ha]
      simp only [List.cons_append, weigh_cons, weigh_append, h2]
      rcases difBody_of_not_aborted nav NUMBER_PAD ids dbg c b ha with
        ⟨hid, hf⟩ | ⟨hid, hv, hf⟩ | ⟨hid, hv, hf⟩
      · have hu : unfilteredValid nav ids b = false := by
          simp [unfilteredValid, hid]
        rw [hf]
        simp [weigh_cons, weigh_nil, Call.ind, List.filter_cons, hu]
      · have hu : unfilteredValid nav ids b = false := by
          simp [unfilteredValid, hv]
        rw [hf]
        simp [weigh_cons, weigh_nil, Call.ind, List.filter_cons, hu]
      · have hu : unfilteredValid nav ids b = true := by
          simp [unfilteredValid, hv, hid]
        rw [hf]
        simp only [weigh_append, weigh_cons, weigh_nil, weigh_callsBeforeEndDIF _ p2,
          List.filter_cons, hu, if_true, List.length_cons]
        simp [Call.ind]
        omega

/-- An event loop that runs to its end issues `endDIF` to the Source once per buffer, among those
of the events it has processed, that passes the filter and is valid. -/
theorem eventLoop_count_endDIF (nav : RawBufferNavigator) (NUMBER_PAD budget : Nat)
    (source : SourceScript) :
    ∀ lp : BufferLooper, (eventLoop nav NUMBER_PAD budget lp source).aborted = false →
      weigh (Call.ind (Call.endDIF Source)) (eventLoop nav NUMBER_PAD budget lp source).calls
        = (((source.take (eventsProcessed budget lp.m_NbrEvents source.length)).map
            (fun ev => (ev.filter
              (fun b => unfilteredValid nav lp.m_DetectorIDs b)).length)).sum : Int) := by
  induction source with
  | nil =>
    intro lp _
    rw [eventLoop_nil]
    simp [weigh_cons, weigh_nil, Call.ind]
  | cons ev rest ih =>
    intro lp hab
    rcases Nat.lt_or_ge budget lp.m_NbrEvents with hb | hb
    · have hP : eventsProcessed budget lp.m_NbrEvents (ev :: rest).length = 0 := by
        have : ¬ budget ≥ lp.m_NbrEvents := by omega
        simp [eventsProcessed, this]
      rw [eventLoop_cons_over nav NUMBER_PAD budget lp ev rest hb, hP]
      simp [weigh_cons, weigh_nil, Call.ind]
    · have hP : eventsProcessed budget lp.m_NbrEvents (ev :: rest).length
          = eventsProcessed budget ((lp.m_NbrEvents + 1) % 2 ^ 32) rest.length + 1 := by
        have : budget ≥ lp.m_NbrEvents := hb
        simp [eventsProcessed, this]
      cases ha : (difLoop nav NUMBER_PAD lp.m_DetectorIDs lp.m_Debug lp.c ev).aborted with
      | true =>
        rw [eventLoop_cons_aborted nav NUMBER_PAD budget lp ev rest hb ha] at hab
        exact Bool.noConfusion hab
      | false =>
        rw [eventLoop_cons nav NUMBER_PAD budget lp ev rest hb ha] at hab
        have h1 := difLoop_count_endDIF nav NUMBER_PAD lp.m_DetectorIDs lp.m_Debug ev lp.c ha
        have h2 := ih
          { lp with c := (difLoop nav NUMBER_PAD lp.m_DetectorIDs lp.m_Debug lp.c ev).c,
                    m_NbrEvents := (lp.m_NbrEvents + 1) % 2 ^ 32 } hab
        simp only [] at h2
        rw [eventLoop_cons nav NUMBER_PAD budget lp ev rest hb ha, hP]
        simp only [List.cons_append, List.nil_append, weigh_cons, weigh_append, weigh_nil, h1, h2,
          List.take_succ_cons, List.map_cons, List.sum_cons]
        simp [Call.ind]

/-- A run that no assertion ends issues `endDIF` to the Source once per buffer, among those of
the events it has processed, that passes the filter and is valid. -/
theorem loop_count_endDIF (nav : RawBufferNavigator) (NUMBER_PAD budget : Nat)
    (lp : BufferLooper) (source : SourceScript)
    (hab : (loop nav NUMBER_PAD lp source budget).aborted = false) :
    (loop nav NUMBER_PAD lp source budget).calls.count (Call.endDIF Source)
      = ((source.take (eventsProcessed budget lp.m_NbrEvents source.length)).map
          (fun ev => (ev.filter (fun b => unfilteredValid nav lp.m_DetectorIDs b)).length)).sum := by
  rw [loop_aborted_eq] at hab
  have h := eventLoop_count_endDIF nav NUMBER_PAD budget source lp hab
  have h2 : ((loop nav NUMBER_PAD lp source budget).calls.count (Call.endDIF Source) : Int)
      = weigh (Call.ind (Call.endDIF Source)) (eventLoop nav NUMBER_PAD budget lp source).calls := by
    rw [← weigh_ind, loop_completed nav NUMBER_PAD budget lp source hab]
    simp [weigh_cons, weigh_append, weigh_nil, Call.ind]
  rw [h] at h2
  have h3 : ((((source.take (eventsProcessed budget lp.m_NbrEvents source.length)).map
      (fun ev => (ev.filter (fun b => unfilteredValid nav lp.m_DetectorIDs b)).length)).sum : Nat)
        : Int)
      = (((source.take (eventsProcessed budget lp.m_NbrEvents source.length)).map
          (fun ev => (ev.filter
            (fun b => unfilteredValid nav lp.m_DetectorIDs b)).length)).sum : Int) := by
    rw [Nat.cast_list_sum, List.map_map]
    rfl
  rw [← h3] at h2
  exact_mod_cast h2

/-! ## The scan for the sentinel -/

/-- The scan returns the offset of a sentinel byte that no sentinel byte precedes. -/
theorem scanForSentinel_of_first (l : List bit8_t) :
    ∀ (pos k : Nat), l[k]? = some (0xa0 : bit8_t) →
      (∀ j, j < k → l[j]? ≠ some (0xa0 : bit8_t)) →
      scanForSentinel l pos = ((pos + k : Nat) : Int) := by
  induction l with
  | nil => intro pos k h _; simp at h
  | cons b t ih =>
    intro pos k h hbefore
    cases k with
    | zero =>
      simp only [List.getElem?_cons_zero, Option.some.injEq] at h
      simp [scanForSentinel, h]
    | succ k =>
      have hb : b ≠ 0xa0 := by
        intro e
        exact hbefore 0 (Nat.succ_pos k) (by simp [e])
      have := ih (pos + 1) k (by simpa using h)
        (fun j hj => by simpa using hbefore (j + 1) (by omega))
      simp only [scanForSentinel, if_neg hb, this]
      congr 1
      omega

/-- The scan returns `-1` when no byte is the sentinel. -/
theorem scanForSentinel_of_absent (l : List bit8_t) :
    ∀ pos : Nat, (∀ j : Nat, l[j]? ≠ some (0xa0 : bit8_t)) → scanForSentinel l pos = -1 := by
  induction l with
  | nil => intro pos _; rfl
  | cons b t ih =>
    intro pos h
    have hb : b ≠ 0xa0 := by
      intro e
      exact h 0 (by simp [e])
    simp only [scanForSentinel, if_neg hb]
    exact ih (pos + 1) (fun j => by simpa using h (j + 1))

/-- Once a buffer has passed the assertion of line 66 and the filter, its `getStartOfDIF()` is
tallied in `DIFStarter`, whatever comes after, and no other statement touches `DIFStarter`. -/
theorem difBody_DIFStarter (nav : RawBufferNavigator) (NUMBER_PAD : Nat)
    (ids : List DetectorID) (dbg : Bool) (c : BufferLooperCounter) (buffer : Buffer)
    (h66 : dbg = true → buffer.end_ = (nav.getDIFBuffer buffer).end_)
    (hid : nav.getDetectorID buffer ∈ ids) :
    (difBody nav NUMBER_PAD ids dbg c buffer).c.DIFStarter
      = c.DIFStarter.incr (nav.getStartOfDIF buffer) := by
  have ha : (dbg && buffer.end_ != (nav.getDIFBuffer buffer).end_) = false := by
    cases dbg
    · rfl
    · simp [h66 rfl]
  have hc : ids.contains (nav.getDetectorID buffer) = true := by simpa using hid
  unfold difBody
  cases hs : nav.hasSlowControlData buffer <;> cases hbd : nav.badSCData buffer <;>
    simp only [ha, hc, Bool.false_eq_true, if_false, Bool.not_true] <;> split_ifs <;> rfl

/-! ## Successive runs on one looper -/

/-- The DIF loop issues no `startEvent`. -/
theorem difLoop_count_startEvent (nav : RawBufferNavigator) (NUMBER_PAD : Nat)
    (ids : List DetectorID) (dbg : Bool) (c : BufferLooperCounter) (buffers : List Buffer)
    (x : Collaborator) :
    (difLoop nav NUMBER_PAD ids dbg c buffers).calls.count (Call.startEvent x) = 0 := by
  apply List.count_eq_zero_of_not_mem
  intro h
  have := difLoop_calls nav NUMBER_PAD ids dbg buffers c _ h
  exact Bool.noConfusion this

/-- With all budgets at most `B < 2 ^ 32 - 1` the counter `m_NbrEvents` accounts for the events
started: an event loop that runs to its end raises the counter by at least the number of
`startEvent` it issues and leaves it at most at `B + 1`; one that an assertion ends has started
at most `B + 1 - m_NbrEvents` events. -/
theorem eventLoop_started (nav : RawBufferNavigator) (NUMBER_PAD budget B : Nat)
    (hB : B < 2 ^ 32 - 1) (hbud : budget ≤ B) (source : SourceScript) :
    ∀ lp : BufferLooper, lp.m_NbrEvents ≤ B + 1 →
      ((eventLoop nav NUMBER_PAD budget lp source).aborted = false →
        (eventLoop nav NUMBER_PAD budget lp source).calls.count (Call.startEvent Source)
            + lp.m_NbrEvents
          ≤ (eventLoop nav NUMBER_PAD budget lp source).looper.m_NbrEvents ∧
        (eventLoop nav NUMBER_PAD budget lp source).looper.m_NbrEvents ≤ B + 1) ∧
      ((eventLoop nav NUMBER_PAD budget lp source).aborted = true →
        (eventLoop nav NUMBER_PAD budget lp source).calls.count (Call.startEvent Source)
            + lp.m_NbrEvents ≤ B + 1) := by
  induction source with
  | nil =>
    intro lp hm
    rw [eventLoop_nil]
    simp
    exact hm
  | cons ev rest ih =>
    intro lp hm
    rcases Nat.lt_or_ge budget lp.m_NbrEvents with hb | hb
    · rw [eventLoop_cons_over nav NUMBER_PAD budget lp ev rest hb]
      simp
      exact hm
    · have hd0 := difLoop_count_startEvent nav NUMBER_PAD lp.m_DetectorIDs lp.m_Debug lp.c ev
        Source
      cases ha : (difLoop nav NUMBER_PAD lp.m_DetectorIDs lp.m_Debug lp.c ev).aborted with
      | true =>
        rw [eventLoop_cons_aborted nav NUMBER_PAD budget lp ev rest hb ha]
        simp only [List.cons_append, List.nil_append, List.count_cons, hd0]
        simp
        omega
      | false =>
        have hmod : (lp.m_NbrEvents + 1) % 2 ^ 32 = lp.m_NbrEvents + 1 :=
          Nat.mod_eq_of_lt (by omega)
        have hi := ih
          { lp with c := (difLoop nav NUMBER_PAD lp.m_DetectorIDs lp.m_Debug lp.c ev).c,
                    m_NbrEvents := (lp.m_NbrEvents + 1) % 2 ^ 32 }
          (by simp only [hmod]; omega)
        rw [eventLoop_cons nav NUMBER_PAD budget lp ev rest hb ha]
        simp only [List.cons_append, List.nil_append, List.count_cons, List.count_append,
          List.count_nil, hd0]
        simp only [hmod] at hi ⊢
        obtain ⟨hi1, hi2⟩ := hi
        constructor
        · intro hab
          have := hi1 hab
          simp
          omega
        · intro hab
          have := hi2 hab
          simp
          omega

/-- The same for a run: `start` and `end` are not `startEvent`. -/
theorem loop_started (nav : RawBufferNavigator) (NUMBER_PAD budget B : Nat)
    (hB : B < 2 ^ 32 - 1) (hbud : budget ≤ B) (source : SourceScript) (lp : BufferLooper)
    (hm : lp.m_NbrEvents ≤ B + 1) :
    ((loop nav NUMBER_PAD lp source budget).aborted = false →
      (loop nav NUMBER_PAD lp source budget).calls.count (Call.startEvent Source)
          + lp.m_NbrEvents
        ≤ (loop nav NUMBER_PAD lp source budget).looper.m_NbrEvents ∧
      (loop nav NUMBER_PAD lp source budget).looper.m_NbrEvents ≤ B + 1) ∧
    ((loop nav NUMBER_PAD lp source budget).aborted = true →
      (loop nav NUMBER_PAD lp source budget).calls.count (Call.startEvent Source)
          + lp.m_NbrEvents ≤ B + 1) := by
  obtain ⟨h1, h2⟩ := eventLoop_started nav NUMBER_PAD budget B hB hbud source lp hm
  cases ha : (eventLoop nav NUMBER_PAD budget lp source).aborted with
  | false =>
    rw [loop_completed nav NUMBER_PAD budget lp source ha]
    simp only [List.cons_append, List.nil_append, List.count_cons, List.count_append,
      List.count_nil]
    simp
    exact h1 ha
  | true =>
    rw [loop_aborted nav NUMBER_PAD budget lp source ha]
    simp only [List.cons_append, List.nil_append, List.count_cons]
    simp
    exact h2 ha

/-- Over successive runs with budgets at most `B < 2 ^ 32 - 1`, the events started and the
counter at the first run add up to at most `B + 1`. -/
theorem loopSeq_started (nav : RawBufferNavigator) (NUMBER_PAD B : Nat) (hB : B < 2 ^ 32 - 1)
    (runs : List (Nat × SourceScript)) :
    (∀ p ∈ runs, p.1 ≤ B) → ∀ lp : BufferLooper, lp.m_NbrEvents ≤ B + 1 →
      eventsStarted (loopSeq nav NUMBER_PAD lp runs) + lp.m_NbrEvents ≤ B + 1 := by
  induction runs with
  | nil => intro _ lp hm; simpa [loopSeq, eventsStarted] using hm
  | cons p rest ih =>
    intro hall lp hm
    obtain ⟨h1, h2⟩ := loop_started nav NUMBER_PAD p.1 B hB (hall p (List.mem_cons_self _ _))
      p.2 lp hm
    cases ha : (loop nav NUMBER_PAD lp p.2 p.1).aborted with
    | true =>
      have := h2 ha
      simp only [loopSeq, ha, if_true, eventsStarted, List.map_cons, List.map_nil,
        List.sum_cons, List.sum_nil]
      omega
    | false =>
      obtain ⟨h3, h4⟩ := h1 ha
      have := ih (fun q hq => hall q (List.mem_cons_of_mem _ hq))
        (loop nav NUMBER_PAD lp p.2 p.1).looper h4
      simp only [loopSeq, ha, Bool.false_eq_true, if_false, eventsStarted, List.map_cons,
        List.sum_cons] at this ⊢
      omega

/-- Every element of a list of budgets is at most their maximum. -/
theorem le_foldr_max (l : List Nat) : ∀ n ∈ l, n ≤ l.foldr max 0 := by
  induction l with
  | nil => intro n h; cases h
  | cons a t ih =>
    intro n h
    simp only [List.foldr_cons]
    rcases List.mem_cons.1 h with rfl | h
    · exact le_max_left _ _
    · exact le_trans (ih n h) (le_max_right _ _)

/-- The maximum of budgets that are all below a bound is below the bound. -/
theorem foldr_max_lt (l : List Nat) (b : Nat) (hb : 0 < b) (h : ∀ n ∈ l, n < b) :
    l.foldr max 0 < b := by
  induction l with
  | nil => simpa using hb
  | cons a t ih =>
    simp only [List.foldr_cons]
    exact max_lt (h a (List.mem_cons_self _ _)) (ih (fun n hn => h n (List.mem_cons_of_mem _ hn)))

/-! ## Properties of the calls carried through the loops -/

/-- A run that no assertion ends is `start` on both collaborators, a sequence of calls with the
property `Qe`, and `end` on both collaborators, when: `Qd` holds of the call `nextDIFbuffer()`
and of the calls of every turn of the DIF loop that runs to its end; an event, from its
`nextEvent()` to its `endEvent`, has `Qe` when the calls of its DIF loop have `Qd`; the last
`nextEvent()` has `Qe`; and both properties are kept by putting sequences one after the other. -/
theorem loop_calls_induction (nav : RawBufferNavigator) (NUMBER_PAD budget : Nat)
    (lp : BufferLooper) (source : SourceScript) (Qd Qe : List Call → Prop)
    (hdapp : ∀ a b, Qd a → Qd b → Qd (a ++ b))
    (hdnext : Qd [Call.nextDIFbuffer])
    (hdbody : ∀ c b,
      (difBody nav NUMBER_PAD lp.m_DetectorIDs lp.m_Debug c b).aborted = false →
      Qd (difBody nav NUMBER_PAD lp.m_DetectorIDs lp.m_Debug c b).calls)
    (heapp : ∀ a b, Qe a → Qe b → Qe (a ++ b))
    (henext : Qe [Call.nextEvent])
    (heevent : ∀ l, Qd l →
      Qe ([Call.nextEvent, Call.startEvent Source, Call.startEvent Destination] ++ l
            ++ [Call.endEvent Source, Call.endEvent Destination]))
    (hab : (loop nav NUMBER_PAD lp source budget).aborted = false) :
    ∃ mid, Qe mid ∧
      (loop nav NUMBER_PAD lp source budget).calls
        = [Call.start Source, Call.start Destination] ++ mid
            ++ [Call.end_ Destination, Call.end_ Source] := by
  have hdif : ∀ (buffers : List Buffer) (c : BufferLooperCounter),
      (difLoop nav NUMBER_PAD lp.m_DetectorIDs lp.m_Debug c buffers).aborted = false →
      Qd (difLoop nav NUMBER_PAD lp.m_DetectorIDs lp.m_Debug c buffers).calls := by
    intro buffers
    induction buffers with
    | nil => intro c _; exact hdnext
    | cons b rest ih =>
      intro c h
      cases ha : (difBody nav NUMBER_PAD lp.m_DetectorIDs lp.m_Debug c b).aborted with
      | true =>
        rw [difLoop_cons_aborted _ _ _ _ c b rest ha] at h
        exact Bool.noConfusion h
      | false =>
        rw [difLoop_cons _ _ _ _ c b rest ha] at h ⊢
        have := hdapp _ _ hdnext (hdapp _ _ (hdbody c b ha) (ih _ h))
        simpa using this
  have hev : ∀ (src : SourceScript) (l : BufferLooper), l.m_DetectorIDs = lp.m_DetectorIDs →
      l.m_Debug = lp.m_Debug → (eventLoop nav NUMBER_PAD budget l src).aborted = false →
      Qe (eventLoop nav NUMBER_PAD budget l src).calls := by
    intro src
    induction src with
    | nil => intro l _ _ _; exact henext
    | cons ev rest ih =>
      intro l hi hd h
      rcases Nat.lt_or_ge budget l.m_NbrEvents with hb | hb
      · rw [eventLoop_cons_over nav NUMBER_PAD budget l ev rest hb]
        exact henext
      · cases ha : (difLoop nav NUMBER_PAD l.m_DetectorIDs l.m_Debug l.c ev).aborted with
        | true =>
          rw [eventLoop_cons_aborted nav NUMBER_PAD budget l ev rest hb ha] at h
          exact Bool.noConfusion h
        | false =>
          rw [eventLoop_cons nav NUMBER_PAD budget l ev rest hb ha] at h ⊢
          have h1 : Qd (difLoop nav NUMBER_PAD l.m_DetectorIDs l.m_Debug l.c ev).calls := by
            have ha2 := ha
            rw [hi, hd] at ha2 ⊢
            exact hdif ev l.c ha2
          exact heapp _ _ (heevent _ h1) (ih _ hi hd h)
  rw [loop_aborted_eq] at hab
  exact ⟨_, hev source lp rfl rfl hab, by rw [loop_completed nav NUMBER_PAD budget lp source hab]⟩

/-- A weight that cancels over the brackets of an event and over every turn of the DIF loop that
runs to its end, and ignores `start`, `end`, `nextEvent` and `nextDIFbuffer`, cancels over a run
that no assertion ends. -/
theorem loop_weigh_eq_zero (nav : RawBufferNavigator) (NUMBER_PAD budget : Nat)
    (lp : BufferLooper) (source : SourceScript) (w : Call → Int)
    (hrun : ∀ x, w (Call.start x) = 0 ∧ w (Call.end_ x) = 0)
    (hnextE : w Call.nextEvent = 0) (hnextD : w Call.nextDIFbuffer = 0)
    (hevent : w (Call.startEvent Source) + w (Call.startEvent Destination)
      + w (Call.endEvent Source) + w (Call.endEvent Destination) = 0)
    (hbody : ∀ c b,
      (difBody nav NUMBER_PAD lp.m_DetectorIDs lp.m_Debug c b).aborted = false →
      weigh w (difBody nav NUMBER_PAD lp.m_DetectorIDs lp.m_Debug c b).calls = 0)
    (hab : (loop nav NUMBER_PAD lp source budget).aborted = false) :
    weigh w (loop nav NUMBER_PAD lp source budget).calls = 0 := by
  have happ : ∀ a b : List Call, weigh w a = 0 → weigh w b = 0 → weigh w (a ++ b) = 0 := by
    intro a b ha hb
    rw [weigh_append, ha, hb]
    rfl
  have h1 : weigh w [Call.nextDIFbuffer] = 0 := by simp [weigh_cons, weigh_nil, hnextD]
  have h2 : weigh w [Call.nextEvent] = 0 := by simp [weigh_cons, weigh_nil, hnextE]
  have h3 : ∀ l, weigh w l = 0 →
      weigh w ([Call.nextEvent, Call.startEvent Source, Call.startEvent Destination] ++ l
        ++ [Call.endEvent Source, Call.endEvent Destination]) = 0 := by
    intro l hl
    simp only [List.cons_append, List.nil_append, weigh_cons, weigh_append, weigh_nil, hl,
      hnextE]
    omega
  obtain ⟨mid, hmid, hcalls⟩ := loop_calls_induction nav NUMBER_PAD budget lp source
    (fun l => weigh w l = 0) (fun l => weigh w l = 0) happ h1 hbody happ h2 h3 hab
  have hmid2 : weigh w mid = 0 := hmid
  rw [hcalls]
  simp only [List.cons_append, List.nil_append, weigh_cons, weigh_append, weigh_nil, hmid2,
    (hrun Source).1, (hrun Source).2, (hrun Destination).1, (hrun Destination).2]
  rfl

/-- The weight of a difference of weights, the second one scaled. -/
theorem weigh_sub_mul (u v : Call → Int) (k : Int) (l : List Call) :
    weigh (fun call => u call - k * v call) l = weigh u l - k * weigh v l := by
  induction l with
  | nil => simp [weigh_nil]
  | cons x t ih => rw [weigh_cons, weigh_cons, weigh_cons, ih]; ring

/-- Putting two sequences in lock-step one after the other gives a sequence in lock-step. -/
theorem LockStep.append {a b : List Call} (ha : LockStep a) (hb : LockStep b) :
    LockStep (a ++ b) := by
  induction ha with
  | nil => exact hb
  | pair h rest _ ih => exact LockStep.pair h _ ih
  | other call rest hc _ ih => exact LockStep.other call _ hc ih

/-- The pad loop is in lock-step. -/
theorem lockStep_padLoop (d : DIFPtr) (i n : Nat) : ∀ j, LockStep (padLoop d i n j) := by
  induction n with
  | zero => intro j; exact LockStep.nil
  | succ n ih =>
    intro j
    exact LockStep.pair Hook.startPad _
      (LockStep.other _ _ rfl (LockStep.pair Hook.endPad _ (ih (j + 1))))

/-- The frame loop is in lock-step. -/
theorem lockStep_frameLoop (NUMBER_PAD : Nat) (d : DIFPtr) (n : Nat) :
    ∀ i, LockStep (frameLoop NUMBER_PAD d n i) := by
  induction n with
  | zero => intro i; exact LockStep.nil
  | succ n ih =>
    intro i
    have h1 : LockStep ([Call.endFrame Source, Call.endFrame Destination]
        ++ frameLoop NUMBER_PAD d n (i + 1)) :=
      LockStep.pair Hook.endFrame _ (ih (i + 1))
    have h2 := LockStep.append (lockStep_padLoop d i NUMBER_PAD 0) h1
    have h3 := LockStep.pair Hook.startFrame _ (LockStep.other (Call.processFrame d i) _ rfl h2)
    simpa [frameLoop, Hook.call] using h3

/-- The calls of a turn of the DIF loop that runs to its end are in lock-step. -/
theorem lockStep_difBody (nav : RawBufferNavigator) (NUMBER_PAD : Nat) (ids : List DetectorID)
    (dbg : Bool) (c : BufferLooperCounter) (b : Buffer)
    (h : (difBody nav NUMBER_PAD ids dbg c b).aborted = false) :
    LockStep (difBody nav NUMBER_PAD ids dbg c b).calls := by
  have hsc : LockStep (if nav.hasSlowControlData b && !nav.badSCData b
      then [Call.processSlowControl (nav.getSCBuffer b)] else []) := by
    split_ifs
    · exact LockStep.other _ _ rfl LockStep.nil
    · exact LockStep.nil
  have hend : LockStep [Call.endDIF Source, Call.endDIF Destination] :=
    LockStep.other _ _ rfl (LockStep.other _ _ rfl LockStep.nil)
  rcases difBody_of_not_aborted nav NUMBER_PAD ids dbg c b h with
    ⟨-, hf⟩ | ⟨-, -, hf⟩ | ⟨-, -, hf⟩
  · rw [hf]
    exact LockStep.other _ _ rfl LockStep.nil
  · rw [hf]
    exact LockStep.other _ _ rfl (LockStep.other _ _ rfl (LockStep.other _ _ rfl LockStep.nil))
  · rw [hf]
    have h1 := LockStep.append (LockStep.append
      (lockStep_frameLoop NUMBER_PAD (nav.getDIFPtr b) (nav.getDIFPtr b).getNumberOfFrames 0)
      hsc) hend
    have h2 := LockStep.other Call.getSDHCALBuffer _ rfl
      (LockStep.other (Call.startDIF Source) _ rfl
        (LockStep.other (Call.startDIF Destination) _ rfl
          (LockStep.other (Call.processDIF (nav.getDIFPtr b)) _ rfl h1)))
    simpa [callsBeforeEndDIF] using h2

/-- The check of nesting along two sequences in a row. -/
theorem nestRun_append (x : Collaborator) (a b : List Call) :
    ∀ depth, nestRun x depth (a ++ b)
      = (nestRun x depth a).bind (fun d => nestRun x d b) := by
  induction a with
  | nil => intro depth; rfl
  | cons call t ih =>
    intro depth
    simp only [List.cons_append, nestRun]
    cases nestStep x depth call with
    | none => rfl
    | some d => exact ih d

/-- The pad loop starts and ends in a frame, outside any pad. -/
theorem nestRun_padLoop (x : Collaborator) (d : DIFPtr) (i n : Nat) :
    ∀ j, nestRun x 2 (padLoop d i n j) = some 2 := by
  induction n with
  | zero => intro j; rfl
  | succ n ih =>
    intro j
    cases x <;> simp [padLoop, nestRun, nestStep, ih (j + 1)]

/-- The frame loop starts and ends in an event, outside any frame. -/
theorem nestRun_frameLoop (x : Collaborator) (NUMBER_PAD : Nat) (d : DIFPtr) (n : Nat) :
    ∀ i, nestRun x 1 (frameLoop NUMBER_PAD d n i) = some 1 := by
  induction n with
  | zero => intro i; rfl
  | succ n ih =>
    intro i
    cases x <;>
      simp [frameLoop, nestRun, nestStep, nestRun_append, nestRun_padLoop, ih (i + 1)]

/-- A turn of the DIF loop that runs to its end starts and ends in an event, outside any
frame. -/
theorem nestRun_difBody (x : Collaborator) (nav : RawBufferNavigator) (NUMBER_PAD : Nat)
    (ids : List DetectorID) (dbg : Bool) (c : BufferLooperCounter) (b : Buffer)
    (h : (difBody nav NUMBER_PAD ids dbg c b).aborted = false) :
    nestRun x 1 (difBody nav NUMBER_PAD ids dbg c b).calls = some 1 := by
  rcases difBody_of_not_aborted nav NUMBER_PAD ids dbg c b h with
    ⟨-, hf⟩ | ⟨-, -, hf⟩ | ⟨-, -, hf⟩
  · rw [hf]; rfl
  · rw [hf]; rfl
  · rw [hf]
    unfold callsBeforeEndDIF
    cases x <;> split_ifs <;>
      simp [nestRun, nestStep, nestRun_append, nestRun_frameLoop]

/-- A call that is not a hook of the event, frame or pad level is in particular any call that
takes the `DIFPtr`. -/
theorem isHook_of_takesDIFPtr (call : Call) (h : call.takesDIFPtr = true) :
    call.isHook = false := by
  cases call <;> simp_all [Call.takesDIFPtr, Call.isHook]

/-- A weight that only sees the hooks of the event, frame and pad levels and cancels over the
brackets of a frame with its `NUMBER_PAD` pads cancels over every turn of the DIF loop that runs
to its end. -/
theorem difBody_weigh_hooks (nav : RawBufferNavigator) (NUMBER_PAD : Nat)
    (ids : List DetectorID) (dbg : Bool) (c : BufferLooperCounter) (b : Buffer) (w : Call → Int)
    (hz : ∀ call, call.isHook = false → w call = 0)
    (hframe : w (Call.startFrame Source) + w (Call.startFrame Destination)
      + NUMBER_PAD * (w (Call.startPad Source) + w (Call.startPad Destination)
          + w (Call.endPad Source) + w (Call.endPad Destination))
      + w (Call.endFrame Source) + w (Call.endFrame Destination) = 0)
    (h : (difBody nav NUMBER_PAD ids dbg c b).aborted = false) :
    weigh w (difBody nav NUMBER_PAD ids dbg c b).calls = 0 := by
  have hp : ∀ call, call.takesDIFPtr = true → w call = 0 :=
    fun call hc => hz call (isHook_of_takesDIFPtr call hc)
  have z1 : w Call.getSDHCALBuffer = 0 := hz _ rfl
  have z2 : ∀ x, w (Call.startDIF x) = 0 := fun x => hz _ rfl
  have z3 : ∀ x, w (Call.endDIF x) = 0 := fun x => hz _ rfl
  have z4 : ∀ s, w (Call.processSlowControl s) = 0 := fun s => hz _ rfl
  rcases difBody_of_not_aborted nav NUMBER_PAD ids dbg c b h with
    ⟨-, hf⟩ | ⟨-, -, hf⟩ | ⟨-, -, hf⟩
  · rw [hf]
    simp [weigh_cons, weigh_nil, z1]
  · rw [hf]
    simp [weigh_cons, weigh_nil, z1, z2]
  · rw [hf]
    simp only [weigh_append, weigh_cons, weigh_nil, weigh_callsBeforeEndDIF w hp, z1, z2, z3, z4,
      hframe]
    simp

/-- A weight that only sees the hooks of the event, frame and pad levels and cancels over the
brackets of an event and over those of a frame with its pads cancels over a run that no assertion
ends. -/
theorem loop_weigh_hooks (nav : RawBufferNavigator) (NUMBER_PAD budget : Nat)
    (lp : BufferLooper) (source : SourceScript) (w : Call → Int)
    (hz : ∀ call, call.isHook = false → w call = 0)
    (hevent : w (Call.startEvent Source) + w (Call.startEvent Destination)
      + w (Call.endEvent Source) + w (Call.endEvent Destination) = 0)
    (hframe : w (Call.startFrame Source) + w (Call.startFrame Destination)
      + NUMBER_PAD * (w (Call.startPad Source) + w (Call.startPad Destination)
          + w (Call.endPad Source) + w (Call.endPad Destination))
      + w (Call.endFrame Source) + w (Call.endFrame Destination) = 0)
    (hab : (loop nav NUMBER_PAD lp source budget).aborted = false) :
    weigh w (loop nav NUMBER_PAD lp source budget).calls = 0 :=
  loop_weigh_eq_zero nav NUMBER_PAD budget lp source w
    (fun _ => ⟨hz _ rfl, hz _ rfl⟩) (hz _ rfl) (hz _ rfl) hevent
    (fun c b h => difBody_weigh_hooks nav NUMBER_PAD lp.m_DetectorIDs lp.m_Debug c b w hz hframe h)
    hab

/-- In a run that no assertion ends, when counting `u` for each call `a` and `-k` for each call
`b`, `a` and `b` being hooks of the event, frame and pad levels, cancels over the brackets of an
event and of a frame, there are `k` times as many `a` as `b`. -/
theorem loop_count_hooks (nav : RawBufferNavigator) (NUMBER_PAD budget : Nat)
    (lp : BufferLooper) (source : SourceScript) (a b : Call) (k : Nat)
    (ha : a.isHook = true) (hb : b.isHook = true)
    (hevent : (Call.ind a (Call.startEvent Source) - k * Call.ind b (Call.startEvent Source))
      + (Call.ind a (Call.startEvent Destination) - k * Call.ind b (Call.startEvent Destination))
      + (Call.ind a (Call.endEvent Source) - k * Call.ind b (Call.endEvent Source))
      + (Call.ind a (Call.endEvent Destination) - k * Call.ind b (Call.endEvent Destination))
      = 0)
    (hframe : (Call.ind a (Call.startFrame Source) - k * Call.ind b (Call.startFrame Source))
      + (Call.ind a (Call.startFrame Destination) - k * Call.ind b (Call.startFrame Destination))
      + NUMBER_PAD * ((Call.ind a (Call.startPad Source) - k * Call.ind b (Call.startPad Source))
          + (Call.ind a (Call.startPad Destination) - k * Call.ind b (Call.startPad Destination))
          + (Call.ind a (Call.endPad Source) - k * Call.ind b (Call.endPad Source))
          + (Call.ind a (Call.endPad Destination) - k * Call.ind b (Call.endPad Destination)))
      + (Call.ind a (Call.endFrame Source) - k * Call.ind b (Call.endFrame Source))
      + (Call.ind a (Call.endFrame Destination) - k * Call.ind b (Call.endFrame Destination))
      = 0)
    (hab : (loop nav NUMBER_PAD lp source budget).aborted = false) :
    (loop nav NUMBER_PAD lp source budget).calls.count a
      = k * (loop nav NUMBER_PAD lp source budget).calls.count b := by
  have hz : ∀ call : Call, call.isHook = false →
      Call.ind a call - (k : Int) * Call.ind b call = 0 := by
    intro call hc
    have h1 : call ≠ a := by
      intro e
      rw [e, ha] at hc
      exact Bool.noConfusion hc
    have h2 : call ≠ b := by
      intro e
      rw [e, hb] at hc
      exact Bool.noConfusion hc
    simp [Call.ind, h1, h2]
  have h := loop_weigh_hooks nav NUMBER_PAD budget lp source
    (fun call => Call.ind a call - (k : Int) * Call.ind b call) hz hevent hframe hab
  rw [weigh_sub_mul, weigh_ind, weigh_ind] at h
  have h2 : ((loop nav NUMBER_PAD lp source budget).calls.count a : Int)
      = ((k * (loop nav NUMBER_PAD lp source budget).calls.count b : Nat) : Int) := by
    push_cast
    omega
  exact_mod_cast h2

/-- The weight that counts one call ignores the calls of another kind. -/
theorem ind_startDIF_facts :
    (∀ call, call.takesDIFPtr = true → Call.ind (Call.startDIF Source) call = 0) ∧
    (∀ call, call.isLoopLevel = true → Call.ind (Call.startDIF Source) call = 0) ∧
    (∀ call, call.takesDIFPtr = true → Call.ind (Call.endDIF Source) call = 0) ∧
    (∀ call, call.isLoopLevel = true → Call.ind (Call.endDIF Source) call = 0) := by
  refine ⟨?_, ?_, ?_, ?_⟩ <;> intro call h <;> cases call <;>
    simp_all [Call.takesDIFPtr, Call.isLoopLevel, Call.ind]

/-- What a turn of the DIF loop that runs to its end does to the sums of the histograms and to
`hasSlowControl`, against the `startDIF` and `endDIF` it issues to the Source. -/
theorem difBody_totals (nav : RawBufferNavigator) (NUMBER_PAD : Nat) (ids : List DetectorID)
    (dbg : Bool) (c : BufferLooperCounter) (b : Buffer)
    (h : (difBody nav NUMBER_PAD ids dbg c b).aborted = false) :
    (difBody nav NUMBER_PAD ids dbg c b).c.DIFStarter.total
      = c.DIFStarter.total
        + weigh (Call.ind (Call.startDIF Source)) (difBody nav NUMBER_PAD ids dbg c b).calls ∧
    (difBody nav NUMBER_PAD ids dbg c b).c.DIFPtrValueAtReturnedPos.total
      = c.DIFPtrValueAtReturnedPos.total
        + weigh (Call.ind (Call.endDIF Source)) (difBody nav NUMBER_PAD ids dbg c b).calls ∧
    (difBody nav NUMBER_PAD ids dbg c b).c.SizeAfterDIFPtr.total
      = c.SizeAfterDIFPtr.total
        + weigh (Call.ind (Call.endDIF Source)) (difBody nav NUMBER_PAD ids dbg c b).calls ∧
    (difBody nav NUMBER_PAD ids dbg c b).c.SizeAfterAllData.total
      = c.SizeAfterAllData.total
        + weigh (Call.ind (Call.endDIF Source)) (difBody nav NUMBER_PAD ids dbg c b).calls ∧
    (difBody nav NUMBER_PAD ids dbg c b).c.NonZeroValusAtEndOfData.total
      = c.NonZeroValusAtEndOfData.total
        + weigh (Call.ind (Call.endDIF Source)) (difBody nav NUMBER_PAD ids dbg c b).calls ∧
    (difBody nav NUMBER_PAD ids dbg c b).c.hasSlowControl
      ≤ c.hasSlowControl
        + weigh (Call.ind (Call.endDIF Source)) (difBody nav NUMBER_PAD ids dbg c b).calls := by
  obtain ⟨p1, -, p2, -⟩ := ind_startDIF_facts
  rcases difBody_of_not_aborted nav NUMBER_PAD ids dbg c b h with
    ⟨-, hf⟩ | ⟨-, -, hf⟩ | ⟨-, -, hf⟩
  · rw [hf]
    simp [weigh_cons, weigh_nil, Call.ind]
  · rw [hf]
    simp [weigh_cons, weigh_nil, Call.ind, StdMap.total_incr]
  · rw [hf]
    simp only [weigh_append, weigh_cons, weigh_nil, weigh_callsBeforeEndDIF _ p1,
      weigh_callsBeforeEndDIF _ p2, countersBeforeLastTally, StdMap.total_incr]
    refine ⟨?_, ?_, ?_, ?_, ?_, ?_⟩ <;> simp [Call.ind]
    split_ifs <;> omega

/-! ## The claims -/

/-- C1 (the code does otherwise). With an event budget of `0` on a freshly constructed looper the
test `m_NbrEventsToProcess >= m_NbrEvents` of line 50 is `0 >= 1`: whatever the Source yields
after a first event, `loop` calls `nextEvent` once, processes no event and ends the run. No
`startEvent` and no `endEvent` is issued to either collaborator although the Source yields
`rest.length + 1` events. -/
theorem loop_zero_budget_processes_no_event (nav : RawBufferNavigator) (NUMBER_PAD : Nat)
    (debug : Bool) (ids : List DetectorID) (event : List Buffer) (rest : SourceScript) :
    (loop nav NUMBER_PAD ((BufferLooper.new debug).setDetectorIDs ids) (event :: rest) 0).calls
        = [Call.start Source, Call.start Destination, Call.nextEvent,
            Call.end_ Destination, Call.end_ Source] ∧
      ∀ w, (loop nav NUMBER_PAD ((BufferLooper.new debug).setDetectorIDs ids)
              (event :: rest) 0).calls.count (Call.startEvent w) = 0 ∧
           (loop nav NUMBER_PAD ((BufferLooper.new debug).setDetectorIDs ids)
              (event :: rest) 0).calls.count (Call.endEvent w) = 0 := by
  have h : (loop nav NUMBER_PAD ((BufferLooper.new debug).setDetectorIDs ids)
      (event :: rest) 0).calls
        = [Call.start Source, Call.start Destination, Call.nextEvent,
            Call.end_ Destination, Call.end_ Source] := by
    simp [loop, eventLoop, BufferLooper.new, BufferLooper.setDetectorIDs]
  refine ⟨h, ?_⟩
  intro w
  rw [h]
  cases w <;> decide

/-- C2 (the code does otherwise). One event with one buffer that passes the filter and is not
valid: `startDIF` is issued once to each collaborator and `endDIF` to neither, because the
`continue` of line 85 skips lines 138-139. -/
theorem loop_invalid_buffer_startDIF_without_endDIF :
    (loop exampleNavigator 2 exampleLooper [[noSentinelBuffer]] 1).calls
        = [Call.start Source, Call.start Destination, Call.nextEvent,
            Call.startEvent Source, Call.startEvent Destination,
            Call.nextDIFbuffer, Call.getSDHCALBuffer,
            Call.startDIF Source, Call.startDIF Destination,
            Call.nextDIFbuffer,
            Call.endEvent Source, Call.endEvent Destination, Call.nextEvent,
            Call.end_ Destination, Call.end_ Source] ∧
      (loop exampleNavigator 2 exampleLooper [[noSentinelBuffer]] 1).calls.count
          (Call.startDIF Source) = 1 ∧
      (loop exampleNavigator 2 exampleLooper [[noSentinelBuffer]] 1).calls.count
          (Call.endDIF Source) = 0 ∧
      (loop exampleNavigator 2 exampleLooper [[noSentinelBuffer]] 1).calls.count
          (Call.startDIF Destination) = 1 ∧
      (loop exampleNavigator 2 exampleLooper [[noSentinelBuffer]] 1).calls.count
          (Call.endDIF Destination) = 0 := by
  decide

/-- C3. A DIF buffer whose detector id is not in the allow-list: the only call of that turn of
the DIF loop is the `getSDHCALBuffer` that fetched it, so no `startDIF`, `endDIF`, `processDIF`,
`processFrame`, `processPadInFrame` or `processSlowControl` is issued, and the counters (the five
histograms and the two tallies) are left as they were. With an empty allow-list this is so for a
whole run, whatever the Source yields and whatever the budget. -/
theorem filtered_buffer_no_DIF_call_no_count (nav : RawBufferNavigator) (NUMBER_PAD : Nat)
    (lp : BufferLooper) :
    (∀ buffer : Buffer, nav.getDetectorID buffer ∉ lp.m_DetectorIDs →
      (difBody nav NUMBER_PAD lp.m_DetectorIDs lp.m_Debug lp.c buffer).calls
          = [Call.getSDHCALBuffer] ∧
      (∀ call ∈ (difBody nav NUMBER_PAD lp.m_DetectorIDs lp.m_Debug lp.c buffer).calls,
          call.inDIF = false) ∧
      (difBody nav NUMBER_PAD lp.m_DetectorIDs lp.m_Debug lp.c buffer).c = lp.c) ∧
    (lp.m_DetectorIDs = [] → ∀ (source : SourceScript) (budget : Nat),
      (∀ call ∈ (loop nav NUMBER_PAD lp source budget).calls, call.inDIF = false) ∧
      (loop nav NUMBER_PAD lp source budget).looper.c = lp.c) := by
  constructor
  · intro buffer h
    rw [difBody_of_not_mem nav NUMBER_PAD lp.m_DetectorIDs lp.m_Debug lp.c buffer h]
    simp [Call.inDIF]
  · intro h source budget
    have := loop_all_filtered nav NUMBER_PAD budget lp source (by simp [h])
    exact ⟨this.2, this.1⟩

/-- An instance of C3: the example looper lets detector 7 through, a buffer of detector 9 is
skipped; and a looper with an empty allow-list skips the valid buffer of detector 7 too. -/
theorem filtered_buffer_no_DIF_call_no_count_witness :
    exampleNavigator.getDetectorID otherDetectorBuffer ∉ exampleLooper.m_DetectorIDs ∧
    (difBody exampleNavigator 2 exampleLooper.m_DetectorIDs exampleLooper.m_Debug
        exampleLooper.c otherDetectorBuffer).calls = [Call.getSDHCALBuffer] ∧
    (difBody exampleNavigator 2 exampleLooper.m_DetectorIDs exampleLooper.m_Debug
        exampleLooper.c otherDetectorBuffer).c = exampleLooper.c ∧
    (BufferLooper.new false).m_DetectorIDs = [] ∧
    (loop exampleNavigator 2 (BufferLooper.new false) [[goodBuffer]] 1).looper.c
        = (BufferLooper.new false).c :=
  ⟨by decide,
   ((filtered_buffer_no_DIF_call_no_count exampleNavigator 2 exampleLooper).1
      otherDetectorBuffer (by decide)).1,
   ((filtered_buffer_no_DIF_call_no_count exampleNavigator 2 exampleLooper).1
      otherDetectorBuffer (by decide)).2.2,
   rfl,
   ((filtered_buffer_no_DIF_call_no_count exampleNavigator 2 (BufferLooper.new false)).2
      rfl [[goodBuffer]] 1).2⟩

/-- C4. A DIF buffer that passes the filter and is valid (the assertions of lines 66 and 89
holding when debug mode checks them), with `d` its `DIFPtr` and `F = d.getNumberOfFrames()`: the
calls `processDIF`, `processFrame` and `processPadInFrame` received by the Destination are, in
order of issue, `processDIF(d)` and then for `i = 0, ..., F - 1` the call `processFrame(d, i)`
followed by `processPadInFrame(d, i, j)` for `j = 0, ..., NUMBER_PAD - 1`. There are one
`processDIF`, `F` calls `processFrame` and `F * NUMBER_PAD` calls `processPadInFrame`. -/
theorem valid_buffer_process_calls_in_order (nav : RawBufferNavigator) (NUMBER_PAD : Nat)
    (lp : BufferLooper) (buffer : Buffer)
    (h66 : lp.m_Debug = true → buffer.end_ = (nav.getDIFBuffer buffer).end_)
    (h89 : lp.m_Debug = true →
      nav.getDIFBufferStart buffer (nav.getDIFPtr buffer).getGetFramePtrReturn = 0xa0)
    (hid : nav.getDetectorID buffer ∈ lp.m_DetectorIDs)
    (hv : nav.validBuffer buffer = true) :
    (difBody nav NUMBER_PAD lp.m_DetectorIDs lp.m_Debug lp.c buffer).calls.filter Call.takesDIFPtr
      = Call.processDIF (nav.getDIFPtr buffer) ::
          (List.range (nav.getDIFPtr buffer).getNumberOfFrames).flatMap
            (fun i => Call.processFrame (nav.getDIFPtr buffer) i ::
              (List.range NUMBER_PAD).map
                (fun j => Call.processPadInFrame (nav.getDIFPtr buffer) i j)) ∧
    (difBody nav NUMBER_PAD lp.m_DetectorIDs lp.m_Debug lp.c buffer).calls.countP
        Call.isProcessDIF = 1 ∧
    (difBody nav NUMBER_PAD lp.m_DetectorIDs lp.m_Debug lp.c buffer).calls.countP
        Call.isProcessFrame = (nav.getDIFPtr buffer).getNumberOfFrames ∧
    (difBody nav NUMBER_PAD lp.m_DetectorIDs lp.m_Debug lp.c buffer).calls.countP
        Call.isProcessPadInFrame = (nav.getDIFPtr buffer).getNumberOfFrames * NUMBER_PAD := by
  obtain ⟨f1, f2, f3, f4⟩ := countP_frameLoop NUMBER_PAD (nav.getDIFPtr buffer)
    (nav.getDIFPtr buffer).getNumberOfFrames 0
  have hfl := filter_frameLoop NUMBER_PAD (nav.getDIFPtr buffer)
    (nav.getDIFPtr buffer).getNumberOfFrames 0
  rw [← List.range_eq_range'] at hfl
  have hcalls : (callsBeforeEndDIF nav NUMBER_PAD buffer).filter Call.takesDIFPtr
      = Call.processDIF (nav.getDIFPtr buffer) ::
          (List.range (nav.getDIFPtr buffer).getNumberOfFrames).flatMap
            (fun i => Call.processFrame (nav.getDIFPtr buffer) i ::
              (List.range NUMBER_PAD).map
                (fun j => Call.processPadInFrame (nav.getDIFPtr buffer) i j)) := by
    unfold callsBeforeEndDIF
    rw [List.filter_append, List.filter_append, hfl]
    split_ifs <;> simp [Call.takesDIFPtr]
  have hc1 : (callsBeforeEndDIF nav NUMBER_PAD buffer).countP Call.isProcessDIF = 1 := by
    unfold callsBeforeEndDIF
    rw [List.countP_append, List.countP_append, f3]
    split_ifs <;> simp [Call.isProcessDIF]
  have hc2 : (callsBeforeEndDIF nav NUMBER_PAD buffer).countP Call.isProcessFrame
      = (nav.getDIFPtr buffer).getNumberOfFrames := by
    unfold callsBeforeEndDIF
    rw [List.countP_append, List.countP_append, f1]
    split_ifs <;> simp [Call.isProcessFrame]
  have hc3 : (callsBeforeEndDIF nav NUMBER_PAD buffer).countP Call.isProcessPadInFrame
      = (nav.getDIFPtr buffer).getNumberOfFrames * NUMBER_PAD := by
    unfold callsBeforeEndDIF
    rw [List.countP_append, List.countP_append, f2]
    split_ifs <;> simp [Call.isProcessPadInFrame]
  rw [difBody_of_valid nav NUMBER_PAD lp.m_DetectorIDs lp.m_Debug lp.c buffer h66 h89 hid hv]
  split_ifs
  · exact ⟨hcalls, hc1, hc2, hc3⟩
  · refine ⟨?_, ?_, ?_, ?_⟩
    · rw [List.filter_append, hcalls]; simp [Call.takesDIFPtr]
    · rw [List.countP_append, hc1]; simp [Call.isProcessDIF]
    · rw [List.countP_append, hc2]; simp [Call.isProcessFrame]
    · rw [List.countP_append, hc3]; simp [Call.isProcessPadInFrame]

/-- An instance of C4: the valid buffer of detector 7, with two frames and `NUMBER_PAD = 2`, on a
looper in debug mode (the assertions hold for this buffer). -/
theorem valid_buffer_process_calls_in_order_witness :
    (difBody exampleNavigator 2 exampleDebugLooper.m_DetectorIDs exampleDebugLooper.m_Debug
        exampleDebugLooper.c goodBuffer).calls.filter Call.takesDIFPtr
      = Call.processDIF (exampleNavigator.getDIFPtr goodBuffer) ::
          (List.range (exampleNavigator.getDIFPtr goodBuffer).getNumberOfFrames).flatMap
            (fun i => Call.processFrame (exampleNavigator.getDIFPtr goodBuffer) i ::
              (List.range 2).map
                (fun j => Call.processPadInFrame (exampleNavigator.getDIFPtr goodBuffer) i j)) :=
  (valid_buffer_process_calls_in_order exampleNavigator 2 exampleDebugLooper goodBuffer
    (by decide) (by decide) (by decide) (by decide)).1

/-- C5. A DIF buffer that passes the filter and is valid (the assertions of lines 66, 89 and 130
holding when debug mode checks them): in each of the five histograms exactly one entry goes up,
by one, an entry that did not exist being created with count `1`, and no other entry changes.
The keys are `getStartOfDIF()` for `DIFStarter`, the byte at the frame-table start for
`DIFPtrValueAtReturnedPos`, `getSizeAfterDIFPtr()` for `SizeAfterDIFPtr`, the size of the
`getEndOfAllData()` remainder for `SizeAfterAllData`, and for `NonZeroValusAtEndOfData` the number
of bytes of the remainder that differ from zero, which lies between `0` and the size of the
remainder and is `0` exactly when all its bytes are zero. -/
theorem valid_buffer_increments_one_entry_per_histogram (nav : RawBufferNavigator)
    (NUMBER_PAD : Nat) (lp : BufferLooper) (buffer : Buffer)
    (h66 : lp.m_Debug = true → buffer.end_ = (nav.getDIFBuffer buffer).end_)
    (h89 : lp.m_Debug = true →
      nav.getDIFBufferStart buffer (nav.getDIFPtr buffer).getGetFramePtrReturn = 0xa0)
    (h130 : lp.m_Debug = true → buffer.end_ = (nav.getEndOfAllData buffer).end_)
    (hid : nav.getDetectorID buffer ∈ lp.m_DetectorIDs)
    (hv : nav.validBuffer buffer = true) :
    (difBody nav NUMBER_PAD lp.m_DetectorIDs lp.m_Debug lp.c buffer).c.DIFStarter.IncrementedAt
        lp.c.DIFStarter (nav.getStartOfDIF buffer) ∧
    (difBody nav NUMBER_PAD lp.m_DetectorIDs lp.m_Debug lp.c
        buffer).c.DIFPtrValueAtReturnedPos.IncrementedAt lp.c.DIFPtrValueAtReturnedPos
        ((nav.getDIFBufferStart buffer (nav.getDIFPtr buffer).getGetFramePtrReturn).val : Int) ∧
    (difBody nav NUMBER_PAD lp.m_DetectorIDs lp.m_Debug lp.c
        buffer).c.SizeAfterDIFPtr.IncrementedAt lp.c.SizeAfterDIFPtr
        (nav.getSizeAfterDIFPtr buffer) ∧
    (difBody nav NUMBER_PAD lp.m_DetectorIDs lp.m_Debug lp.c
        buffer).c.SizeAfterAllData.IncrementedAt lp.c.SizeAfterAllData
        ((nav.getEndOfAllData buffer).size : Int) ∧
    (difBody nav NUMBER_PAD lp.m_DetectorIDs lp.m_Debug lp.c
        buffer).c.NonZeroValusAtEndOfData.IncrementedAt lp.c.NonZeroValusAtEndOfData
        (nonzeroCount (nav.getEndOfAllData buffer).bytes) ∧
    0 ≤ nonzeroCount (nav.getEndOfAllData buffer).bytes ∧
    nonzeroCount (nav.getEndOfAllData buffer).bytes ≤ ((nav.getEndOfAllData buffer).size : Int) ∧
    (nonzeroCount (nav.getEndOfAllData buffer).bytes = 0 ↔
      ∀ b ∈ (nav.getEndOfAllData buffer).bytes, b = 0) := by
  have ha : (lp.m_Debug && buffer.end_ != (nav.getEndOfAllData buffer).end_) = false := by
    cases hd : lp.m_Debug
    · rfl
    · simp [h130 hd]
  rw [difBody_of_valid nav NUMBER_PAD lp.m_DetectorIDs lp.m_Debug lp.c buffer h66 h89 hid hv, ha]
  simp only [Bool.false_eq_true, if_false, countersBeforeLastTally]
  exact ⟨StdMap.incrementedAt_incr _ _, StdMap.incrementedAt_incr _ _,
    StdMap.incrementedAt_incr _ _, StdMap.incrementedAt_incr _ _,
    StdMap.incrementedAt_incr _ _, (nonzeroCount_bounds _).1, (nonzeroCount_bounds _).2,
    nonzeroCount_eq_zero_iff _⟩

/-- An instance of C5: on a fresh looper in debug mode the valid buffer of detector 7 creates the entry of its
frame-table offset `4` in `DIFStarter` with count `1` and creates no other entry there. -/
theorem valid_buffer_increments_one_entry_per_histogram_witness :
    (difBody exampleNavigator 2 exampleDebugLooper.m_DetectorIDs exampleDebugLooper.m_Debug
        exampleDebugLooper.c goodBuffer).c.DIFStarter.IncrementedAt exampleDebugLooper.c.DIFStarter
        (exampleNavigator.getStartOfDIF goodBuffer) ∧
    (difBody exampleNavigator 2 exampleDebugLooper.m_DetectorIDs exampleDebugLooper.m_Debug
        exampleDebugLooper.c goodBuffer).c.DIFStarter.entries = [(4, 1)] :=
  ⟨(valid_buffer_increments_one_entry_per_histogram exampleNavigator 2 exampleDebugLooper goodBuffer
      (by decide) (by decide) (by decide) (by decide) (by decide)).1, by decide⟩

/-- C6. A DIF buffer that passes the filter and is not valid (the assertion of line 66 holding
when debug mode checks it): `DIFStarter` has exactly the entry of `getStartOfDIF()` incremented,
by one (the entry of `-1` when that is the value returned); the other four histograms and the two
tallies are as they were; the calls of the turn are the fetch and `startDIF` on both
collaborators, so no `processDIF`, `processFrame`, `processPadInFrame` or `processSlowControl`;
the run is not aborted and the DIF loop goes on with a call `nextDIFbuffer()` for the rest of the
same event. -/
theorem invalid_buffer_counts_DIFStarter_and_goes_on (nav : RawBufferNavigator)
    (NUMBER_PAD : Nat) (lp : BufferLooper) (buffer : Buffer) (rest : List Buffer)
    (h66 : lp.m_Debug = true → buffer.end_ = (nav.getDIFBuffer buffer).end_)
    (hid : nav.getDetectorID buffer ∈ lp.m_DetectorIDs)
    (hv : nav.validBuffer buffer = false) :
    (difBody nav NUMBER_PAD lp.m_DetectorIDs lp.m_Debug lp.c buffer).c
      = { lp.c with DIFStarter := lp.c.DIFStarter.incr (nav.getStartOfDIF buffer) } ∧
    (difBody nav NUMBER_PAD lp.m_DetectorIDs lp.m_Debug lp.c buffer).c.DIFStarter.IncrementedAt
        lp.c.DIFStarter (nav.getStartOfDIF buffer) ∧
    (nav.getStartOfDIF buffer = -1 →
      (difBody nav NUMBER_PAD lp.m_DetectorIDs lp.m_Debug lp.c buffer).c.DIFStarter.find? (-1)
        = some ((lp.c.DIFStarter.find? (-1)).getD 0 + 1)) ∧
    (difBody nav NUMBER_PAD lp.m_DetectorIDs lp.m_Debug lp.c buffer).calls
      = [Call.getSDHCALBuffer, Call.startDIF Source, Call.startDIF Destination] ∧
    (difBody nav NUMBER_PAD lp.m_DetectorIDs lp.m_Debug lp.c buffer).aborted = false ∧
    (difLoop nav NUMBER_PAD lp.m_DetectorIDs lp.m_Debug lp.c (buffer :: rest)).calls
      = [Call.nextDIFbuffer, Call.getSDHCALBuffer, Call.startDIF Source,
          Call.startDIF Destination]
        ++ (difLoop nav NUMBER_PAD lp.m_DetectorIDs lp.m_Debug
              { lp.c with DIFStarter := lp.c.DIFStarter.incr (nav.getStartOfDIF buffer) }
              rest).calls ∧
    (difLoop nav NUMBER_PAD lp.m_DetectorIDs lp.m_Debug
        { lp.c with DIFStarter := lp.c.DIFStarter.incr (nav.getStartOfDIF buffer) }
        rest).calls.head? = some Call.nextDIFbuffer := by
  have hb := difBody_of_not_valid nav NUMBER_PAD lp.m_DetectorIDs lp.m_Debug lp.c buffer
    h66 hid hv
  have hab : (difBody nav NUMBER_PAD lp.m_DetectorIDs lp.m_Debug lp.c buffer).aborted = false := by
    rw [hb]
  refine ⟨by rw [hb], ?_, ?_, by rw [hb], hab, ?_, ?_⟩
  · rw [hb]; exact StdMap.incrementedAt_incr _ _
  · intro h1
    rw [hb]
    have := StdMap.find?_incr lp.c.DIFStarter (nav.getStartOfDIF buffer) (-1)
    rw [h1] at this
    simpa [h1] using this
  · rw [difLoop_cons nav NUMBER_PAD lp.m_DetectorIDs lp.m_Debug lp.c buffer rest hab, hb]
  · exact difLoop_calls_head nav NUMBER_PAD lp.m_DetectorIDs lp.m_Debug _ rest

/-- An instance of C6: the buffer without the byte `0xa0`, followed by a valid buffer, on a looper
in debug mode. -/
theorem invalid_buffer_counts_DIFStarter_and_goes_on_witness :
    (difBody exampleNavigator 2 exampleDebugLooper.m_DetectorIDs exampleDebugLooper.m_Debug
        exampleDebugLooper.c noSentinelBuffer).calls
      = [Call.getSDHCALBuffer, Call.startDIF Source, Call.startDIF Destination] ∧
    (difBody exampleNavigator 2 exampleDebugLooper.m_DetectorIDs exampleDebugLooper.m_Debug
        exampleDebugLooper.c noSentinelBuffer).c.DIFStarter.entries = [(-1, 1)] :=
  ⟨(invalid_buffer_counts_DIFStarter_and_goes_on exampleNavigator 2 exampleDebugLooper
      noSentinelBuffer [goodBuffer] (by decide) (by decide) (by decide)).2.2.2.1, by decide⟩

/-- C7. A DIF buffer that passes the filter and is valid (the assertions of lines 66, 89 and 130
holding when debug mode checks them): the calls of its turn are the fetch, `startDIF` on both
collaborators, `processDIF`, the frame loop, then `processSlowControl(getSCBuffer())` if and only
if `hasSlowControlData()` is true and `badSCData()` is false, then `endDIF` on both collaborators.
The frame loop holds no `processSlowControl`, so the call is issued once or not at all, after the
last `endFrame` and before `endDIF`. -/
theorem processSlowControl_iff_present_and_not_bad (nav : RawBufferNavigator)
    (NUMBER_PAD : Nat) (lp : BufferLooper) (buffer : Buffer)
    (h66 : lp.m_Debug = true → buffer.end_ = (nav.getDIFBuffer buffer).end_)
    (h89 : lp.m_Debug = true →
      nav.getDIFBufferStart buffer (nav.getDIFPtr buffer).getGetFramePtrReturn = 0xa0)
    (h130 : lp.m_Debug = true → buffer.end_ = (nav.getEndOfAllData buffer).end_)
    (hid : nav.getDetectorID buffer ∈ lp.m_DetectorIDs)
    (hv : nav.validBuffer buffer = true) :
    (difBody nav NUMBER_PAD lp.m_DetectorIDs lp.m_Debug lp.c buffer).calls
      = [Call.getSDHCALBuffer, Call.startDIF Source, Call.startDIF Destination,
          Call.processDIF (nav.getDIFPtr buffer)]
        ++ frameLoop NUMBER_PAD (nav.getDIFPtr buffer)
            (nav.getDIFPtr buffer).getNumberOfFrames 0
        ++ (if nav.hasSlowControlData buffer = true ∧ nav.badSCData buffer = false
            then [Call.processSlowControl (nav.getSCBuffer buffer)] else [])
        ++ [Call.endDIF Source, Call.endDIF Destination] ∧
    (frameLoop NUMBER_PAD (nav.getDIFPtr buffer)
        (nav.getDIFPtr buffer).getNumberOfFrames 0).countP Call.isProcessSlowControl = 0 ∧
    (difBody nav NUMBER_PAD lp.m_DetectorIDs lp.m_Debug lp.c buffer).calls.countP
        Call.isProcessSlowControl
      = (if nav.hasSlowControlData buffer = true ∧ nav.badSCData buffer = false
          then 1 else 0) ∧
    ((∃ b, Call.processSlowControl b ∈
        (difBody nav NUMBER_PAD lp.m_DetectorIDs lp.m_Debug lp.c buffer).calls) ↔
      (nav.hasSlowControlData buffer = true ∧ nav.badSCData buffer = false)) := by
  have ha : (lp.m_Debug && buffer.end_ != (nav.getEndOfAllData buffer).end_) = false := by
    cases hd : lp.m_Debug
    · rfl
    · simp [h130 hd]
  obtain ⟨-, -, -, f4⟩ := countP_frameLoop NUMBER_PAD (nav.getDIFPtr buffer)
    (nav.getDIFPtr buffer).getNumberOfFrames 0
  have hcalls : (difBody nav NUMBER_PAD lp.m_DetectorIDs lp.m_Debug lp.c buffer).calls
      = [Call.getSDHCALBuffer, Call.startDIF Source, Call.startDIF Destination,
          Call.processDIF (nav.getDIFPtr buffer)]
        ++ frameLoop NUMBER_PAD (nav.getDIFPtr buffer)
            (nav.getDIFPtr buffer).getNumberOfFrames 0
        ++ (if nav.hasSlowControlData buffer = true ∧ nav.badSCData buffer = false
            then [Call.processSlowControl (nav.getSCBuffer buffer)] else [])
        ++ [Call.endDIF Source, Call.endDIF Destination] := by
    rw [difBody_of_valid nav NUMBER_PAD lp.m_DetectorIDs lp.m_Debug lp.c buffer h66 h89 hid hv,
      ha]
    simp only [Bool.false_eq_true, if_false, callsBeforeEndDIF]
    cases nav.hasSlowControlData buffer <;> cases nav.badSCData buffer <;> simp
  have hcount : (difBody nav NUMBER_PAD lp.m_DetectorIDs lp.m_Debug lp.c buffer).calls.countP
      Call.isProcessSlowControl
      = (if nav.hasSlowControlData buffer = true ∧ nav.badSCData buffer = false
          then 1 else 0) := by
    rw [hcalls, List.countP_append, List.countP_append, List.countP_append, f4]
    split_ifs <;> simp [Call.isProcessSlowControl]
  refine ⟨hcalls, f4, hcount, ?_⟩
  constructor
  · rintro ⟨b, hb⟩
    by_contra hne
    rw [if_neg hne] at hcount
    rw [List.countP_eq_zero] at hcount
    exact hcount _ hb rfl
  · intro h
    refine ⟨nav.getSCBuffer buffer, ?_⟩
    rw [hcalls, if_pos h]
    simp

/-- An instance of C7: the valid buffer of detector 7 has slow control that is not bad, and
`processSlowControl` is issued once for it (looper in debug mode). -/
theorem processSlowControl_iff_present_and_not_bad_witness :
    (difBody exampleNavigator 2 exampleDebugLooper.m_DetectorIDs exampleDebugLooper.m_Debug exampleDebugLooper.c
        goodBuffer).calls.countP Call.isProcessSlowControl
      = (if exampleNavigator.hasSlowControlData goodBuffer = true ∧
            exampleNavigator.badSCData goodBuffer = false then 1 else 0) ∧
    exampleNavigator.hasSlowControlData goodBuffer = true ∧
    exampleNavigator.badSCData goodBuffer = false :=
  ⟨(processSlowControl_iff_present_and_not_bad exampleNavigator 2 exampleDebugLooper goodBuffer
      (by decide) (by decide) (by decide) (by decide) (by decide)).2.2.1, by decide, by decide⟩

/-- C8 (as stated it fails). A valid buffer for which the navigator answers `false` to
`hasSlowControlData()` and `true` to `badSCData()`: line 119 tests `badSCData()` on its own, so
the run ends with `hasBadSlowControl = 1` and `hasSlowControl = 0`. -/
theorem hasBadSlowControl_exceeds_hasSlowControl :
    (loop exampleNavigator 2 exampleLooper [[badOnlyBuffer]] 1).looper.c.hasSlowControl = 0 ∧
    (loop exampleNavigator 2 exampleLooper [[badOnlyBuffer]] 1).looper.c.hasBadSlowControl = 1 ∧
    ¬ ((loop exampleNavigator 2 exampleLooper [[badOnlyBuffer]] 1).looper.c.hasBadSlowControl
        ≤ (loop exampleNavigator 2 exampleLooper [[badOnlyBuffer]] 1).looper.c.hasSlowControl) := by
  decide

/-- C8 (amended). When the navigator answers `true` to `badSCData()` only for buffers for which
it answers `true` to `hasSlowControlData()`, the bad-slow-control tally counts only buffers in
which slow control was found: a turn of the DIF loop either leaves `hasBadSlowControl` as it
was or adds one to both `hasBadSlowControl` and `hasSlowControl`, and a run that starts with
`hasBadSlowControl <= hasSlowControl` (a fresh looper does) ends with
`hasBadSlowControl <= hasSlowControl`. -/
theorem hasBadSlowControl_le_of_bad_implies_present (nav : RawBufferNavigator)
    (NUMBER_PAD budget : Nat) (lp : BufferLooper) (source : SourceScript)
    (hnav : ∀ ev ∈ source, ∀ b ∈ ev, nav.badSCData b = true → nav.hasSlowControlData b = true)
    (h0 : lp.c.hasBadSlowControl ≤ lp.c.hasSlowControl) :
    (∀ ev ∈ source, ∀ b ∈ ev, ∀ c : BufferLooperCounter,
      (difBody nav NUMBER_PAD lp.m_DetectorIDs lp.m_Debug c b).c.hasBadSlowControl
          = c.hasBadSlowControl ∨
      ((difBody nav NUMBER_PAD lp.m_DetectorIDs lp.m_Debug c b).c.hasBadSlowControl
          = c.hasBadSlowControl + 1 ∧
        (difBody nav NUMBER_PAD lp.m_DetectorIDs lp.m_Debug c b).c.hasSlowControl
          = c.hasSlowControl + 1)) ∧
    (loop nav NUMBER_PAD lp source budget).looper.c.hasBadSlowControl
      ≤ (loop nav NUMBER_PAD lp source budget).looper.c.hasSlowControl := by
  have hstep : ∀ ev ∈ source, ∀ b ∈ ev, ∀ c : BufferLooperCounter,
      (difBody nav NUMBER_PAD lp.m_DetectorIDs lp.m_Debug c b).c.hasBadSlowControl
          = c.hasBadSlowControl ∨
      ((difBody nav NUMBER_PAD lp.m_DetectorIDs lp.m_Debug c b).c.hasBadSlowControl
          = c.hasBadSlowControl + 1 ∧
        (difBody nav NUMBER_PAD lp.m_DetectorIDs lp.m_Debug c b).c.hasSlowControl
          = c.hasSlowControl + 1) := by
    intro ev hev b hb c
    have himp := hnav ev hev b hb
    rcases difBody_tallies nav NUMBER_PAD lp.m_DetectorIDs lp.m_Debug c b with
      ⟨-, h2⟩ | ⟨h1, h2⟩
    · exact Or.inl h2
    · cases hbad : nav.badSCData b
      · left
        rw [h2, hbad]
        simp
      · right
        rw [h1, h2, hbad, himp hbad]
        simp
  refine ⟨hstep, ?_⟩
  apply loop_invariant nav NUMBER_PAD budget
    (fun c => c.hasBadSlowControl ≤ c.hasSlowControl) lp source _ h0
  intro ev hev b hb c hc
  have hmono : c.hasSlowControl
      ≤ (difBody nav NUMBER_PAD lp.m_DetectorIDs lp.m_Debug c b).c.hasSlowControl := by
    rcases difBody_tallies nav NUMBER_PAD lp.m_DetectorIDs lp.m_Debug c b with
      ⟨h1, -⟩ | ⟨h1, -⟩
    · rw [h1]
    · rw [h1]
      split_ifs <;> omega
  show _ ≤ _
  rcases hstep ev hev b hb c with h | ⟨h1, h2⟩
  · rw [h]; omega
  · rw [h1, h2]; omega

/-- An instance of the amended C8: a run over the valid buffer of detector 7, whose slow control
is present and not bad, followed by the buffer without `0xa0`. -/
theorem hasBadSlowControl_le_of_bad_implies_present_witness :
    (loop exampleNavigator 2 exampleLooper [[goodBuffer, noSentinelBuffer]] 1).looper.c.hasBadSlowControl
      ≤ (loop exampleNavigator 2 exampleLooper [[goodBuffer, noSentinelBuffer]] 1).looper.c.hasSlowControl :=
  (hasBadSlowControl_le_of_bad_implies_present exampleNavigator 2 1 exampleLooper
    [[goodBuffer, noSentinelBuffer]] (by decide) (by decide)).2

/-- C9 (as stated it fails). `printCounter` hands the text it has built to `fmt::print` as the
format string. With the description `{}` that text holds a replacement field for which there is
no argument: fmt throws and nothing is written. With the description `{{` the text written holds
a single `{`. -/
theorem printCounter_description_with_braces :
    printCounter "\x7b\x7d" StdMap.empty = none ∧
    printCounter "\x7b\x7d" StdMap.empty
      ≠ some ("statistics for " ++ "\x7b\x7d" ++ " : \n" ++ String.intercalate "," [] ++ "\n") ∧
    printCounter "\x7b\x7b" StdMap.empty = some "statistics for \x7b : \n\n" := by
  decide

/-- C9 (amended). For a description `d` that holds neither `{` nor `}` and every histogram `m`,
`printCounter(d, m)` writes `statistics for d : ` and a line break, then the entries of `m` in
the iteration order of the map, which is strictly ascending key order, each as ` [key]=count`
with key and count in decimal, joined by single commas and so without a comma before the first or
after the last, then a line break. For the empty histogram there is nothing between the two line
breaks. -/
theorem printCounter_text (d : String) (m : StdMap)
    (hd : ∀ c ∈ d.data, c ≠ '\x7b' ∧ c ≠ '\x7d') :
    printCounter d m
      = some ("statistics for " ++ d ++ " : \n"
          ++ String.intercalate ","
              (m.entries.map (fun e => " [" ++ to_string e.1 ++ "]=" ++ to_string e.2))
          ++ "\n") ∧
    (m.entries.map Prod.fst).Pairwise (· < ·) ∧
    (m.entries = [] → printCounter d m = some ("statistics for " ++ d ++ " : \n" ++ "\n")) := by
  have h := printCounter_of_noBrace d m hd
  refine ⟨h, m.sorted, ?_⟩
  intro he
  rw [h, he]
  simp [String.intercalate]

/-- An instance of the amended C9: the first description used by `printAllCounters`, on the
histogram obtained by counting `94`, `-1` and `94` again. -/
theorem printCounter_text_witness :
    printCounter "Start of DIF header" (((StdMap.empty.incr 94).incr (-1)).incr 94)
      = some "statistics for Start of DIF header : \n [-1]=1, [94]=2\n" :=
  (printCounter_text "Start of DIF header" (((StdMap.empty.incr 94).incr (-1)).incr 94)
    (by decide)).1.trans (by decide)

/-- C10. Starting from any counters, two sequences of tally statements that are permutations of
each other leave the same counters, so `printAllCounters` writes the same text after either; that
text is the report built from the counters by `counterText`. `printAllCounters` leaves the
counters as they are, and a second call right after writes the same text again. -/
theorem printAllCounters_depends_on_counts_only (c0 : BufferLooperCounter)
    (obs obs' : List Observation) (h : obs.Perm obs') :
    c0.recordAll obs = c0.recordAll obs' ∧
    (printAllCounters (c0.recordAll obs)).2 = (printAllCounters (c0.recordAll obs')).2 ∧
    (∃ text, (printAllCounters (c0.recordAll obs)).2 = some text) ∧
    (∀ c : BufferLooperCounter, (printAllCounters c).1 = c ∧
      (printAllCounters (printAllCounters c).1).2 = (printAllCounters c).2) := by
  have hc := BufferLooperCounter.recordAll_perm c0 h
  refine ⟨hc, by rw [hc], ⟨_, printAllCounters_text _⟩, ?_⟩
  intro c
  exact ⟨rfl, rfl⟩

/-- An instance of C10: three tally statements in two orders. -/
theorem printAllCounters_depends_on_counts_only_witness :
    (printAllCounters (BufferLooperCounter.init.recordAll
        [Observation.DIFStarter 94, Observation.DIFStarter (-1), Observation.hasSlowControl])).2
      = (printAllCounters (BufferLooperCounter.init.recordAll
        [Observation.hasSlowControl, Observation.DIFStarter (-1), Observation.DIFStarter 94])).2 :=
  (printAllCounters_depends_on_counts_only BufferLooperCounter.init
    [Observation.DIFStarter 94, Observation.DIFStarter (-1), Observation.hasSlowControl]
    [Observation.hasSlowControl, Observation.DIFStarter (-1), Observation.DIFStarter 94]
    (by decide)).2.1

/-- C11 (as stated it fails). A freshly constructed looper, a Source that yields `2 ^ 29 - 1`
events without DIF buffer and the budget `2 ^ 29 - 1`: all events are processed, `m_NbrEvents`
ends at `2 ^ 29`, and `1000 * m_NbrEvents` is `0` in 32-bit unsigned arithmetic. -/
theorem perEventDivisor_zero_after_536870911_events :
    (loop exampleNavigator 2 (BufferLooper.new false) (List.replicate 536870911 [])
        536870911).looper.m_NbrEvents = 536870912 ∧
    perEventDivisor (loop exampleNavigator 2 (BufferLooper.new false)
        (List.replicate 536870911 []) 536870911).looper = 0 := by
  have hab := loop_aborted_of_not_debug exampleNavigator 2 536870911 (BufferLooper.new false)
    (List.replicate 536870911 []) rfl
  obtain ⟨h, -⟩ := loop_counter_and_source exampleNavigator 2 536870911 (BufferLooper.new false)
    (List.replicate 536870911 []) (by simp [BufferLooper.new]) hab
  have hm : (BufferLooper.new false).m_NbrEvents = 1 := rfl
  rw [hm, List.length_replicate,
    eventsProcessed_eq_min 536870911 536870911 (by norm_num) 1 (by norm_num)] at h
  have h2 : (loop exampleNavigator 2 (BufferLooper.new false) (List.replicate 536870911 [])
      536870911).looper.m_NbrEvents = 536870912 := by
    rw [h]
    norm_num
  refine ⟨h2, ?_⟩
  rw [perEventDivisor_eq_zero_iff, h2]
  norm_num

/-- C11 (amended). On a freshly constructed looper, when the budget is below `2 ^ 29 - 1` or the
Source yields fewer than `2 ^ 29 - 1` events, `m_NbrEvents` ends between `1` and `2 ^ 29 - 1` and
the divisor `1000 * m_NbrEvents` of the report, in 32-bit unsigned arithmetic, is not zero; for a
Source that yields no event it is `1000`. For every looper the divisor is zero exactly when
`m_NbrEvents` is a multiple of `2 ^ 29`. -/
theorem perEventDivisor_ne_zero_of_few_events (nav : RawBufferNavigator) (NUMBER_PAD : Nat)
    (debug : Bool) (ids : List DetectorID) (source : SourceScript) (budget : Nat)
    (h : budget < 2 ^ 29 - 1 ∨ source.length < 2 ^ 29 - 1) :
    perEventDivisor (loop nav NUMBER_PAD ((BufferLooper.new debug).setDetectorIDs ids) source
        budget).looper ≠ 0 ∧
    (source = [] →
      perEventDivisor (loop nav NUMBER_PAD ((BufferLooper.new debug).setDetectorIDs ids) source
        budget).looper = 1000) ∧
    (∀ lp : BufferLooper, perEventDivisor lp = 0 ↔ lp.m_NbrEvents % 2 ^ 29 = 0) := by
  have hm : ((BufferLooper.new debug).setDetectorIDs ids).m_NbrEvents = 1 := rfl
  have hb : 1 ≤ (loop nav NUMBER_PAD ((BufferLooper.new debug).setDetectorIDs ids) source
        budget).looper.m_NbrEvents ∧
      (loop nav NUMBER_PAD ((BufferLooper.new debug).setDetectorIDs ids) source
        budget).looper.m_NbrEvents < 2 ^ 29 := by
    rw [loop_looper]
    rcases h with h | h
    · have := eventLoop_counter_le_budget nav NUMBER_PAD budget (by omega) source
        ((BufferLooper.new debug).setDetectorIDs ids) (by rw [hm]; omega)
      rw [hm] at this
      omega
    · have := eventLoop_counter_le_events nav NUMBER_PAD budget source
        ((BufferLooper.new debug).setDetectorIDs ids) (by rw [hm]; omega)
      rw [hm] at this
      omega
  refine ⟨?_, ?_, perEventDivisor_eq_zero_iff⟩
  · rw [Ne, perEventDivisor_eq_zero_iff]
    omega
  · intro hs
    subst hs
    rw [loop_looper, eventLoop_nil]
    rfl

/-- An instance of the amended C11: one event and the budget `1`. -/
theorem perEventDivisor_ne_zero_of_few_events_witness :
    perEventDivisor (loop exampleNavigator 2 ((BufferLooper.new false).setDetectorIDs [7])
        [[goodBuffer]] 1).looper ≠ 0 :=
  (perEventDivisor_ne_zero_of_few_events exampleNavigator 2 false [7] [[goodBuffer]] 1
    (Or.inl (by norm_num))).1

/-- C12. In a run that no assertion ends, the calls are `start` on the Source, `start` on the
Destination, the calls of the event loop, `end` on the Destination, `end` on the Source; the
event loop holds neither `start` nor `end`, so each of the four occurs exactly once. This covers
runs in which no event is processed. -/
theorem run_bracketed_by_start_and_end (nav : RawBufferNavigator) (NUMBER_PAD : Nat)
    (lp : BufferLooper) (source : SourceScript) (budget : Nat)
    (hab : (loop nav NUMBER_PAD lp source budget).aborted = false) :
    (∃ mid : List Call,
      (loop nav NUMBER_PAD lp source budget).calls
        = [Call.start Source, Call.start Destination] ++ mid
            ++ [Call.end_ Destination, Call.end_ Source] ∧
      ∀ x, Call.start x ∉ mid ∧ Call.end_ x ∉ mid) ∧
    (∀ x, (loop nav NUMBER_PAD lp source budget).calls.count (Call.start x) = 1) ∧
    (∀ x, (loop nav NUMBER_PAD lp source budget).calls.count (Call.end_ x) = 1) := by
  rw [loop_aborted_eq] at hab
  have hcalls := loop_completed nav NUMBER_PAD budget lp source hab
  have hmid : ∀ x, Call.start x ∉ (eventLoop nav NUMBER_PAD budget lp source).calls ∧
      Call.end_ x ∉ (eventLoop nav NUMBER_PAD budget lp source).calls := by
    intro x
    constructor
    · intro h
      exact (eventLoop_calls nav NUMBER_PAD budget source lp _ h x).1 rfl
    · intro h
      exact (eventLoop_calls nav NUMBER_PAD budget source lp _ h x).2 rfl
  refine ⟨⟨_, by rw [hcalls], hmid⟩, ?_, ?_⟩
  · intro x
    rw [hcalls]
    simp only [List.cons_append, List.nil_append, List.count_cons, List.count_append,
      List.count_nil, List.count_eq_zero_of_not_mem (hmid x).1]
    cases x <;> simp
  · intro x
    rw [hcalls]
    simp only [List.cons_append, List.nil_append, List.count_cons, List.count_append,
      List.count_nil, List.count_eq_zero_of_not_mem (hmid x).2]
    cases x <;> simp

/-- An instance of C12: a run in debug mode with the default budget `0`, in which no event is
processed. -/
theorem run_bracketed_by_start_and_end_witness :
    (loop exampleNavigator 2 exampleDebugLooper [[goodBuffer]] 0).calls.count
      (Call.start Source) = 1 :=
  (run_bracketed_by_start_and_end exampleNavigator 2 exampleDebugLooper [[goodBuffer]] 0
    (by decide)).2.1 Source

/-- C13 (as stated it fails). A freshly constructed looper, the budget `2 ^ 32 - 1` and a Source
that yields `2 ^ 32` events without DIF buffer: after `2 ^ 32 - 1` events `m_NbrEvents` wraps to
`0`, the test of line 50 never fails, and `startEvent` is issued `2 ^ 32` times, one more than
`min(N, K) = 2 ^ 32 - 1`. -/
theorem budget_4294967295_processes_4294967296_events :
    (loop exampleNavigator 2 (BufferLooper.new false) (List.replicate 4294967296 [])
        4294967295).calls.count (Call.startEvent Source) = 4294967296 ∧
    min 4294967295 (List.replicate 4294967296 ([] : List Buffer)).length = 4294967295 := by
  have hab := loop_aborted_of_not_debug exampleNavigator 2 4294967295 (BufferLooper.new false)
    (List.replicate 4294967296 []) rfl
  obtain ⟨-, -, h, -, -⟩ := loop_counts exampleNavigator 2 4294967295 (BufferLooper.new false)
    (List.replicate 4294967296 []) (by simp [BufferLooper.new]) hab
  have hm : (BufferLooper.new false).m_NbrEvents = 1 := rfl
  constructor
  · rw [h Source, hm, List.length_replicate,
      eventsProcessed_max_budget 4294967295 4294967296 (by norm_num) 1 (by norm_num)]
  · rw [List.length_replicate]
    norm_num

/-- C13 (amended). On a freshly constructed looper, for a budget `N` and a Source that yields `K`
events, unless `N = 2 ^ 32 - 1` and `K >= 2 ^ 32`: a run that no assertion ends issues
`startEvent` and `endEvent` `min(N, K)` times each to each collaborator. -/
theorem budget_caps_processed_events (nav : RawBufferNavigator) (NUMBER_PAD : Nat)
    (debug : Bool) (ids : List DetectorID) (source : SourceScript) (N : Nat)
    (hN : N < 2 ^ 32) (h : N < 2 ^ 32 - 1 ∨ source.length < 2 ^ 32)
    (hab : (loop nav NUMBER_PAD ((BufferLooper.new debug).setDetectorIDs ids) source
      N).aborted = false) :
    ∀ x, (loop nav NUMBER_PAD ((BufferLooper.new debug).setDetectorIDs ids) source
          N).calls.count (Call.startEvent x) = min N source.length ∧
      (loop nav NUMBER_PAD ((BufferLooper.new debug).setDetectorIDs ids) source
          N).calls.count (Call.endEvent x) = min N source.length := by
  have hm : ((BufferLooper.new debug).setDetectorIDs ids).m_NbrEvents = 1 := rfl
  obtain ⟨-, -, h1, h2, -⟩ := loop_counts nav NUMBER_PAD N
    ((BufferLooper.new debug).setDetectorIDs ids) source (by rw [hm]; norm_num) hab
  intro x
  rw [h1 x, h2 x, hm, eventsProcessed_fresh N source.length hN h]
  exact ⟨rfl, rfl⟩

/-- An instance of the amended C13: budget `1` and two events, in debug mode. -/
theorem budget_caps_processed_events_witness :
    (loop exampleNavigator 2 ((BufferLooper.new true).setDetectorIDs [7])
        [[goodBuffer], [noSentinelBuffer]] 1).calls.count (Call.startEvent Source) = 1 :=
  ((budget_caps_processed_events exampleNavigator 2 true [7] [[goodBuffer], [noSentinelBuffer]] 1
    (by norm_num) (Or.inl (by norm_num)) (by decide)) Source).1

/-- C14. For the `getStartOfDIF()` and `validBuffer()` described by the spec, with the scan
starting after a header of `headerSize` bytes: when the byte at offset `k` is the sentinel `0xa0`
and no byte from the header to `k` is, `getStartOfDIF()` returns `k`; when no byte after the
header is the sentinel it returns `-1` and `validBuffer()` is false. The looper, for a navigator
with this `getStartOfDIF()` and a buffer that passes the assertion of line 66 and the filter,
increments exactly the entry of the returned value in `DIFStarter`. -/
theorem getStartOfDIF_first_sentinel_tallied (headerSize : Nat) (framesFit : Buffer → Bool)
    (buffer : Buffer) :
    (∀ k, headerSize ≤ k → buffer.bytes[k]? = some (0xa0 : bit8_t) →
      (∀ j, headerSize ≤ j → j < k → buffer.bytes[j]? ≠ some (0xa0 : bit8_t)) →
      specGetStartOfDIF headerSize buffer = (k : Int)) ∧
    ((∀ j, headerSize ≤ j → buffer.bytes[j]? ≠ some (0xa0 : bit8_t)) →
      specGetStartOfDIF headerSize buffer = -1 ∧
      specValidBuffer headerSize framesFit buffer = false) ∧
    (∀ (nav : RawBufferNavigator) (NUMBER_PAD : Nat) (lp : BufferLooper),
      nav.getStartOfDIF = specGetStartOfDIF headerSize →
      (lp.m_Debug = true → buffer.end_ = (nav.getDIFBuffer buffer).end_) →
      nav.getDetectorID buffer ∈ lp.m_DetectorIDs →
      (difBody nav NUMBER_PAD lp.m_DetectorIDs lp.m_Debug lp.c buffer).c.DIFStarter
        = lp.c.DIFStarter.incr (specGetStartOfDIF headerSize buffer) ∧
      (difBody nav NUMBER_PAD lp.m_DetectorIDs lp.m_Debug lp.c
          buffer).c.DIFStarter.IncrementedAt lp.c.DIFStarter
          (specGetStartOfDIF headerSize buffer)) := by
  refine ⟨?_, ?_, ?_⟩
  · intro k hk hat hbefore
    have h1 : (buffer.bytes.drop headerSize)[k - headerSize]? = some (0xa0 : bit8_t) := by
      rw [List.getElem?_drop]
      have : headerSize + (k - headerSize) = k := by omega
      rw [this]
      exact hat
    have h2 : ∀ j, j < k - headerSize →
        (buffer.bytes.drop headerSize)[j]? ≠ some (0xa0 : bit8_t) := by
      intro j hj
      rw [List.getElem?_drop]
      exact hbefore (headerSize + j) (by omega) (by omega)
    unfold specGetStartOfDIF
    rw [scanForSentinel_of_first _ headerSize (k - headerSize) h1 h2]
    congr 1
    omega
  · intro habs
    have h1 : specGetStartOfDIF headerSize buffer = -1 := by
      unfold specGetStartOfDIF
      apply scanForSentinel_of_absent
      intro j
      rw [List.getElem?_drop]
      exact habs (headerSize + j) (by omega)
    refine ⟨h1, ?_⟩
    unfold specValidBuffer
    rw [h1]
    rfl
  · intro nav NUMBER_PAD lp hnav h66 hid
    have h := difBody_DIFStarter nav NUMBER_PAD lp.m_DetectorIDs lp.m_Debug lp.c buffer h66 hid
    rw [hnav] at h
    refine ⟨h, ?_⟩
    rw [h]
    exact StdMap.incrementedAt_incr _ _

/-- An instance of C14: in the valid example buffer, scanned after a header of one byte, the
first sentinel is at offset `4`. -/
theorem getStartOfDIF_first_sentinel_tallied_witness :
    specGetStartOfDIF 1 goodBuffer = 4 :=
  (getStartOfDIF_first_sentinel_tallied 1 (fun _ => true) goodBuffer).1 4 (by norm_num)
    (by decide) (by intro j h1 h2; interval_cases j <;> decide)

/-- C15. In a run that no assertion ends, whether or not some buffers are not valid, on each
collaborator: `startEvent` and `endEvent` are issued equally often, `startFrame` and `endFrame`
are issued equally often, `startPad` and `endPad` are issued equally often, and `startPad` is
issued `NUMBER_PAD` times as often as `startFrame`; the hooks of the three levels are correctly
nested, each pad inside a frame and each frame inside an event, every level closed at the end;
and every hook of the three levels is issued to the Source and immediately afterwards to the
Destination. -/
theorem event_frame_pad_levels_balanced_and_nested (nav : RawBufferNavigator)
    (NUMBER_PAD : Nat) (lp : BufferLooper) (source : SourceScript) (budget : Nat)
    (hab : (loop nav NUMBER_PAD lp source budget).aborted = false) :
    (∀ x : Collaborator,
      (loop nav NUMBER_PAD lp source budget).calls.count (Call.startEvent x)
        = (loop nav NUMBER_PAD lp source budget).calls.count (Call.endEvent x) ∧
      (loop nav NUMBER_PAD lp source budget).calls.count (Call.startFrame x)
        = (loop nav NUMBER_PAD lp source budget).calls.count (Call.endFrame x) ∧
      (loop nav NUMBER_PAD lp source budget).calls.count (Call.startPad x)
        = (loop nav NUMBER_PAD lp source budget).calls.count (Call.endPad x) ∧
      (loop nav NUMBER_PAD lp source budget).calls.count (Call.startPad x)
        = NUMBER_PAD * (loop nav NUMBER_PAD lp source budget).calls.count (Call.startFrame x) ∧
      nestRun x 0 (loop nav NUMBER_PAD lp source budget).calls = some 0) ∧
    LockStep (loop nav NUMBER_PAD lp source budget).calls := by
  constructor
  · intro x
    have c1 := loop_count_hooks nav NUMBER_PAD budget lp source (Call.startEvent x)
      (Call.endEvent x) 1 rfl rfl (by cases x <;> simp [Call.ind])
      (by cases x <;> simp [Call.ind]) hab
    have c2 := loop_count_hooks nav NUMBER_PAD budget lp source (Call.startFrame x)
      (Call.endFrame x) 1 rfl rfl (by cases x <;> simp [Call.ind])
      (by cases x <;> simp [Call.ind]) hab
    have c3 := loop_count_hooks nav NUMBER_PAD budget lp source (Call.startPad x)
      (Call.endPad x) 1 rfl rfl (by cases x <;> simp [Call.ind])
      (by cases x <;> simp [Call.ind]) hab
    have c4 := loop_count_hooks nav NUMBER_PAD budget lp source (Call.startPad x)
      (Call.startFrame x) NUMBER_PAD rfl rfl (by cases x <;> simp [Call.ind])
      (by cases x <;> simp [Call.ind]) hab
    refine ⟨by omega, by omega, by omega, c4, ?_⟩
    obtain ⟨mid, hmid, hcalls⟩ := loop_calls_induction nav NUMBER_PAD budget lp source
      (fun l => nestRun x 1 l = some 1) (fun l => nestRun x 0 l = some 0)
      (fun a b ha hb => by
        show nestRun x 1 (a ++ b) = some 1
        rw [nestRun_append, show nestRun x 1 a = some 1 from ha]
        exact hb)
      rfl
      (fun c b h => nestRun_difBody x nav NUMBER_PAD lp.m_DetectorIDs lp.m_Debug c b h)
      (fun a b ha hb => by
        show nestRun x 0 (a ++ b) = some 0
        rw [nestRun_append, show nestRun x 0 a = some 0 from ha]
        exact hb)
      rfl
      (fun l hl => by
        have hl2 : nestRun x 1 l = some 1 := hl
        show nestRun x 0 _ = some 0
        cases x <;> simp [nestRun, nestStep, nestRun_append, hl2])
      hab
    have hmid2 : nestRun x 0 mid = some 0 := hmid
    rw [hcalls]
    cases x <;> simp [nestRun, nestStep, nestRun_append, hmid2]
  · obtain ⟨mid, hmid, hcalls⟩ := loop_calls_induction nav NUMBER_PAD budget lp source
      LockStep LockStep (fun a b ha hb => LockStep.append ha hb)
      (LockStep.other _ _ rfl LockStep.nil)
      (fun c b h => lockStep_difBody nav NUMBER_PAD lp.m_DetectorIDs lp.m_Debug c b h)
      (fun a b ha hb => LockStep.append ha hb)
      (LockStep.other _ _ rfl LockStep.nil)
      (fun l hl => LockStep.other Call.nextEvent _ rfl
        (LockStep.pair Hook.startEvent _
          (LockStep.append hl (LockStep.pair Hook.endEvent _ LockStep.nil))))
      hab
    rw [hcalls]
    exact LockStep.other _ _ rfl (LockStep.other _ _ rfl
      (LockStep.append hmid
        (LockStep.other _ _ rfl (LockStep.other _ _ rfl LockStep.nil))))

/-- An instance of C15: a run in debug mode over an event with a valid buffer and a buffer that
is not valid. -/
theorem event_frame_pad_levels_balanced_and_nested_witness :
    (loop exampleNavigator 2 exampleDebugLooper [[goodBuffer, noSentinelBuffer]] 1).calls.count
        (Call.startPad Source)
      = 2 * (loop exampleNavigator 2 exampleDebugLooper [[goodBuffer, noSentinelBuffer]]
          1).calls.count (Call.startFrame Source) ∧
    nestRun Destination 0
        (loop exampleNavigator 2 exampleDebugLooper [[goodBuffer, noSentinelBuffer]] 1).calls
      = some 0 :=
  ⟨((event_frame_pad_levels_balanced_and_nested exampleNavigator 2 exampleDebugLooper
      [[goodBuffer, noSentinelBuffer]] 1 (by decide)).1 Source).2.2.2.1,
   ((event_frame_pad_levels_balanced_and_nested exampleNavigator 2 exampleDebugLooper
      [[goodBuffer, noSentinelBuffer]] 1 (by decide)).1 Destination).2.2.2.2⟩

/-- C16 (the code does otherwise). A freshly constructed looper, one event, budget `1`: one
event is processed, `m_NbrEvents` ends at `2` and the divisor of the per-event figure is `2000`,
not `1000 * 1`. -/
theorem perEventDivisor_counts_one_event_too_many :
    (loop exampleNavigator 2 exampleLooper [[goodBuffer]] 1).calls.count
      (Call.startEvent Source) = 1 ∧
    (loop exampleNavigator 2 exampleLooper [[goodBuffer]] 1).calls.count
      (Call.endEvent Source) = 1 ∧
    (loop exampleNavigator 2 exampleLooper [[goodBuffer]] 1).looper.m_NbrEvents = 2 ∧
    perEventDivisor (loop exampleNavigator 2 exampleLooper [[goodBuffer]] 1).looper = 2000 ∧
    perEventDivisor (loop exampleNavigator 2 exampleLooper [[goodBuffer]] 1).looper
      ≠ 1000 * 1 := by
  decide

/-- C17. After a run on a freshly constructed looper that no assertion ends: the counts of
`DIFStarter` add up to the number of `startDIF` issued to the Source; the counts of each of
`DIFPtrValueAtReturnedPos`, `SizeAfterDIFPtr`, `SizeAfterAllData` and `NonZeroValusAtEndOfData`
add up to the number of `endDIF` issued to the Source, which is the number of buffers, in the
events that the run has processed, whose detector id is in the allow-list and that are valid;
`hasSlowControl` is at most that number. -/
theorem counter_totals_agree_with_DIF_calls (nav : RawBufferNavigator) (NUMBER_PAD : Nat)
    (debug : Bool) (ids : List DetectorID) (source : SourceScript) (budget : Nat)
    (hab : (loop nav NUMBER_PAD ((BufferLooper.new debug).setDetectorIDs ids) source
      budget).aborted = false) :
    (loop nav NUMBER_PAD ((BufferLooper.new debug).setDetectorIDs ids) source
        budget).looper.c.DIFStarter.total
      = (loop nav NUMBER_PAD ((BufferLooper.new debug).setDetectorIDs ids) source
          budget).calls.count (Call.startDIF Source) ∧
    (loop nav NUMBER_PAD ((BufferLooper.new debug).setDetectorIDs ids) source
        budget).looper.c.DIFPtrValueAtReturnedPos.total
      = (loop nav NUMBER_PAD ((BufferLooper.new debug).setDetectorIDs ids) source
          budget).calls.count (Call.endDIF Source) ∧
    (loop nav NUMBER_PAD ((BufferLooper.new debug).setDetectorIDs ids) source
        budget).looper.c.SizeAfterDIFPtr.total
      = (loop nav NUMBER_PAD ((BufferLooper.new debug).setDetectorIDs ids) source
          budget).calls.count (Call.endDIF Source) ∧
    (loop nav NUMBER_PAD ((BufferLooper.new debug).setDetectorIDs ids) source
        budget).looper.c.SizeAfterAllData.total
      = (loop nav NUMBER_PAD ((BufferLooper.new debug).setDetectorIDs ids) source
          budget).calls.count (Call.endDIF Source) ∧
    (loop nav NUMBER_PAD ((BufferLooper.new debug).setDetectorIDs ids) source
        budget).looper.c.NonZeroValusAtEndOfData.total
      = (loop nav NUMBER_PAD ((BufferLooper.new debug).setDetectorIDs ids) source
          budget).calls.count (Call.endDIF Source) ∧
    (loop nav NUMBER_PAD ((BufferLooper.new debug).setDetectorIDs ids) source
        budget).calls.count (Call.endDIF Source)
      = ((source.take (eventsProcessed budget 1 source.length)).map
          (fun ev => (ev.filter (fun b => unfilteredValid nav ids b)).length)).sum ∧
    (loop nav NUMBER_PAD ((BufferLooper.new debug).setDetectorIDs ids) source
        budget).looper.c.hasSlowControl
      ≤ (loop nav NUMBER_PAD ((BufferLooper.new debug).setDetectorIDs ids) source
          budget).calls.count (Call.endDIF Source) := by
  obtain ⟨-, q1, -, q2⟩ := ind_startDIF_facts
  have n1 : Call.ind (Call.startDIF Source) Call.nextDIFbuffer = 0 := by simp [Call.ind]
  have n2 : Call.ind (Call.endDIF Source) Call.nextDIFbuffer = 0 := by simp [Call.ind]
  have t := fun c b h =>
    difBody_totals nav NUMBER_PAD ((BufferLooper.new debug).setDetectorIDs ids).m_DetectorIDs
      ((BufferLooper.new debug).setDetectorIDs ids).m_Debug c b h
  have e1 := loop_potential_eq nav NUMBER_PAD budget (fun c => c.DIFStarter.total) _
    ((BufferLooper.new debug).setDetectorIDs ids) q1 n1 (fun c b h => (t c b h).1) source hab
  have e2 := loop_potential_eq nav NUMBER_PAD budget (fun c => c.DIFPtrValueAtReturnedPos.total)
    _ ((BufferLooper.new debug).setDetectorIDs ids) q2 n2 (fun c b h => (t c b h).2.1) source hab
  have e3 := loop_potential_eq nav NUMBER_PAD budget (fun c => c.SizeAfterDIFPtr.total) _
    ((BufferLooper.new debug).setDetectorIDs ids) q2 n2 (fun c b h => (t c b h).2.2.1) source hab
  have e4 := loop_potential_eq nav NUMBER_PAD budget (fun c => c.SizeAfterAllData.total) _
    ((BufferLooper.new debug).setDetectorIDs ids) q2 n2 (fun c b h => (t c b h).2.2.2.1) source
    hab
  have e5 := loop_potential_eq nav NUMBER_PAD budget (fun c => c.NonZeroValusAtEndOfData.total)
    _ ((BufferLooper.new debug).setDetectorIDs ids) q2 n2 (fun c b h => (t c b h).2.2.2.2.1)
    source hab
  have e6 := loop_potential nav NUMBER_PAD budget (fun c => c.hasSlowControl) _
    ((BufferLooper.new debug).setDetectorIDs ids) q2 n2 (fun c b h => (t c b h).2.2.2.2.2)
    source hab
  rw [weigh_ind] at e1 e2 e3 e4 e5 e6
  have z : ((BufferLooper.new debug).setDetectorIDs ids).c = BufferLooperCounter.init := rfl
  have z0 : StdMap.empty.total = 0 := rfl
  simp only [z, BufferLooperCounter.init, z0, zero_add] at e1 e2 e3 e4 e5 e6
  exact ⟨e1, e2, e3, e4, e5,
    loop_count_endDIF nav NUMBER_PAD budget ((BufferLooper.new debug).setDetectorIDs ids) source
      hab, e6⟩

/-- An instance of C17: a run in debug mode over an event with a valid buffer, a buffer that is
not valid and a buffer of a detector that is not in the allow-list. -/
theorem counter_totals_agree_with_DIF_calls_witness :
    (loop exampleNavigator 2 ((BufferLooper.new true).setDetectorIDs [7])
        [[goodBuffer, noSentinelBuffer, otherDetectorBuffer]] 1).looper.c.DIFStarter.total
      = (2 : Nat) ∧
    (loop exampleNavigator 2 ((BufferLooper.new true).setDetectorIDs [7])
        [[goodBuffer, noSentinelBuffer, otherDetectorBuffer]] 1).looper.c.SizeAfterAllData.total
      = (1 : Nat) :=
  ⟨(counter_totals_agree_with_DIF_calls exampleNavigator 2 true [7]
      [[goodBuffer, noSentinelBuffer, otherDetectorBuffer]] 1 (by decide)).1.trans (by decide),
   (counter_totals_agree_with_DIF_calls exampleNavigator 2 true [7]
      [[goodBuffer, noSentinelBuffer, otherDetectorBuffer]] 1
      (by decide)).2.2.2.1.trans (by decide)⟩

/-- C18 (as stated it fails). A freshly constructed looper, the budget `2 ^ 32 - 1` and a Source
that yields `2 ^ 32` events without DIF buffer: `nextEvent` is called `2 ^ 32 + 1` times, not
`min(N, K) + 1 = 2 ^ 32` times. -/
theorem budget_4294967295_calls_nextEvent_4294967297_times :
    (loop exampleNavigator 2 (BufferLooper.new false) (List.replicate 4294967296 [])
        4294967295).calls.count Call.nextEvent = 4294967297 ∧
    min 4294967295 (List.replicate 4294967296 ([] : List Buffer)).length + 1 = 4294967296 := by
  have hab := loop_aborted_of_not_debug exampleNavigator 2 4294967295 (BufferLooper.new false)
    (List.replicate 4294967296 []) rfl
  obtain ⟨-, -, -, -, h⟩ := loop_counts exampleNavigator 2 4294967295 (BufferLooper.new false)
    (List.replicate 4294967296 []) (by simp [BufferLooper.new]) hab
  have hm : (BufferLooper.new false).m_NbrEvents = 1 := rfl
  constructor
  · rw [h, hm, List.length_replicate,
      eventsProcessed_max_budget 4294967295 4294967296 (by norm_num) 1 (by norm_num)]
  · rw [List.length_replicate]
    norm_num

/-- C18 (amended). On a freshly constructed looper, for a budget `N` and a Source that yields `K`
events, unless `N = 2 ^ 32 - 1` and `K >= 2 ^ 32`: a run that no assertion ends calls
`nextEvent` `min(N, K) + 1` times. When `K > N` the Source has been advanced past its event
`N + 1`, `startEvent` and `endEvent` have been issued `N` times only, and the last `nextEvent` is
followed at once by `end` on the Destination and on the Source. -/
theorem nextEvent_called_once_more_than_events_processed (nav : RawBufferNavigator)
    (NUMBER_PAD : Nat) (debug : Bool) (ids : List DetectorID) (source : SourceScript) (N : Nat)
    (hN : N < 2 ^ 32) (h : N < 2 ^ 32 - 1 ∨ source.length < 2 ^ 32)
    (hab : (loop nav NUMBER_PAD ((BufferLooper.new debug).setDetectorIDs ids) source
      N).aborted = false) :
    (loop nav NUMBER_PAD ((BufferLooper.new debug).setDetectorIDs ids) source
        N).calls.count Call.nextEvent = min N source.length + 1 ∧
    (∃ pre, (loop nav NUMBER_PAD ((BufferLooper.new debug).setDetectorIDs ids) source N).calls
      = pre ++ [Call.nextEvent, Call.end_ Destination, Call.end_ Source]) ∧
    (N < source.length →
      (loop nav NUMBER_PAD ((BufferLooper.new debug).setDetectorIDs ids) source N).source
        = source.drop (N + 1) ∧
      ∀ x, (loop nav NUMBER_PAD ((BufferLooper.new debug).setDetectorIDs ids) source
            N).calls.count (Call.startEvent x) = N ∧
        (loop nav NUMBER_PAD ((BufferLooper.new debug).setDetectorIDs ids) source
            N).calls.count (Call.endEvent x) = N) := by
  have hm : ((BufferLooper.new debug).setDetectorIDs ids).m_NbrEvents = 1 := rfl
  have hP := eventsProcessed_fresh N source.length hN h
  obtain ⟨-, -, h1, h2, h3⟩ := loop_counts nav NUMBER_PAD N
    ((BufferLooper.new debug).setDetectorIDs ids) source (by rw [hm]; norm_num) hab
  obtain ⟨-, h5⟩ := loop_counter_and_source nav NUMBER_PAD N
    ((BufferLooper.new debug).setDetectorIDs ids) source (by rw [hm]; norm_num) hab
  rw [hm, hP] at h1 h2 h3 h5
  refine ⟨h3, ?_, ?_⟩
  · have hab2 := hab
    rw [loop_aborted_eq] at hab2
    obtain ⟨pre, hpre⟩ := eventLoop_calls_last nav NUMBER_PAD N source _ hab2
    rw [loop_completed nav NUMBER_PAD N _ source hab2, hpre]
    exact ⟨[Call.start Source, Call.start Destination] ++ pre, by simp⟩
  · intro hK
    have hmin : min N source.length = N := by omega
    rw [hmin] at h1 h2 h5
    exact ⟨h5, fun x => ⟨h1 x, h2 x⟩⟩

/-- An instance of the amended C18: budget `1` and two events, in debug mode: `nextEvent` is
called twice. -/
theorem nextEvent_called_once_more_than_events_processed_witness :
    (loop exampleNavigator 2 ((BufferLooper.new true).setDetectorIDs [7])
        [[goodBuffer], [noSentinelBuffer]] 1).calls.count Call.nextEvent = 2 :=
  (nextEvent_called_once_more_than_events_processed exampleNavigator 2 true [7]
    [[goodBuffer], [noSentinelBuffer]] 1 (by norm_num) (Or.inl (by norm_num)) (by decide)).1

/-- C19 (as stated it fails). A freshly constructed looper and the budget `N = 2 ^ 32 - 1`: the
first call of `loop(N)`, on a Source that yields `N` events, leaves `m_NbrEvents` wrapped to `0`;
a second call of `loop(N)`, during which the Source yields one event, processes that event. -/
theorem second_run_with_budget_4294967295_processes_an_event :
    (loop exampleNavigator 2
        (loop exampleNavigator 2 (BufferLooper.new false) (List.replicate 4294967295 [])
          4294967295).looper
        [[]] 4294967295).calls.count (Call.startEvent Source) = 1 ∧
    4294967295 ≤ (List.replicate 4294967295 ([] : List Buffer)).length ∧
    (loop exampleNavigator 2 (BufferLooper.new false) (List.replicate 4294967295 [])
          4294967295).looper.m_NbrEvents = 0 := by
  have hab := loop_aborted_of_not_debug exampleNavigator 2 4294967295 (BufferLooper.new false)
    (List.replicate 4294967295 []) rfl
  obtain ⟨h, -⟩ := loop_counter_and_source exampleNavigator 2 4294967295 (BufferLooper.new false)
    (List.replicate 4294967295 []) (by simp [BufferLooper.new]) hab
  have hm : (BufferLooper.new false).m_NbrEvents = 1 := rfl
  rw [hm, List.length_replicate,
    eventsProcessed_max_budget 4294967295 4294967295 (by norm_num) 1 (by norm_num)] at h
  have h0 : (loop exampleNavigator 2 (BufferLooper.new false) (List.replicate 4294967295 [])
      4294967295).looper.m_NbrEvents = 0 := by
    rw [h]
    norm_num
  have hd : (loop exampleNavigator 2 (BufferLooper.new false) (List.replicate 4294967295 [])
      4294967295).looper.m_Debug = false := by
    rw [loop_looper]
    exact (eventLoop_config exampleNavigator 2 4294967295 _ (BufferLooper.new false)).2
  have hab2 := loop_aborted_of_not_debug exampleNavigator 2 4294967295 _ [[]] hd
  obtain ⟨-, -, hc, -, -⟩ := loop_counts exampleNavigator 2 4294967295 _ [[]]
    (by rw [h0]; norm_num) hab2
  refine ⟨?_, ?_, h0⟩
  · rw [hc Source, h0]
    simp [eventsProcessed]
  · rw [List.length_replicate]

/-- C19 (amended). The processed-event counter is state of the looper and is not reset by
`loop`. For a budget `N < 2 ^ 32 - 1`: after a first call of `loop(N)` on a freshly constructed
looper that no assertion ends, with a Source that yields at least `N` events, a second call of
`loop(N)` issues `start` on both collaborators, one `nextEvent` and `end` on both collaborators,
whatever the Source yields, so it processes no event. Over successive calls on a freshly
constructed looper whose budgets are all below `2 ^ 32 - 1`, the number of `startEvent` issued to
the Source is at most the largest budget. -/
theorem counter_persists_across_runs (nav : RawBufferNavigator) (NUMBER_PAD : Nat)
    (debug : Bool) (ids : List DetectorID) :
    (∀ (N : Nat) (source1 source2 : SourceScript), N < 2 ^ 32 - 1 → N ≤ source1.length →
      (loop nav NUMBER_PAD ((BufferLooper.new debug).setDetectorIDs ids) source1
        N).aborted = false →
      (loop nav NUMBER_PAD ((BufferLooper.new debug).setDetectorIDs ids) source1
        N).looper.m_NbrEvents = N + 1 ∧
      (loop nav NUMBER_PAD
        (loop nav NUMBER_PAD ((BufferLooper.new debug).setDetectorIDs ids) source1 N).looper
        source2 N).calls
        = [Call.start Source, Call.start Destination, Call.nextEvent,
            Call.end_ Destination, Call.end_ Source]) ∧
    (∀ runs : List (Nat × SourceScript), (∀ p ∈ runs, p.1 < 2 ^ 32 - 1) →
      eventsStarted (loopSeq nav NUMBER_PAD ((BufferLooper.new debug).setDetectorIDs ids) runs)
        ≤ (runs.map Prod.fst).foldr max 0) := by
  have hm : ((BufferLooper.new debug).setDetectorIDs ids).m_NbrEvents = 1 := rfl
  constructor
  · intro N source1 source2 hN hK hab
    obtain ⟨h1, -⟩ := loop_counter_and_source nav NUMBER_PAD N
      ((BufferLooper.new debug).setDetectorIDs ids) source1 (by rw [hm]; norm_num) hab
    rw [hm, eventsProcessed_fresh N source1.length (by omega) (Or.inl hN)] at h1
    have h2 : (loop nav NUMBER_PAD ((BufferLooper.new debug).setDetectorIDs ids) source1
        N).looper.m_NbrEvents = N + 1 := by
      rw [h1, Nat.min_eq_left hK]
      have hlt : 1 + N < 2 ^ 32 := by omega
      rw [Nat.mod_eq_of_lt hlt]
      omega
    refine ⟨h2, ?_⟩
    have he : ∀ lp : BufferLooper, lp.m_NbrEvents = N + 1 →
        eventLoop nav NUMBER_PAD N lp source2
          = ⟨lp, source2.drop 1, [Call.nextEvent], false⟩ := by
      intro lp hlp
      cases source2 with
      | nil => rfl
      | cons ev rest => exact eventLoop_cons_over nav NUMBER_PAD N lp ev rest (by omega)
    have he2 := he _ h2
    rw [loop_completed nav NUMBER_PAD N _ source2 (by rw [he2]), he2]
    rfl
  · intro runs hall
    have hB : (runs.map Prod.fst).foldr max 0 < 2 ^ 32 - 1 := by
      apply foldr_max_lt _ _ (by norm_num)
      intro n hn
      obtain ⟨p, hp, rfl⟩ := List.mem_map.1 hn
      exact hall p hp
    have := loopSeq_started nav NUMBER_PAD _ hB runs
      (fun p hp => le_foldr_max _ _ (List.mem_map_of_mem _ hp))
      ((BufferLooper.new debug).setDetectorIDs ids) (by rw [hm]; omega)
    rw [hm] at this
    omega

/-- An instance of the amended C19: budget `1` and one event in the first call, in debug mode;
the second call, during which the Source yields a valid buffer, processes nothing. -/
theorem counter_persists_across_runs_witness :
    (loop exampleNavigator 2
        (loop exampleNavigator 2 ((BufferLooper.new true).setDetectorIDs [7]) [[goodBuffer]]
          1).looper
        [[goodBuffer]] 1).calls
      = [Call.start Source, Call.start Destination, Call.nextEvent,
          Call.end_ Destination, Call.end_ Source] :=
  ((counter_persists_across_runs exampleNavigator 2 true [7]).1 1 [[goodBuffer]] [[goodBuffer]]
    (by norm_num) (by decide) (by decide)).2

end Streamout
